import Mathlib

/-!
Shallow embedding of the facturx-mcp structured-invoice engine
(src/src/facturx/types.ts, validator.ts, generator.ts, parser.ts and the
tool-dispatch defaults of src/src/index.ts).

Modelling conventions:
* JavaScript numbers are modelled as `ℚ`; `Math.round` is `⌊x + 1/2⌋`
  (half toward +∞), which is exact real-number semantics of the source's
  rounding steps.
* Strings stay `String`; JS truthiness of a string is `≠ ""`, of an
  optional value `Option.isSome` refined by emptiness where the source
  tests truthiness.
* The XML layer (xmlbuilder2 serialisation / fast-xml-parser parsing) is
  modelled by an `Xml` tree for the generator and a `JValue` object tree
  for the parser, with `xmlToJd` reproducing fast-xml-parser's
  objectification (namespace-prefix stripping, `@_` attribute prefix,
  `#text` nodes, single-vs-array children, trimmed values, and the default
  parseTagValue numeric coercion of element text, modelled at the string
  level by `coerceText` = String ∘ strnum.toNumber).
-/

/-- Characters treated as whitespace by string trimming (ASCII subset of JS \s). -/
def isWsC (c : Char) : Bool := c == ' ' || c == '\t' || c == '\n' || c == '\r'

def isDigitC (c : Char) : Bool := '0' ≤ c && c ≤ '9'

def isUpperC (c : Char) : Bool := 'A' ≤ c && c ≤ 'Z'

def isUpAlnumC (c : Char) : Bool := isUpperC c || isDigitC c

/-- Character class of every number rendering in this development: digits,
    minus sign, decimal point. -/
def isNumC (c : Char) : Bool := isDigitC c || c == '-' || c == '.'

/-- Model of JavaScript String.prototype.trim (ASCII whitespace). -/
def jsTrim (s : String) : String :=
  ⟨((s.data.dropWhile isWsC).reverse.dropWhile isWsC).reverse⟩

/-- Model of the validator regex DATE_RE = YYYY-MM-DD. -/
def dateRE (s : String) : Bool :=
  match s.data with
  | [y1, y2, y3, y4, h1, m1, m2, h2, d1, d2] =>
    isDigitC y1 && isDigitC y2 && isDigitC y3 && isDigitC y4 && h1 == '-' &&
    isDigitC m1 && isDigitC m2 && h2 == '-' && isDigitC d1 && isDigitC d2
  | _ => false

/-- Model of the validator regex CURRENCY_RE = three uppercase letters. -/
def currencyRE (s : String) : Bool :=
  match s.data with
  | [a, b, c] => isUpperC a && isUpperC b && isUpperC c
  | _ => false

/-- Model of the validator regex COUNTRY_RE = two uppercase letters. -/
def countryRE (s : String) : Bool :=
  match s.data with
  | [a, b] => isUpperC a && isUpperC b
  | _ => false

/-- Model of the validator IBAN shape regex. -/
def ibanRE (s : String) : Bool :=
  match s.data with
  | a :: b :: c :: d :: rest =>
    isUpperC a && isUpperC b && isDigitC c && isDigitC d &&
    rest.all isUpAlnumC && decide (4 ≤ rest.length) && decide (rest.length ≤ 30)
  | _ => false

/-- Model of .replace(/\s/g, '') on IBANs. -/
def stripSpaces (s : String) : String := ⟨s.data.filter (fun c => !isWsC c)⟩

def isPfx : List Char → List Char → Bool
  | [], _ => true
  | _ :: _, [] => false
  | a :: as, b :: bs => a == b && isPfx as bs

def hasSubAux (sub : List Char) : List Char → Bool
  | [] => sub.isEmpty
  | c :: cs => isPfx sub (c :: cs) || hasSubAux sub cs

/-- Model of JavaScript String.prototype.includes. -/
def strContains (s sub : String) : Bool := hasSubAux sub.data s.data

/-- Model of fast-xml-parser removeNSPrefix: drop everything through the first colon. -/
def stripNS (s : String) : String :=
  match s.data.dropWhile (fun c => !(c == ':')) with
  | [] => s
  | _ :: rest => ⟨rest⟩

/-- Model of JavaScript Math.abs. -/
def jsAbs (q : ℚ) : ℚ := if q < 0 then -q else q

/-- Model of JavaScript Math.round: floor(x + 1/2), ties toward +∞. -/
def jsRound (q : ℚ) : ℤ := ⌊q + 1 / 2⌋

/-- Source idiom Math.round(x * 100) / 100. -/
def round2 (q : ℚ) : ℚ := (jsRound (q * 100) : ℚ) / 100

def natDigitsAux : ℕ → ℕ → List ℕ
  | 0, _ => []
  | _ + 1, 0 => []
  | fuel + 1, n + 1 => (n + 1) % 10 :: natDigitsAux fuel ((n + 1) / 10)

def digitChar (d : ℕ) : Char := Char.ofNat (48 + d)

def natChars (n : ℕ) : List Char :=
  if n = 0 then ['0'] else ((natDigitsAux n n).map digitChar).reverse

def natStr (n : ℕ) : String := ⟨natChars n⟩

def padZeros (k : ℕ) (l : List Char) : List Char := List.replicate (k - l.length) '0' ++ l

/-- Decimal rendering of m / 10^k with exactly k fractional digits (used with k ≥ 1). -/
def renderFixed (m : ℤ) (k : ℕ) : String :=
  ⟨(if m < 0 then ['-'] else []) ++ natChars (m.natAbs / 10 ^ k) ++
    '.' :: padZeros k (natChars (m.natAbs % 10 ^ k))⟩

/-- Model of the generator helper fmt = Number.prototype.toFixed(2): the nearest
    2-decimal value, ties toward the larger candidate, i.e. floor(x*100 + 1/2)/100. -/
def fmt (q : ℚ) : String := renderFixed (jsRound (q * 100)) 2

def stripPAux (p : ℕ) : ℕ → ℕ → ℕ × ℕ
  | 0, n => (0, n)
  | fuel + 1, n =>
    if 2 ≤ p ∧ 0 < n ∧ n % p = 0 then
      ((stripPAux p fuel (n / p)).1 + 1, (stripPAux p fuel (n / p)).2)
    else (0, n)

def stripP (p n : ℕ) : ℕ × ℕ := stripPAux p n n

/-- Smallest k with d ∣ 10 ^ k, when d has no prime factors besides 2 and 5. -/
def pow10exp (d : ℕ) : Option ℕ :=
  if (stripP 5 (stripP 2 d).2).2 = 1 then some (max (stripP 2 d).1 (stripP 5 (stripP 2 d).2).1)
  else none

/-- Whether a rational is a finite decimal; every double printed by JS is. -/
def isDec (q : ℚ) : Bool := (pow10exp q.den).isSome

/-- Model of JavaScript String(n) on finite-decimal numbers (the only values a
    double rendered without exponent notation can take). -/
def jsStr (q : ℚ) : String :=
  match pow10exp q.den with
  | none => "0"
  | some 0 => ⟨(if q.num < 0 then ['-'] else []) ++ natChars q.num.natAbs⟩
  | some (k + 1) => renderFixed (q.num * 10 ^ (k + 1) / (q.den : ℤ)) (k + 1)

def digitsVal (cs : List Char) : ℕ := cs.foldl (fun acc c => acc * 10 + (c.toNat - 48)) 0

/-- Leading-sign handling of parseFloat. -/
def splitSign : List Char → ℚ × List Char
  | [] => (1, [])
  | c :: t => if c == '-' then (-1, t) else if c == '+' then (1, t) else (1, c :: t)

/-- Fraction part of parseFloat: digits following a dot. -/
def fracPart : List Char → List Char
  | '.' :: t => t.takeWhile isDigitC
  | _ => []

/-- Model of JavaScript parseFloat; `none` encodes NaN. -/
def parseQ (s : String) : Option ℚ :=
  let p := splitSign s.data
  let ds := p.2.takeWhile isDigitC
  let fs := fracPart (p.2.dropWhile isDigitC)
  if ds.isEmpty && fs.isEmpty then none
  else some (p.1 * ((digitsVal ds : ℚ) + (digitsVal fs : ℚ) / 10 ^ fs.length))

/-- Generator helper toDate8: removes every dash of an ISO date. -/
def toDate8 (s : String) : String := ⟨s.data.filter (fun c => !(c == '-'))⟩

/-- Parser helper toIsoDate: re-inserts dashes into an 8-character compact date. -/
def toIsoDate (s : String) : String :=
  match s.data with
  | [a, b, c, d, e, f, g, h] => ⟨[a, b, c, d, '-', e, f, '-', g, h]⟩
  | _ => s

/-! The XMLParser of generator.ts leaves parseTagValue at its default (true),
    so fast-xml-parser feeds every element text through strnum's toNumber with
    the default options (hex, leadingZeros and eNotation all enabled); a text
    that parses becomes a JS number, which the str() helper later renders back
    with String(n).  On every string the parser reads, the net effect is the
    string transformation coerceText below: String(toNumber(s)) when toNumber
    returns a number, the identity otherwise ("007" becomes "7", "01000"
    becomes "1000", "1500.00" becomes "1500", while "2024-01-15" or "EUR" are
    untouched).  Attribute values are exempt (parseAttributeValue is false). -/

def isHexDigC (c : Char) : Bool := isDigitC c || ('a' ≤ c && c ≤ 'f') || ('A' ≤ c && c ≤ 'F')

/-- The optional leading sign consumed by strnum's regexes. -/
def signSplit (l : List Char) : Option Char × List Char :=
  match l with
  | [] => (none, [])
  | c :: t => if c == '+' then (some '+', t) else if c == '-' then (some '-', t) else (none, l)

/-- strnum's hexRegex, the anchored [-+]?0x[a-fA-F0-9]+ (lower-case x). -/
def hexRE (s : String) : Bool :=
  match (signSplit s.data).2 with
  | c1 :: c2 :: rest => c1 == '0' && c2 == 'x' && !rest.isEmpty && rest.all isHexDigC
  | _ => false

def hexDigVal (c : Char) : ℕ :=
  if isDigitC c then c.toNat - 48
  else if 'a' ≤ c && c ≤ 'f' then c.toNat - 87
  else c.toNat - 55

/-- Value of Number.parseInt(s, 16) on a string accepted by hexRE. -/
def hexVal (s : String) : ℚ :=
  let sp := signSplit s.data
  let mag : ℕ :=
    match sp.2 with
    | _ :: _ :: rest => rest.foldl (fun acc c => acc * 16 + hexDigVal c) 0
    | _ => 0
  if sp.1 == some '-' then -(mag : ℚ) else (mag : ℚ)

/-- The optional exponent tail of strnum's numRegex, the anchored
    [eE]-?[0-9]+ : the scale factor it denotes and whether it is present. -/
def expSuffix (l : List Char) : Option (ℚ × Bool) :=
  match l with
  | [] => some (1, false)
  | c :: t =>
    if c == 'e' || c == 'E' then
      let neg := t.head? == some '-'
      let ds := if neg then t.tail else t
      if !ds.isEmpty && ds.all isDigitC then
        some (if neg then 1 / 10 ^ digitsVal ds else (10 : ℚ) ^ digitsVal ds, true)
      else none
    else none

/-- Value and exponent presence of match[3] of strnum's numRegex, the
    alternation of .digits with optional exponent and digits with optional
    .digits-and-exponent. -/
def restValNum (l : List Char) : Option (ℚ × Bool) :=
  match l with
  | [] => none
  | c :: t =>
    if c == '.' then
      let fs := t.takeWhile isDigitC
      if fs.isEmpty then none
      else
        match expSuffix (t.dropWhile isDigitC) with
        | none => none
        | some (sc, ep) => some ((digitsVal fs : ℚ) / 10 ^ fs.length * sc, ep)
    else
      let ds := l.takeWhile isDigitC
      if ds.isEmpty then none
      else
        match l.dropWhile isDigitC with
        | [] => some ((digitsVal ds : ℚ), false)
        | c2 :: t2 =>
          if c2 == '.' then
            let fs := t2.takeWhile isDigitC
            if fs.isEmpty then none
            else
              match expSuffix (t2.dropWhile isDigitC) with
              | none => none
              | some (sc, ep) =>
                some (((digitsVal ds : ℚ) + (digitsVal fs : ℚ) / 10 ^ fs.length) * sc, ep)
          else none

/-- The pieces of a successful strnum numRegex match: the sign match[1], the
    leading zeros match[2], the remainder match[3], the signed value
    Number(s), and whether an exponent was written. -/
structure NumMatch where
  sgn : Option Char
  zeros : List Char
  rest : List Char
  val : ℚ
  hasExp : Bool
deriving Repr

/-- strnum's numRegex decomposition of a string it accepts.  The greedy (0*)
    backtracks by one zero exactly when the remainder would otherwise be
    empty (an all-zero integer part). -/
def matchNum (s : String) : Option NumMatch :=
  let sp := signSplit s.data
  let zs0 := sp.2.takeWhile (fun c => c == '0')
  let rest0 := sp.2.dropWhile (fun c => c == '0')
  let zr := if rest0.isEmpty && !zs0.isEmpty then (zs0.dropLast, ['0']) else (zs0, rest0)
  match restValNum zr.2 with
  | none => none
  | some (v, ep) =>
    some { sgn := sp.1, zeros := zr.1, rest := zr.2,
           val := if sp.1 == some '-' then -v else v, hasExp := ep }

/-- strnum's trimZeros: trailing zeros of a string containing a decimal point
    are removed, with the lone-dot, leading-dot and trailing-dot fixups of the
    source. -/
def trimZeros (cs : List Char) : List Char :=
  if cs.contains '.' then
    let r := (cs.reverse.dropWhile (fun c => c == '0')).reverse
    if r = ['.'] then ['0']
    else if r.head? = some '.' then '0' :: r
    else if r.getLast? = some '.' then r.dropLast
    else r
  else cs

/-- String-level view of strnum's toNumber followed by the parser's str():
    each branch of the source either keeps the input string or produces a
    number num, whose later str() reading is String(num) = jsStr num under
    the finite-decimal idealisation of doubles used throughout this
    development. -/
def coerceText (s : String) : String :=
  if s == "" then s
  else if hexRE s then jsStr (hexVal s)
  else
    match matchNum s with
    | none => s
    | some m =>
      let numStr := jsStr m.val
      let ntz := trimZeros m.rest
      if numStr.data.any (fun c => c == 'e' || c == 'E') then numStr
      else if m.hasExp then numStr
      else if s.data.contains '.' then
        if (numStr == "0" && ntz.isEmpty) || numStr == (⟨ntz⟩ : String) ||
            (m.sgn.isSome && numStr == (⟨'-' :: ntz⟩ : String)) then numStr
        else s
      else if !m.zeros.isEmpty then
        if (⟨ntz⟩ : String) == numStr ||
            (match m.sgn with
             | some c => ((⟨c :: ntz⟩ : String) == numStr)
             | none => false) then numStr
        else s
      else
        if s == numStr ||
            (match m.sgn with
             | some c => (s == (⟨c :: numStr.data⟩ : String))
             | none => false) then numStr
        else s

/-! Data model, from src/src/facturx/types.ts.  TS-optional fields become
    `Option`; the closed string-literal unions (type code, profile, VAT
    category, payment means) are kept as `String` because the parser builds
    them from arbitrary XML text. -/

structure TradePartyAddress where
  street : String
  additionalStreet : Option String := none
  city : String
  postalCode : String
  countryCode : String
  stateOrProvince : Option String := none
deriving DecidableEq, Repr

structure PartyContact where
  name : Option String := none
  email : Option String := none
  phone : Option String := none
deriving DecidableEq, Repr

structure TradeParty where
  name : String
  id : Option String := none
  vatNumber : Option String := none
  legalId : Option String := none
  address : TradePartyAddress
  contact : Option PartyContact := none
deriving DecidableEq, Repr

structure InvoiceLine where
  id : String
  description : String
  quantity : ℚ
  unitCode : String
  unitPrice : ℚ
  totalAmount : ℚ
  vatRate : ℚ
  vatCategory : String
  productId : Option String := none
  buyerProductId : Option String := none
  note : Option String := none
deriving DecidableEq, Repr

structure PaymentInfo where
  meansCode : String
  iban : Option String := none
  bic : Option String := none
  reference : Option String := none
  terms : Option String := none
deriving DecidableEq, Repr

structure Invoice where
  number : String
  typeCode : String
  date : String
  dueDate : Option String := none
  deliveryDate : Option String := none
  currency : String
  profile : String
  seller : TradeParty
  buyer : TradeParty
  lines : List InvoiceLine
  payment : Option PaymentInfo := none
  purchaseOrderRef : Option String := none
  contractRef : Option String := none
  notes : Option String := none
  buyerRef : Option String := none
deriving DecidableEq, Repr

structure VatSummary where
  categoryCode : String
  rate : ℚ
  taxableAmount : ℚ
  taxAmount : ℚ
deriving DecidableEq, Repr

structure InvoiceTotals where
  lineTotalAmount : ℚ
  taxBasisTotalAmount : ℚ
  taxTotalAmount : ℚ
  grandTotalAmount : ℚ
  duePayableAmount : ℚ
  vatSummaries : List VatSummary
deriving DecidableEq, Repr

structure ValidationResult where
  valid : Bool
  errors : List String
  warnings : List String
deriving DecidableEq, Repr

/-! Validator, from src/src/facturx/validator.ts. The typeof/isNaN guards on
    quantity, unitPrice, totalAmount and vatRate can never fire in the
    rational model (every `ℚ` is a number and not NaN), so only the
    `vatRate < 0` half of the BT-152 condition remains. -/

def errIf (b : Bool) (msg : String) : List String := if b then [msg] else []

/-- JS truthiness of a possibly-absent string. -/
def otru : Option String → Bool
  | none => false
  | some s => !(s == "")

/-- Condition of the optional-date checks: date present (truthy) and ill-formed. -/
def optBadDate : Option String → Bool
  | none => false
  | some d => !(d == "") && !(dateRE d)

def INVOICE_TYPE_CODES : List String := ["380", "381", "389", "384"]

def VAT_CATEGORY_CODES : List String := ["S", "Z", "E", "K", "G", "O", "L", "M"]

def headerErrors (inv : Invoice) : List String :=
  errIf (jsTrim inv.number == "") "BT-1 : Numéro de facture requis"
  ++ errIf (!dateRE inv.date) "BT-2 : Date de facture invalide (format attendu : YYYY-MM-DD)"
  ++ errIf (!INVOICE_TYPE_CODES.contains inv.typeCode)
      "BT-3 : Code type facture invalide (valeurs : 380, 381, 389, 384)"
  ++ errIf (!currencyRE inv.currency) "BT-5 : Code devise invalide (format ISO 4217, ex: EUR)"
  ++ errIf (inv.profile == "") "Profil Factur-X requis (MINIMUM, BASIC, EN_16931, EXTENDED)"
  ++ errIf (optBadDate inv.dueDate) "BT-9 : Date d\x27échéance invalide (format attendu : YYYY-MM-DD)"
  ++ errIf (optBadDate inv.deliveryDate) "Date de livraison invalide (format attendu : YYYY-MM-DD)"

def sellerErrors (p : TradeParty) : List String :=
  errIf (jsTrim p.name == "") "BT-27 : Nom du vendeur requis"
  ++ errIf (jsTrim p.address.street == "") "BT-35 : Adresse (rue) du vendeur requise"
  ++ errIf (jsTrim p.address.city == "") "BT-37 : Ville du vendeur requise"
  ++ errIf (jsTrim p.address.postalCode == "") "BT-38 : Code postal du vendeur requis"
  ++ errIf (!countryRE p.address.countryCode)
      "BT-40 : Code pays vendeur invalide (format ISO 3166-1 alpha-2, ex: FR)"

def sellerWarnings (p : TradeParty) : List String :=
  errIf (!otru p.vatNumber && !otru p.id)
    "BT-31/BT-29 : Numéro de TVA ou identifiant vendeur recommandé pour le profil EN 16931"

def buyerErrors (p : TradeParty) : List String :=
  errIf (jsTrim p.name == "") "BT-44 : Nom de l\x27acheteur requis"
  ++ errIf (!countryRE p.address.countryCode)
      "BT-57 : Code pays acheteur invalide (format ISO 3166-1 alpha-2, ex: FR)"

def lineRef (l : InvoiceLine) (i : ℕ) : String :=
  "Ligne " ++ (if l.id == "" then natStr (i + 1) else l.id)

def lineErrors (seen : List String) (l : InvoiceLine) (i : ℕ) : List String :=
  errIf (seen.contains l.id) (lineRef l i ++ " : Identifiant de ligne dupliqué (BT-126)")
  ++ errIf (jsTrim l.description == "") (lineRef l i ++ " : Désignation requise (BT-153)")
  ++ errIf (jsTrim l.unitCode == "")
      (lineRef l i ++ " : Code unité requis (BT-130) — ex: C62 (pièce), HUR (heure)")
  ++ errIf (decide (l.vatRate < 0)) (lineRef l i ++ " : Taux TVA invalide (BT-152) — doit être >= 0")
  ++ errIf (!VAT_CATEGORY_CODES.contains l.vatCategory)
      (lineRef l i ++ " : Code catégorie TVA invalide (BT-151) — valeurs: S, Z, E, K, G, O")

def linesErrAux : List String → ℕ → List InvoiceLine → List String
  | _, _, [] => []
  | seen, i, l :: ls => lineErrors seen l i ++ linesErrAux (l.id :: seen) (i + 1) ls

/-- Warning text of the line amount-consistency check, interpolations included. -/
def lineWarnMsg (l : InvoiceLine) (i : ℕ) (expected actual : ℚ) : String :=
  lineRef l i ++ " : Montant total (" ++ jsStr actual ++ ") ≠ quantité × prix unitaire ("
    ++ jsStr expected ++ ") — écart de " ++ fmt (jsAbs (expected - actual)) ++ " €"

def lineWarning (l : InvoiceLine) (i : ℕ) : List String :=
  errIf (decide ((1 / 50 : ℚ) < jsAbs (round2 (l.quantity * l.unitPrice) - round2 l.totalAmount)))
    (lineWarnMsg l i (round2 (l.quantity * l.unitPrice)) (round2 l.totalAmount))

def linesWarnAux : ℕ → List InvoiceLine → List String
  | _, [] => []
  | i, l :: ls => lineWarning l i ++ linesWarnAux (i + 1) ls

def paymentWarnings (inv : Invoice) : List String :=
  match inv.payment with
  | none => []
  | some pay =>
    match pay.iban with
    | none => []
    | some ib =>
      if ib == "" then []
      else errIf (!ibanRE (stripSpaces ib)) "BT-84 : Format IBAN potentiellement invalide"

def validateErrors (inv : Invoice) : List String :=
  headerErrors inv ++ sellerErrors inv.seller ++ buyerErrors inv.buyer
  ++ (if inv.lines.isEmpty then ["Au moins une ligne de facture est requise"]
      else linesErrAux [] 0 inv.lines)

def validateWarnings (inv : Invoice) : List String :=
  sellerWarnings inv.seller
  ++ (if inv.lines.isEmpty then [] else linesWarnAux 0 inv.lines)
  ++ paymentWarnings inv

/-- Model of validateInvoice: valid is errors.length === 0. -/
def validateInvoice (inv : Invoice) : ValidationResult :=
  { valid := (validateErrors inv).isEmpty
    errors := validateErrors inv
    warnings := validateWarnings inv }

/-! Totals calculator, from src/src/facturx/generator.ts (calculateTotals).
    The JS Map keyed by the string template ${cat}-${rate} is modelled by an
    insertion-ordered association list with the same string key. -/

def lineKey (l : InvoiceLine) : String := l.vatCategory ++ "-" ++ jsStr l.vatRate

def vatKey (v : VatSummary) : String := v.categoryCode ++ "-" ++ jsStr v.rate

/-- Map.has/get/set of the source's vatMap, as update-or-append on an
    insertion-ordered association list: the absent key is appended with a fresh
    summary (taxableAmount 0 then += lineTotal, combined), the present key has
    its taxableAmount increased in place. -/
def insertVat : List (String × VatSummary) → String → InvoiceLine → List (String × VatSummary)
  | [], k, l =>
    [(k, { categoryCode := l.vatCategory, rate := l.vatRate,
           taxableAmount := round2 l.totalAmount, taxAmount := 0 })]
  | (k', v) :: t, k, l =>
    if k' == k then
      (k', { v with taxableAmount := v.taxableAmount + round2 l.totalAmount }) :: t
    else (k', v) :: insertVat t k l

def addVatLine (acc : List (String × VatSummary)) (l : InvoiceLine) :
    List (String × VatSummary) :=
  insertVat acc (lineKey l) l

def finalizeVat (v : VatSummary) : VatSummary :=
  { v with taxableAmount := round2 v.taxableAmount
           taxAmount := round2 (round2 v.taxableAmount * v.rate / 100) }

/-- The VAT map after the first loop, as an insertion-ordered association list. -/
def vatList (inv : Invoice) : List (String × VatSummary) := inv.lines.foldl addVatLine []

/-- Values of the VAT map after the second (rounding) loop. -/
def vatSummariesOf (inv : Invoice) : List VatSummary :=
  (vatList inv).map (fun p => finalizeVat p.2)

/-- Accumulated and rounded line-total sum. -/
def lineTotalOf (inv : Invoice) : ℚ :=
  round2 (inv.lines.foldl (fun s l => s + round2 l.totalAmount) 0)

/-- Unrounded sum of the per-group tax amounts. -/
def taxTotalOf (inv : Invoice) : ℚ :=
  (vatSummariesOf inv).foldl (fun s v => s + v.taxAmount) 0

def grandTotalOf (inv : Invoice) : ℚ := round2 (lineTotalOf inv + taxTotalOf inv)

def calculateTotals (inv : Invoice) : InvoiceTotals :=
  { lineTotalAmount := lineTotalOf inv
    taxBasisTotalAmount := lineTotalOf inv
    taxTotalAmount := round2 (taxTotalOf inv)
    grandTotalAmount := grandTotalOf inv
    duePayableAmount := grandTotalOf inv
    vatSummaries := vatSummariesOf inv }

/-! Generator, from src/src/facturx/generator.ts (generateFacturX).  The
    xmlbuilder2 calls are modelled as construction of an `Xml` tree; every
    generated element carries either text or children, so one constructor
    with both a text field and a child list suffices. -/

inductive Xml where
  | el (name : String) (attrs : List (String × String)) (txt : String) (children : List Xml)
deriving Repr

def Xml.name : Xml → String
  | .el n _ _ _ => n

def txtEl (n t : String) : Xml := .el n [] t []

def wrapEl (n : String) (cs : List Xml) : Xml := .el n [] "" cs

/-- Conditional child list: models an if-guarded sequence of .ele calls. -/
def optEls (b : Bool) (xs : List Xml) : List Xml := if b then xs else []

def PROFILE_URN_EN16931 : String :=
  "urn:cen.eu:en16931:2017#compliant#urn:factur-x.eu:1p0:en16931"

/-- PROFILE_URNS lookup with the source's ?? EN_16931 fallback. -/
def profileUrn (p : String) : String :=
  if p == "MINIMUM" then "urn:factur-x.eu:1p0:minimum"
  else if p == "BASIC_WL" then "urn:factur-x.eu:1p0:basicwl"
  else if p == "BASIC" then "urn:factur-x.eu:1p0:basic"
  else if p == "EN_16931" then PROFILE_URN_EN16931
  else if p == "EXTENDED" then "urn:cen.eu:en16931:2017#conformant#urn:factur-x.eu:1p0:extended"
  else PROFILE_URN_EN16931

def ctxEl (inv : Invoice) : Xml :=
  wrapEl "rsm:ExchangedDocumentContext"
    [wrapEl "ram:GuidelineSpecifiedDocumentContextParameter"
      [txtEl "ram:ID" (profileUrn inv.profile)]]

def docEl (inv : Invoice) : Xml :=
  .el "rsm:ExchangedDocument" [] ""
    ([txtEl "ram:ID" inv.number,
      txtEl "ram:TypeCode" inv.typeCode,
      wrapEl "ram:IssueDateTime"
        [.el "udt:DateTimeString" [("format", "102")] (toDate8 inv.date) []]]
     ++ optEls (otru inv.notes)
          [wrapEl "ram:IncludedNote" [txtEl "ram:Content" (inv.notes.getD "")]])

def lineItemEl (line : InvoiceLine) : Xml :=
  wrapEl "ram:IncludedSupplyChainTradeLineItem"
    [wrapEl "ram:AssociatedDocumentLineDocument" [txtEl "ram:LineID" line.id],
     wrapEl "ram:SpecifiedTradeProduct"
       (optEls (otru line.productId) [txtEl "ram:SellerAssignedID" (line.productId.getD "")]
        ++ optEls (otru line.buyerProductId)
             [txtEl "ram:BuyerAssignedID" (line.buyerProductId.getD "")]
        ++ [txtEl "ram:Name" line.description]
        ++ optEls (otru line.note) [txtEl "ram:Description" (line.note.getD "")]),
     wrapEl "ram:SpecifiedLineTradeAgreement"
       [wrapEl "ram:NetPriceProductTradePrice"
         [txtEl "ram:ChargeAmount" (fmt line.unitPrice),
          .el "ram:BasisQuantity" [("unitCode", line.unitCode)] "1" []]],
     wrapEl "ram:SpecifiedLineTradeDelivery"
       [.el "ram:BilledQuantity" [("unitCode", line.unitCode)] (jsStr line.quantity) []],
     wrapEl "ram:SpecifiedLineTradeSettlement"
       [wrapEl "ram:ApplicableTradeTax"
         [txtEl "ram:TypeCode" "VAT",
          txtEl "ram:CategoryCode" line.vatCategory,
          txtEl "ram:RateApplicablePercent" (jsStr line.vatRate)],
        wrapEl "ram:SpecifiedTradeSettlementLineMonetarySummation"
          [txtEl "ram:LineTotalAmount" (fmt line.totalAmount)]]]

/-- Emails pass through contact?.email truthiness. -/
def contactEmail (p : TradeParty) : Option String := p.contact.bind (fun c => c.email)

def partyEl (tag : String) (p : TradeParty) : Xml :=
  wrapEl tag
    (optEls (otru p.id) [txtEl "ram:ID" (p.id.getD "")]
     ++ [txtEl "ram:Name" p.name]
     ++ optEls (otru p.legalId)
          [wrapEl "ram:SpecifiedLegalOrganization" [txtEl "ram:ID" (p.legalId.getD "")]]
     ++ optEls (otru p.vatNumber)
          [wrapEl "ram:SpecifiedTaxRegistration"
            [.el "ram:ID" [("schemeID", "VA")] (p.vatNumber.getD "") []]]
     ++ [wrapEl "ram:PostalTradeAddress"
          [txtEl "ram:PostcodeCode" p.address.postalCode,
           txtEl "ram:LineOne" p.address.street,
           txtEl "ram:CityName" p.address.city,
           txtEl "ram:CountryID" p.address.countryCode]]
     ++ optEls (otru (contactEmail p))
          [wrapEl "ram:URIUniversalCommunication"
            [.el "ram:URIID" [("schemeID", "EM")] ((contactEmail p).getD "") []]])

def agreementEl (inv : Invoice) : Xml :=
  wrapEl "ram:ApplicableHeaderTradeAgreement"
    (optEls (otru inv.buyerRef) [txtEl "ram:BuyerReference" (inv.buyerRef.getD "")]
     ++ [partyEl "ram:SellerTradeParty" inv.seller]
     ++ [partyEl "ram:BuyerTradeParty" inv.buyer]
     ++ optEls (otru inv.purchaseOrderRef)
          [wrapEl "ram:BuyerOrderReferencedDocument"
            [txtEl "ram:IssuerAssignedID" (inv.purchaseOrderRef.getD "")]]
     ++ optEls (otru inv.contractRef)
          [wrapEl "ram:ContractReferencedDocument"
            [txtEl "ram:IssuerAssignedID" (inv.contractRef.getD "")]])

def deliveryEl (inv : Invoice) : Xml :=
  wrapEl "ram:ApplicableHeaderTradeDelivery"
    (optEls (otru inv.deliveryDate)
      [wrapEl "ram:ActualDeliverySupplyChainEvent"
        [wrapEl "ram:OccurrenceDateTime"
          [.el "udt:DateTimeString" [("format", "102")] (toDate8 (inv.deliveryDate.getD "")) []]]])

def paymentMeansEl (pay : PaymentInfo) : Xml :=
  wrapEl "ram:SpecifiedTradeSettlementPaymentMeans"
    ([txtEl "ram:TypeCode" pay.meansCode]
     ++ optEls (otru pay.iban)
          ([wrapEl "ram:PayeePartyCreditorFinancialAccount"
             [txtEl "ram:IBANID" (stripSpaces (pay.iban.getD ""))]]
           ++ optEls (otru pay.bic)
                [wrapEl "ram:PayeeSpecifiedCreditorFinancialInstitution"
                  [txtEl "ram:BICID" (pay.bic.getD "")]]))

def vatEl (v : VatSummary) : Xml :=
  wrapEl "ram:ApplicableTradeTax"
    [txtEl "ram:CalculatedAmount" (fmt v.taxAmount),
     txtEl "ram:TypeCode" "VAT",
     txtEl "ram:BasisAmount" (fmt v.taxableAmount),
     txtEl "ram:CategoryCode" v.categoryCode,
     txtEl "ram:RateApplicablePercent" (jsStr v.rate)]

def paymentTermsOf (inv : Invoice) : Option String := inv.payment.bind (fun p => p.terms)

def termsEl (inv : Invoice) : Xml :=
  wrapEl "ram:SpecifiedTradePaymentTerms"
    (optEls (otru (paymentTermsOf inv)) [txtEl "ram:Description" ((paymentTermsOf inv).getD "")]
     ++ optEls (otru inv.dueDate)
          [wrapEl "ram:DueDateDateTime"
            [.el "udt:DateTimeString" [("format", "102")] (toDate8 (inv.dueDate.getD "")) []]])

def summationEl (totals : InvoiceTotals) (currency : String) : Xml :=
  wrapEl "ram:SpecifiedTradeSettlementHeaderMonetarySummation"
    [txtEl "ram:LineTotalAmount" (fmt totals.lineTotalAmount),
     txtEl "ram:TaxBasisTotalAmount" (fmt totals.taxBasisTotalAmount),
     .el "ram:TaxTotalAmount" [("currencyID", currency)] (fmt totals.taxTotalAmount) [],
     txtEl "ram:GrandTotalAmount" (fmt totals.grandTotalAmount),
     txtEl "ram:DuePayableAmount" (fmt totals.duePayableAmount)]

def paymentRefOf (inv : Invoice) : Option String := inv.payment.bind (fun p => p.reference)

def settlementEl (inv : Invoice) (totals : InvoiceTotals) : Xml :=
  wrapEl "ram:ApplicableHeaderTradeSettlement"
    (optEls (otru (paymentRefOf inv)) [txtEl "ram:PaymentReference" ((paymentRefOf inv).getD "")]
     ++ [txtEl "ram:InvoiceCurrencyCode" inv.currency]
     ++ (match inv.payment with
         | some pay => [paymentMeansEl pay]
         | none => [])
     ++ totals.vatSummaries.map vatEl
     ++ optEls (otru inv.dueDate || otru (paymentTermsOf inv)) [termsEl inv]
     ++ [summationEl totals inv.currency])

def xmlnsAttrs : List (String × String) :=
  [("xmlns:rsm", "urn:un:unece:uncefact:data:standard:CrossIndustryInvoice:100"),
   ("xmlns:ram", "urn:un:unece:uncefact:data:standard:ReusableAggregateBusinessInformationEntity:100"),
   ("xmlns:udt", "urn:un:unece:uncefact:data:standard:UnqualifiedDataType:100"),
   ("xmlns:qdt", "urn:un:unece:uncefact:data:standard:QualifiedDataType:100"),
   ("xmlns:xsi", "http://www.w3.org/2001/XMLSchema-instance")]

def trxEl (inv : Invoice) : Xml :=
  .el "rsm:SupplyChainTradeTransaction" [] ""
    (inv.lines.map lineItemEl
     ++ [agreementEl inv]
     ++ [deliveryEl inv]
     ++ [settlementEl inv (calculateTotals inv)])

/-- Model of generateFacturX: builds the document tree in the source's element order. -/
def generateFacturX (inv : Invoice) : Xml :=
  .el "rsm:CrossIndustryInvoice" xmlnsAttrs "" [ctxEl inv, docEl inv, trxEl inv]

/-! Parsed-JSON values, modelling the output shape of fast-xml-parser with the
    options of src/src/facturx/parser.ts (ignoreAttributes false, prefix @_,
    removeNSPrefix, textNodeName #text, parseAttributeValue false,
    parseTagValue left at its default true).  A coerced tag value is stored
    here as the string str() recovers from it (coerceText above); truthiness
    and property access agree with the JS values on every access the parser
    performs, since the parser never truthiness-tests a text leaf. -/

inductive JValue where
  | s (t : String)
  | arr (xs : List JValue)
  | obj (fields : List (String × JValue))
deriving Repr

def alookup : List (String × JValue) → String → Option JValue
  | [], _ => none
  | (k', v) :: t, k => if k' == k then some v else alookup t k

/-- Property access o[k] on a defined JS value: objects look keys up, strings
    and arrays yield undefined for non-index keys. -/
def getF : JValue → String → Option JValue
  | .obj fs, k => alookup fs k
  | .s _, _ => none
  | .arr _, _ => none

/-- Optional-chaining access o?.[k]; also models (o ?? {})[k]. -/
def getFO : Option JValue → String → Option JValue
  | none, _ => none
  | some v, k => getF v k

/-- JS truthiness of a defined parsed value. -/
def truthyJ : JValue → Bool
  | .s t => !(t == "")
  | .arr _ => true
  | .obj _ => true

/-- JS truthiness of a possibly-undefined parsed value. -/
def jtru : Option JValue → Bool
  | none => false
  | some v => truthyJ v

/-- Model of the parser helper str(). -/
def strJ : Option JValue → String
  | none => ""
  | some (.s t) => t
  | some (.arr _) => ""
  | some (.obj fs) =>
    match alookup fs "#text" with
    | some (.s t) => t
    | _ => ""

/-- Model of the parser helper num(): parseFloat(str(node)) || 0. -/
def numJ (o : Option JValue) : ℚ := (parseQ (strJ o)).getD 0

def emptyToNone (s : String) : Option String := if s == "" then none else some s

def firstDedupAux {α : Type} [BEq α] (seen : List α) : List α → List α
  | [] => []
  | x :: xs =>
    if seen.contains x then firstDedupAux seen xs
    else x :: firstDedupAux (x :: seen) xs

/-- Deduplication keeping the first occurrence of each element, in order. -/
def firstDedup {α : Type} [BEq α] (l : List α) : List α := firstDedupAux [] l

/-- Per-name child group: a single child stays an object, repeats become an array. -/
def convGroup (conv : Xml → JValue) : List Xml → JValue
  | [c] => conv c
  | cs => .arr (cs.map conv)

/-- Fuel-indexed model of fast-xml-parser's element objectification, with the
    default tag-value processing: element text is trimmed (trimValues) and fed
    through the numeric coercion (parseTagValue), whose net effect on the
    strings the parser later reads is coerceText; attribute values are only
    trimmed (parseAttributeValue is false).  The fuel only bounds tree depth;
    every tree the generator builds has depth below any fuel used in this
    development. -/
def xmlToJd : ℕ → Xml → JValue
  | 0 => fun _ => .s ""
  | d + 1 => fun x =>
    match x with
    | .el _ attrs t cs =>
      match attrs, cs with
      | [], [] => .s (coerceText (jsTrim t))
      | _, _ =>
        let afields := attrs.map (fun a => ("@_" ++ a.1, JValue.s (jsTrim a.2)))
        let names := firstDedup (cs.map (fun c => stripNS c.name))
        let gfields := names.map (fun n =>
          (n, convGroup (xmlToJd d) (cs.filter (fun c => stripNS c.name == n))))
        let tfields :=
          if jsTrim t == "" then [] else [("#text", JValue.s (coerceText (jsTrim t)))]
        .obj (afields ++ gfields ++ tfields)

/-- Whole-document conversion: the library wraps the root element in an object
    keyed by its (prefix-stripped) tag name. -/
def docToJ (root : Xml) : JValue := .obj [(stripNS root.name, xmlToJd 20 root)]

/-! Parser, from src/src/facturx/parser.ts (parseFacturXXml), applied to the
    already-objectified document.  `ParseError.structural` models the two
    explicit `throw new Error`; `ParseError.typeErr` models the TypeError a
    property access on `undefined` raises at run time. -/

inductive ParseError where
  | structural (msg : String)
  | typeErr
deriving DecidableEq, Repr

def structMsg1 : String := "Document XML invalide : balise CrossIndustryInvoice introuvable"

def structMsg2 : String :=
  "Structure Factur-X invalide : ExchangedDocument ou SupplyChainTradeTransaction manquant"

def parsePartyJ : Option JValue → Except ParseError TradeParty
  | none => .error .typeErr
  | some raw =>
    let addr := getF raw "PostalTradeAddress"
    let taxReg := getF raw "SpecifiedTaxRegistration"
    let legalOrg := getF raw "SpecifiedLegalOrganization"
    .ok
      { name := strJ (getF raw "Name")
        id := emptyToNone (strJ (getF raw "ID"))
        vatNumber := if jtru taxReg then emptyToNone (strJ (getFO taxReg "ID")) else none
        legalId := if jtru legalOrg then emptyToNone (strJ (getFO legalOrg "ID")) else none
        address :=
          { street := strJ (getFO addr "LineOne")
            city := strJ (getFO addr "CityName")
            postalCode := strJ (getFO addr "PostcodeCode")
            countryCode := strJ (getFO addr "CountryID") }
        contact := none }

def parseLineJ (l : JValue) : InvoiceLine :=
  let product := getF l "SpecifiedTradeProduct"
  let price := getFO (getF l "SpecifiedLineTradeAgreement") "NetPriceProductTradePrice"
  let tax := getFO (getF l "SpecifiedLineTradeSettlement") "ApplicableTradeTax"
  let billed := getFO (getF l "SpecifiedLineTradeDelivery") "BilledQuantity"
  let billedUnit :=
    match billed with
    | some (.obj fs) => strJ (alookup fs "@_unitCode")
    | some (.arr _) => ""
    | _ => "C62"
  let lineSummation :=
    getFO (getF l "SpecifiedLineTradeSettlement") "SpecifiedTradeSettlementLineMonetarySummation"
  { id := strJ (getFO (getF l "AssociatedDocumentLineDocument") "LineID")
    description := strJ (getFO product "Name")
    quantity := (parseQ (strJ billed)).getD 0
    unitCode := if billedUnit == "" then "C62" else billedUnit
    unitPrice := numJ (getFO price "ChargeAmount")
    totalAmount := numJ (getFO lineSummation "LineTotalAmount")
    vatRate := numJ (getFO tax "RateApplicablePercent")
    vatCategory := if strJ (getFO tax "CategoryCode") == "" then "S" else strJ (getFO tax "CategoryCode")
    productId := emptyToNone (strJ (getFO product "SellerAssignedID"))
    buyerProductId := none
    note := emptyToNone (strJ (getFO product "Description")) }

def guidelineOfRoot (root : JValue) : String :=
  strJ (getFO (getFO ((getF root "ExchangedDocumentContext").or
    (getF root "rsm:ExchangedDocumentContext")) "GuidelineSpecifiedDocumentContextParameter") "ID")

/-- Profile inference by substring checks, in the source's order. -/
def inferProfile (g : String) : String :=
  if strContains g "en16931" then "EN_16931"
  else if strContains g "extended" then "EXTENDED"
  else if strContains g "basic" then "BASIC"
  else if strContains g "basicwl" then "BASIC_WL"
  else if strContains g "minimum" then "MINIMUM"
  else "EN_16931"

def parsePaymentJ (settlement : JValue) : Option PaymentInfo :=
  let paymentMeans := getF settlement "SpecifiedTradeSettlementPaymentMeans"
  let creditorAccount := getFO paymentMeans "PayeePartyCreditorFinancialAccount"
  let paymentTerms := getF settlement "SpecifiedTradePaymentTerms"
  if jtru paymentMeans then
    some
      { meansCode :=
          if strJ (getFO paymentMeans "TypeCode") == "" then "30"
          else strJ (getFO paymentMeans "TypeCode")
        iban := if jtru creditorAccount then emptyToNone (strJ (getFO creditorAccount "IBANID")) else none
        bic := none
        reference := emptyToNone (strJ (getF settlement "PaymentReference"))
        terms := if jtru paymentTerms then emptyToNone (strJ (getFO paymentTerms "Description")) else none }
  else none

/-- Root lookup parsed['CrossIndustryInvoice'] ?? parsed['rsm:CrossIndustryInvoice']. -/
def jroot (parsed : JValue) : Option JValue :=
  (getF parsed "CrossIndustryInvoice").or (getF parsed "rsm:CrossIndustryInvoice")

def jdoc (root : JValue) : Option JValue :=
  (getF root "ExchangedDocument").or (getF root "rsm:ExchangedDocument")

def jtrx (root : JValue) : Option JValue :=
  (getF root "SupplyChainTradeTransaction").or (getF root "rsm:SupplyChainTradeTransaction")

def parseFacturXJ (parsed : JValue) : Except ParseError Invoice :=
  match jroot parsed with
  | none => .error (.structural structMsg1)
  | some root =>
    if !truthyJ root then .error (.structural structMsg1)
    else
      match jdoc root, jtrx root with
      | some doc, some trx =>
        if !truthyJ doc || !truthyJ trx then .error (.structural structMsg2)
        else
          let rawLines : List JValue :=
            match getF trx "IncludedSupplyChainTradeLineItem" with
            | none => []
            | some (.arr xs) => xs
            | some v => [v]
          let lines := rawLines.map parseLineJ
          match getF trx "ApplicableHeaderTradeSettlement" with
          | none => .error .typeErr
          | some settlement =>
            let deliveryO := getF trx "ApplicableHeaderTradeDelivery"
            let paymentTerms := getF settlement "SpecifiedTradePaymentTerms"
            let deliveryEvent :=
              getFO (getFO deliveryO "ActualDeliverySupplyChainEvent") "OccurrenceDateTime"
            let dueDateTime := getFO (getFO paymentTerms "DueDateDateTime") "DateTimeString"
            let noteO := getF doc "IncludedNote"
            let noteText := if jtru noteO then some (strJ (getFO noteO "Content")) else none
            match getF trx "ApplicableHeaderTradeAgreement" with
            | none => .error .typeErr
            | some agreement =>
              match parsePartyJ (getF agreement "SellerTradeParty"),
                    parsePartyJ (getF agreement "BuyerTradeParty") with
              | .ok seller, .ok buyer =>
                .ok
                  { number := strJ (getF doc "ID")
                    typeCode :=
                      if strJ (getF doc "TypeCode") == "" then "380" else strJ (getF doc "TypeCode")
                    date := toIsoDate (strJ (getFO (getF doc "IssueDateTime") "DateTimeString"))
                    dueDate := if jtru dueDateTime then some (toIsoDate (strJ dueDateTime)) else none
                    deliveryDate :=
                      if jtru deliveryEvent then
                        some (toIsoDate (strJ (getFO deliveryEvent "DateTimeString")))
                      else none
                    currency := strJ (getF settlement "InvoiceCurrencyCode")
                    profile := inferProfile (guidelineOfRoot root)
                    seller := seller
                    buyer := buyer
                    lines := lines
                    payment := parsePaymentJ settlement
                    purchaseOrderRef :=
                      emptyToNone (strJ (getFO (getF agreement "BuyerOrderReferencedDocument")
                        "IssuerAssignedID"))
                    contractRef :=
                      emptyToNone (strJ (getFO (getF agreement "ContractReferencedDocument")
                        "IssuerAssignedID"))
                    buyerRef := emptyToNone (strJ (getF agreement "BuyerReference"))
                    notes :=
                      match noteText with
                      | some t => emptyToNone t
                      | none => none }
              | .error e, _ => .error e
              | _, .error e => .error e
      | _, _ => .error (.structural structMsg2)

/-- Composition the round-trip property is about: generate, serialise/reparse
    through the XML layer, then parse. -/
def roundTrip (inv : Invoice) : Except ParseError Invoice :=
  parseFacturXJ (docToJ (generateFacturX inv))

/-- Defaults filled by the facturx_generate tool handler (src/src/index.ts)
    before validation: absent type code becomes 380, absent profile EN_16931. -/
def applyGenerateDefaults (inv : Invoice) : Invoice :=
  { inv with
    typeCode := if inv.typeCode == "" then "380" else inv.typeCode
    profile := if inv.profile == "" then "EN_16931" else inv.profile }

instance : DecidableEq (Except ParseError Invoice)
  | .error e, .error f =>
    if h : e = f then .isTrue (by rw [h]) else .isFalse (by intro hh; cases hh; exact h rfl)
  | .error _, .ok _ => .isFalse (by intro h; cases h)
  | .ok _, .error _ => .isFalse (by intro h; cases h)
  | .ok a, .ok b =>
    if h : a = b then .isTrue (by rw [h]) else .isFalse (by intro hh; cases hh; exact h rfl)

/-- The children of an element whose prefix-stripped tag is k: what the
    objectification groups under the key k. -/
def childrenNamed (k : String) (cs : List Xml) : List Xml :=
  cs.filter (fun c => stripNS c.name == k)

/-- The two mandatory sections (and the root) are present and truthy: the exact
    condition under which parseFacturXXml passes its two explicit guards. -/
def mandatoryOk (j : JValue) : Bool :=
  match jroot j with
  | none => false
  | some root =>
    truthyJ root &&
      match jdoc root, jtrx root with
      | some doc, some trx => truthyJ doc && truthyJ trx
      | _, _ => false

/-! Executable structural equality on parse results.  Rational equality is
    checked on numerator and denominator so that concrete runs evaluate. -/

def ratEqB (a b : ℚ) : Bool := a.num == b.num && a.den == b.den

def listEqB {α : Type} (f : α → α → Bool) : List α → List α → Bool
  | [], [] => true
  | x :: xs, y :: ys => f x y && listEqB f xs ys
  | _, _ => false

def lineEqB (a b : InvoiceLine) : Bool :=
  a.id == b.id && a.description == b.description && ratEqB a.quantity b.quantity &&
  a.unitCode == b.unitCode && ratEqB a.unitPrice b.unitPrice &&
  ratEqB a.totalAmount b.totalAmount && ratEqB a.vatRate b.vatRate &&
  a.vatCategory == b.vatCategory && a.productId == b.productId &&
  a.buyerProductId == b.buyerProductId && a.note == b.note

def invEqB (a b : Invoice) : Bool :=
  a.number == b.number && a.typeCode == b.typeCode && a.date == b.date &&
  a.dueDate == b.dueDate && a.deliveryDate == b.deliveryDate &&
  a.currency == b.currency && a.profile == b.profile &&
  a.seller == b.seller && a.buyer == b.buyer &&
  listEqB lineEqB a.lines b.lines && a.payment == b.payment &&
  a.purchaseOrderRef == b.purchaseOrderRef && a.contractRef == b.contractRef &&
  a.buyerRef == b.buyerRef && a.notes == b.notes

def exceptInvEqB : Except ParseError Invoice → Except ParseError Invoice → Bool
  | .ok a, .ok b => invEqB a b
  | .error a, .error b => a == b
  | _, _ => false

/-! Helper notions used only to state and prove the claims. -/

/-- Sum of the 2-decimal-rounded totals of the lines falling in VAT group k. -/
def sumKey (k : String) (ls : List InvoiceLine) : ℚ :=
  ls.foldr (fun l s => if lineKey l == k then round2 l.totalAmount + s else s) 0

def linePair (l : InvoiceLine) : String × ℚ := (l.vatCategory, l.vatRate)

def pairKey (pr : String × ℚ) : String := pr.1 ++ "-" ++ jsStr pr.2

/-- Category/rate pairs of the accumulated VAT groups. -/
def vatPairs (acc : List (String × VatSummary)) : List (String × ℚ) :=
  acc.map (fun p => (p.2.categoryCode, p.2.rate))

def vatKeys (acc : List (String × VatSummary)) : List String := acc.map Prod.fst

/-- Association lookup in the VAT accumulator. -/
def lookupVS : List (String × VatSummary) → String → Option VatSummary
  | [], _ => none
  | (k', v) :: t, k => if k' == k then some v else lookupVS t k

/-- The group entry the accumulation produces for key k: identity of the first
    line with that key, taxable amount the sum over all of them. -/
def groupEntry (k : String) (ls : List InvoiceLine) : Option VatSummary :=
  match ls.find? (fun l => lineKey l == k) with
  | none => none
  | some l =>
    some { categoryCode := l.vatCategory, rate := l.vatRate,
           taxableAmount := sumKey k ls, taxAmount := 0 }

/-- Category/rate pairs in order of first appearance, skipping seen keys. -/
def specPairs (seen : List String) : List InvoiceLine → List (String × ℚ)
  | [] => []
  | l :: ls =>
    if seen.contains (lineKey l) then specPairs seen ls
    else linePair l :: specPairs (lineKey l :: seen) ls

/-- A string JS trimming leaves unchanged (no leading/trailing whitespace). -/
def stableS (s : String) : Bool := jsTrim s == s

/-- A string the default tag-value coercion leaves unchanged (it is not
    numeric-shaped, or already the canonical rendering of its number). -/
def coStable (s : String) : Bool := coerceText s == s

/-- A string whose first character is not the digit 0: the leading-zeros
    option of the tag-value coercion rewrites dates such as 0999-12-31. -/
def headNonZero (s : String) : Bool :=
  match s.data with
  | [] => true
  | c :: _ => !(c == '0')

def optHeadNonZero : Option String → Bool
  | none => true
  | some s => headNonZero s

/-- An optional string that is either absent or nonempty, trim-stable and
    coercion-stable. -/
def optFieldOk : Option String → Bool
  | none => true
  | some s => !(s == "") && stableS s && coStable s

/-- An optional date that is either absent or nonempty (well-formedness then
    follows from the validator). -/
def optPresentNonempty : Option String → Bool
  | none => true
  | some s => !(s == "")

def partyFieldsOk (p : TradeParty) : Bool :=
  stableS p.name && coStable p.name &&
  stableS p.address.street && coStable p.address.street &&
  stableS p.address.city && coStable p.address.city &&
  stableS p.address.postalCode && coStable p.address.postalCode &&
  optFieldOk p.id && optFieldOk p.vatNumber && optFieldOk p.legalId

def linesFieldsOk (ls : List InvoiceLine) : Bool :=
  ls.all (fun l => isDec l.quantity && isDec l.vatRate)

/-- Hypotheses under which the generate/parse round trip reproduces the input:
    the invoice validates; the profile is one of the three whose namespace URN
    survives the parser's substring inference; read-back strings carry no
    leading/trailing whitespace and survive the default tag-value coercion
    (e.g. an invoice number "007" or a postal code "01000" does not); date
    years do not start with 0; optional identity fields are absent or
    nonempty; quantities and rates are finite decimals (automatic for
    doubles). -/
def roundTripSafe (inv : Invoice) : Bool :=
  (validateInvoice inv).valid
  && (inv.profile == "MINIMUM" || inv.profile == "BASIC" || inv.profile == "EN_16931")
  && stableS inv.number && coStable inv.number
  && headNonZero inv.date && optHeadNonZero inv.dueDate && optHeadNonZero inv.deliveryDate
  && partyFieldsOk inv.seller && partyFieldsOk inv.buyer
  && optPresentNonempty inv.dueDate && optPresentNonempty inv.deliveryDate
  && linesFieldsOk inv.lines

/-- Fields of a line enumerated by the round-trip claim (monetary ones
    compared at 2-decimal precision). -/
def lineEssentials (l : InvoiceLine) : String × ℚ × ℚ × ℚ × ℚ :=
  (l.vatCategory, l.vatRate, l.quantity, round2 l.unitPrice, round2 l.totalAmount)

/-- Identity and address fields of a party enumerated by the round-trip claim. -/
def partyEssentials (p : TradeParty) :
    String × Option String × Option String × Option String × String × String × String × String :=
  (p.name, p.id, p.vatNumber, p.legalId,
   p.address.street, p.address.city, p.address.postalCode, p.address.countryCode)

/-! Concrete example data used by witnesses and counterexamples. -/

def exSeller : TradeParty :=
  { name := "ACME SAS"
    vatNumber := some "FR12345678901"
    address := { street := "1 rue de la Paix", city := "Paris", postalCode := "75001",
                 countryCode := "FR" } }

def exBuyer : TradeParty :=
  { name := "CLIENT SA"
    address := { street := "2 avenue", city := "Lyon", postalCode := "69000",
                 countryCode := "FR" } }

def exLine : InvoiceLine :=
  { id := "1", description := "Produit", quantity := 10, unitCode := "C62",
    unitPrice := 150, totalAmount := 1500, vatRate := 20, vatCategory := "S" }

def exInv : Invoice :=
  { number := "FA-2024-001", typeCode := "380", date := "2024-01-15",
    currency := "EUR", profile := "EN_16931",
    seller := exSeller, buyer := exBuyer, lines := [exLine] }

def exLine2 : InvoiceLine :=
  { id := "2", description := "Produit 2", quantity := 5/2, unitCode := "HUR",
    unitPrice := 52/5, totalAmount := 26, vatRate := 11/2, vatCategory := "Z",
    productId := some "P-1", note := some "note x" }

def exPay : PaymentInfo :=
  { meansCode := "30", iban := some "FR7612345678901234",
    reference := some "REF-1", terms := some "30 jours" }

def exSellerFull : TradeParty :=
  { exSeller with id := some "12345678901234", legalId := some "123456789" }

/-- Fully-featured valid invoice exercising every optional section. -/
def exFull : Invoice :=
  { exInv with
    dueDate := some "2024-02-15", deliveryDate := some "2024-01-10",
    notes := some "Merci", payment := some exPay,
    purchaseOrderRef := some "PO-9", contractRef := some "CT-7", buyerRef := some "BR-3",
    seller := exSellerFull
    lines := [exLine, exLine2] }

/-- Valid invoice whose profile is EXTENDED: its namespace URN contains the
    substring en16931, so parsing maps it back to EN_16931. -/
def exInvExt : Invoice := { exInv with profile := "EXTENDED" }

/-- Valid invoice whose number "007" is numeric with leading zeros: the
    default tag-value coercion turns it into the number 7, read back as "7". -/
def exInv007 : Invoice := { exInv with number := "007" }

/-- What parsing the generated XML of exInv007 actually returns. -/
def exInv7 : Invoice := { exInv with number := "7" }

/-- Valid invoice whose number carries a trailing space: fast-xml-parser trims
    element text (trimValues), so the space does not survive the round trip. -/
def exInvWs : Invoice := { exInv with number := "FA-2024-001 " }

/-- Valid invoice whose seller id is present but empty: the generator emits
    the ID element only for truthy values, so an empty id comes back absent. -/
def exInvEmptyId : Invoice :=
  { exInv with seller := { exSeller with id := some "" } }

def exWarnLine : InvoiceLine := { exLine with unitPrice := 15, totalAmount := 151 }

/-- Invoice whose single line has totalAmount 151 against 10 × 15 = 150. -/
def exWarnInv : Invoice := { exInv with lines := [exWarnLine] }

/-- Invoice with a whitespace-only number. -/
def exEmptyNumInv : Invoice := { exInv with number := "  " }

/-- Invoice with zero lines. -/
def exNoLinesInv : Invoice := { exInv with lines := [] }

/-- Invoice with absent (empty) type code and profile, as the tool handler
    receives them before filling defaults. -/
def exNoDefaultsInv : Invoice := { exInv with typeCode := "", profile := "" }

def exC3Line : InvoiceLine :=
  { exLine with quantity := 1, unitPrice := 3333/100, totalAmount := 3333/100 }

/-- Line list with a taxable basis of 33.33 at rate 20. -/
def exC3Inv : Invoice := { exInv with lines := [exC3Line] }

/-- The single VAT summary calculateTotals produces for exC3Inv: basis 33.33,
    tax 33.33 × 20 / 100 = 6.666 rounded to 6.67. -/
def exC3Sum : VatSummary :=
  { categoryCode := "S", rate := 20, taxableAmount := 3333/100, taxAmount := 667/100 }

def exC8Line : InvoiceLine :=
  { exLine with id := "2", vatRate := 0, vatCategory := "Z", quantity := 1, unitPrice := 50, totalAmount := 50 }

/-- Line list with a standard-rate group and a zero-rate group. -/
def exC8Inv : Invoice := { exInv with lines := [exLine, exC8Line] }

/-- No dash anywhere in the string: true of every VAT category code, and what
    makes the category-dash-rate map key of calculateTotals split unambiguously. -/
def noDash (s : String) : Bool := s.data.all (fun c => !(c == '-'))

/-- A category/rate pair whose map key determines it: dash-free category and
    finite-decimal rate (every JS number is). -/
def goodPair (pr : String × ℚ) : Bool := noDash pr.1 && isDec pr.2

def exC8SumS : VatSummary :=
  { categoryCode := "S", rate := 20, taxableAmount := 1500, taxAmount := 300 }

def exC8SumZ : VatSummary :=
  { categoryCode := "Z", rate := 0, taxableAmount := 50, taxAmount := 0 }

/-- Parsed document with both mandatory sections but no settlement section:
    the parser's unguarded settlement access then faults. -/
def cexC2 : JValue :=
  .obj [("CrossIndustryInvoice", .obj
    [("ExchangedDocument", .s "x"),
     ("SupplyChainTradeTransaction", .obj
       [("IncludedSupplyChainTradeLineItem", .s "")])])]

/-- Minimal parsed document with the sections the parser dereferences
    unguardedly, and no optional section at all. -/
def minOkC2 : JValue :=
  .obj [("CrossIndustryInvoice", .obj
    [("ExchangedDocument", .s "x"),
     ("SupplyChainTradeTransaction", .obj
       [("ApplicableHeaderTradeAgreement", .obj
          [("SellerTradeParty", .s ""), ("BuyerTradeParty", .s "")]),
        ("ApplicableHeaderTradeSettlement", .obj
          [("InvoiceCurrencyCode", .s "EUR")])])])]

/-! Theorems.  General-purpose helper lemmas come first, then one theorem per
    claim (with its witness or counterexample). -/

theorem isEmpty_false_of_mem {α : Type} {l : List α} {a : α} (h : a ∈ l) :
    l.isEmpty = false := by
  cases l with
  | nil => cases h
  | cons x xs => rfl

theorem errIf_of_true {b : Bool} {msg : String} (h : b = true) : errIf b msg = [msg] := by
  simp [errIf, h]

theorem errIf_of_false {b : Bool} {msg : String} (h : b = false) : errIf b msg = [] := by
  simp [errIf, h]

theorem errIf_eq_nil_iff {b : Bool} {msg : String} : errIf b msg = [] ↔ b = false := by
  cases b <;> simp [errIf]

/-- C10: for every invoice, the validator result satisfies valid = true exactly
    when the error list is empty, and the flag depends on the errors alone
    (so warnings never affect it). -/
theorem validator_valid_iff_no_errors (inv : Invoice) :
    ((validateInvoice inv).valid = true ↔ (validateInvoice inv).errors = [])
    ∧ (∀ inv2 : Invoice, validateErrors inv = validateErrors inv2 →
        (validateInvoice inv).valid = (validateInvoice inv2).valid) := by
  constructor
  · simp [validateInvoice, List.isEmpty_iff]
  · intro inv2 h
    simp [validateInvoice, h]

theorem validator_valid_iff_no_errors_witness :
    (validateInvoice exInv).valid = true ∧ (validateInvoice exInv).errors = [] := by
  have h := (validator_valid_iff_no_errors exInv).1
  exact ⟨h.mpr (by decide), by decide⟩

/-- On every WELL-TYPED invoice value the validator returns a structured
    result carrying a valid flag together with the ordered error and warning
    lists.  This totality does not extend to ill-typed values reachable
    through the tool boundary (unvalidated JSON): a null entry in lines is
    dereferenced without a guard in the per-line loop of validator.ts, and a
    non-string number makes the trim call throw, so the source raises a
    TypeError there instead of returning a result. -/
theorem validator_total_structured (inv : Invoice) :
    ∃ r : ValidationResult, validateInvoice inv = r ∧
      r.valid = (validateErrors inv).isEmpty ∧
      r.errors = validateErrors inv ∧ r.warnings = validateWarnings inv :=
  ⟨validateInvoice inv, rfl, rfl, rfl, rfl⟩

/-- C5: an invoice whose number trims to empty is rejected with a BT-1 error
    message naming the number field, and an invoice with zero lines is
    rejected. -/
theorem validator_rejects_empty_number_and_no_lines (inv : Invoice) :
    (jsTrim inv.number = "" →
      (validateInvoice inv).valid = false ∧
      "BT-1 : Numéro de facture requis" ∈ (validateInvoice inv).errors)
    ∧ (inv.lines = [] → (validateInvoice inv).valid = false) := by
  constructor
  · intro h
    have hmem : "BT-1 : Numéro de facture requis" ∈ validateErrors inv := by
      simp [validateErrors, headerErrors, errIf, h]
    exact ⟨by simp [validateInvoice, isEmpty_false_of_mem hmem], hmem⟩
  · intro h
    have hmem : "Au moins une ligne de facture est requise" ∈ validateErrors inv := by
      simp [validateErrors, h]
    simp [validateInvoice, isEmpty_false_of_mem hmem]

theorem validator_rejects_empty_number_and_no_lines_witness :
    ((validateInvoice exEmptyNumInv).valid = false ∧
      "BT-1 : Numéro de facture requis" ∈ (validateInvoice exEmptyNumInv).errors)
    ∧ (validateInvoice exNoLinesInv).valid = false := by
  refine ⟨(validator_rejects_empty_number_and_no_lines exEmptyNumInv).1 (by decide),
    (validator_rejects_empty_number_and_no_lines exNoLinesInv).2 (by decide)⟩

/-- C9: the generate handler's default filling changes nothing but the type
    code and profile, and touches those only when they are absent (empty). -/
theorem generate_defaults_frame (inv : Invoice) :
    (applyGenerateDefaults inv).number = inv.number ∧
    (applyGenerateDefaults inv).date = inv.date ∧
    (applyGenerateDefaults inv).dueDate = inv.dueDate ∧
    (applyGenerateDefaults inv).deliveryDate = inv.deliveryDate ∧
    (applyGenerateDefaults inv).currency = inv.currency ∧
    (applyGenerateDefaults inv).seller = inv.seller ∧
    (applyGenerateDefaults inv).buyer = inv.buyer ∧
    (applyGenerateDefaults inv).lines = inv.lines ∧
    (applyGenerateDefaults inv).payment = inv.payment ∧
    (applyGenerateDefaults inv).purchaseOrderRef = inv.purchaseOrderRef ∧
    (applyGenerateDefaults inv).contractRef = inv.contractRef ∧
    (applyGenerateDefaults inv).notes = inv.notes ∧
    (applyGenerateDefaults inv).buyerRef = inv.buyerRef ∧
    (inv.typeCode ≠ "" → (applyGenerateDefaults inv).typeCode = inv.typeCode) ∧
    (inv.typeCode = "" → (applyGenerateDefaults inv).typeCode = "380") ∧
    (inv.profile ≠ "" → (applyGenerateDefaults inv).profile = inv.profile) ∧
    (inv.profile = "" → (applyGenerateDefaults inv).profile = "EN_16931") := by
  refine ⟨rfl, rfl, rfl, rfl, rfl, rfl, rfl, rfl, rfl, rfl, rfl, rfl, rfl, ?_, ?_, ?_, ?_⟩
  · intro h
    simp [applyGenerateDefaults, h]
  · intro h
    simp [applyGenerateDefaults, h]
  · intro h
    simp [applyGenerateDefaults, h]
  · intro h
    simp [applyGenerateDefaults, h]

theorem generate_defaults_frame_witness :
    (applyGenerateDefaults exNoDefaultsInv).typeCode = "380" ∧
    (applyGenerateDefaults exNoDefaultsInv).profile = "EN_16931" ∧
    (applyGenerateDefaults exInv).typeCode = exInv.typeCode ∧
    (applyGenerateDefaults exInv).lines = exInv.lines := by
  obtain ⟨-, -, -, -, -, -, -, -, -, -, -, -, -, -, ht2, -, hp2⟩ :=
    generate_defaults_frame exNoDefaultsInv
  obtain ⟨-, -, -, -, -, -, -, hl2, -, -, -, -, -, ht1, -, -, -⟩ :=
    generate_defaults_frame exInv
  exact ⟨ht2 rfl, hp2 rfl, ht1 (by decide), hl2⟩

theorem linesWarnAux_mem :
    ∀ (ls : List InvoiceLine) (i j : ℕ) (l : InvoiceLine), ls.get? j = some l →
      (1 / 50 : ℚ) < jsAbs (round2 (l.quantity * l.unitPrice) - round2 l.totalAmount) →
      lineWarnMsg l (i + j) (round2 (l.quantity * l.unitPrice)) (round2 l.totalAmount)
        ∈ linesWarnAux i ls := by
  intro ls
  induction ls with
  | nil => intro i j l h; cases h
  | cons hd tl ih =>
    intro i j l hget hcond
    cases j with
    | zero =>
      cases hget
      simp only [linesWarnAux, lineWarning, Nat.add_zero]
      rw [errIf_of_true (by exact decide_eq_true hcond)]
      exact List.mem_append_left _ (List.mem_singleton.mpr rfl)
    | succ j' =>
      have := ih (i + 1) j' l hget hcond
      have harr : i + 1 + j' = i + (j' + 1) := by omega
      rw [harr] at this
      exact List.mem_append_right _ this

theorem linesErrAux_total_invariant (f : InvoiceLine → ℚ) :
    ∀ (ls : List InvoiceLine) (seen : List String) (i : ℕ),
      linesErrAux seen i (ls.map (fun l => { l with totalAmount := f l })) =
        linesErrAux seen i ls := by
  intro ls
  induction ls with
  | nil => intro seen i; rfl
  | cons hd tl ih =>
    intro seen i
    simp only [List.map, linesErrAux]
    rw [ih]
    rfl

/-- C6: a line whose total strays from quantity × unit price by more than 0.02
    (both sides rounded to 2 decimals) contributes a warning citing the
    discrepancy, contributes no error (the error list is invariant under any
    change of line totals), and the concrete 10 × 15 vs 151 example stays
    valid with a non-empty warning list. -/
theorem discrepancy_warns_but_validates :
    (∀ (inv : Invoice) (j : ℕ) (l : InvoiceLine), inv.lines.get? j = some l →
      (1 / 50 : ℚ) < jsAbs (round2 (l.quantity * l.unitPrice) - round2 l.totalAmount) →
      lineWarnMsg l j (round2 (l.quantity * l.unitPrice)) (round2 l.totalAmount)
        ∈ (validateInvoice inv).warnings)
    ∧ (∀ (inv : Invoice) (f : InvoiceLine → ℚ),
        (validateInvoice
          { inv with lines := inv.lines.map (fun l => { l with totalAmount := f l }) }).errors
          = (validateInvoice inv).errors)
    ∧ (validateInvoice exWarnInv).valid = true
    ∧ (validateInvoice exWarnInv).warnings ≠ [] := by
  refine ⟨?_, ?_, by decide, by with_unfolding_all decide⟩
  · intro inv j l hget hcond
    have hmem := linesWarnAux_mem inv.lines 0 j l hget hcond
    rw [Nat.zero_add] at hmem
    have hne : inv.lines.isEmpty = false := by
      cases hl : inv.lines with
      | nil => rw [hl] at hget; cases hget
      | cons a b => rfl
    simp only [validateInvoice, validateWarnings, hne, if_neg Bool.false_ne_true]
    exact List.mem_append_left _ (List.mem_append_right _ hmem)
  · intro inv f
    simp only [validateInvoice, validateErrors]
    have hemp : (inv.lines.map (fun l => { l with totalAmount := f l })).isEmpty
        = inv.lines.isEmpty := by
      cases inv.lines <;> rfl
    rw [hemp, linesErrAux_total_invariant]
    rfl

theorem discrepancy_warns_but_validates_witness :
    lineWarnMsg exWarnLine 0 (round2 (exWarnLine.quantity * exWarnLine.unitPrice))
        (round2 exWarnLine.totalAmount) ∈ (validateInvoice exWarnInv).warnings
    ∧ (validateInvoice { exInv with
        lines := exInv.lines.map (fun l => { l with totalAmount := (fun _ => 151) l }) }).errors
      = (validateInvoice exInv).errors
    ∧ (validateInvoice exWarnInv).valid = true := by
  obtain ⟨h1, h2, h3, -⟩ := discrepancy_warns_but_validates
  exact ⟨h1 exWarnInv 0 exWarnLine (by decide) (by with_unfolding_all decide),
    h2 exInv (fun _ => 151), h3⟩

/-! Character and digit-rendering lemmas. -/

theorem isDigitC_ne {c d : Char} (h : isDigitC c = true) (hd : isDigitC d = false) :
    (c == d) = false := by
  cases hcd : c == d with
  | false => rfl
  | true =>
    rw [eq_of_beq hcd] at h
    rw [h] at hd
    cases hd

theorem digit_not_ws {c : Char} (h : isDigitC c = true) : isWsC c = false := by
  unfold isWsC
  rw [isDigitC_ne h (show isDigitC ' ' = false by rfl),
    isDigitC_ne h (show isDigitC '\t' = false by rfl),
    isDigitC_ne h (show isDigitC '\n' = false by rfl),
    isDigitC_ne h (show isDigitC '\r' = false by rfl)]
  rfl

theorem digitChar_toNat {d : ℕ} (h : d < 10) : (digitChar d).toNat = 48 + d := by
  interval_cases d <;> rfl

theorem isDigitC_digitChar {d : ℕ} (h : d < 10) : isDigitC (digitChar d) = true := by
  interval_cases d <;> rfl

theorem natDigitsAux_val :
    ∀ (fuel n : ℕ), n ≤ fuel →
      (natDigitsAux fuel n).foldr (fun d acc => acc * 10 + d) 0 = n := by
  intro fuel
  induction fuel with
  | zero => intro n h; interval_cases n; rfl
  | succ f ih =>
    intro n h
    match n with
    | 0 => rfl
    | m + 1 =>
      have hdivlt : (m + 1) / 10 < m + 1 := Nat.div_lt_self (Nat.succ_pos m) (by omega)
      have hdivle : (m + 1) / 10 ≤ f := by omega
      simp only [natDigitsAux, List.foldr]
      rw [ih _ hdivle]
      omega

theorem natDigitsAux_lt10 :
    ∀ (fuel n d : ℕ), d ∈ natDigitsAux fuel n → d < 10 := by
  intro fuel
  induction fuel with
  | zero => intro n d h; cases h
  | succ f ih =>
    intro n d h
    match n with
    | 0 => cases h
    | m + 1 =>
      simp only [natDigitsAux] at h
      rcases List.mem_cons.mp h with h1 | h2
      · rw [h1]; exact Nat.mod_lt _ (by omega)
      · exact ih _ _ h2

theorem natChars_all_digit {n : ℕ} : ∀ c ∈ natChars n, isDigitC c = true := by
  intro c hc
  unfold natChars at hc
  by_cases hn : n = 0
  · rw [if_pos hn] at hc
    rcases List.mem_singleton.mp hc with rfl
    rfl
  · rw [if_neg hn] at hc
    rcases List.mem_map.mp (List.mem_reverse.mp hc) with ⟨d, hd, rfl⟩
    exact isDigitC_digitChar (natDigitsAux_lt10 _ _ _ hd)

theorem natChars_ne_nil {n : ℕ} : natChars n ≠ [] := by
  unfold natChars
  by_cases hn : n = 0
  · rw [if_pos hn]; exact List.cons_ne_nil _ _
  · rw [if_neg hn]
    intro hcon
    match m : n, hn with
    | k + 1, _ =>
      simp only [natDigitsAux, List.map, List.reverse] at hcon
      exact absurd (List.reverse_eq_nil_iff.mp hcon) (List.cons_ne_nil _ _)

theorem foldr_digit_val (ds : List ℕ) (h : ∀ d ∈ ds, d < 10) :
    ds.foldr (fun d acc => acc * 10 + ((digitChar d).toNat - 48)) 0 =
      ds.foldr (fun d acc => acc * 10 + d) 0 := by
  induction ds with
  | nil => rfl
  | cons d ds ih =>
    simp only [List.foldr]
    rw [ih (fun x hx => h x (List.mem_cons_of_mem _ hx)),
      digitChar_toNat (h d (List.mem_cons_self _ _))]
    omega

theorem digitsVal_natChars (n : ℕ) : digitsVal (natChars n) = n := by
  unfold natChars digitsVal
  by_cases hn : n = 0
  · rw [if_pos hn, hn]; rfl
  · rw [if_neg hn, List.foldl_reverse, List.foldr_map]
    have := foldr_digit_val (natDigitsAux n n) (fun d hd => natDigitsAux_lt10 _ _ _ hd)
    simp only [Function.comp] at this ⊢
    rw [this, natDigitsAux_val n n (Nat.le_refl n)]

theorem takeWhile_all {p : Char → Bool} :
    ∀ {l : List Char}, (∀ c ∈ l, p c = true) → l.takeWhile p = l := by
  intro l
  induction l with
  | nil => intro _; rfl
  | cons c cs ih =>
    intro h
    simp only [List.takeWhile, h c (List.mem_cons_self _ _)]
    rw [ih (fun x hx => h x (List.mem_cons_of_mem _ hx))]

theorem dropWhile_all {p : Char → Bool} :
    ∀ {l : List Char}, (∀ c ∈ l, p c = true) → l.dropWhile p = [] := by
  intro l
  induction l with
  | nil => intro _; rfl
  | cons c cs ih =>
    intro h
    simp only [List.dropWhile, h c (List.mem_cons_self _ _)]
    exact ih (fun x hx => h x (List.mem_cons_of_mem _ hx))

theorem dropWhile_none {p : Char → Bool} :
    ∀ {l : List Char}, (∀ c ∈ l, p c = false) → l.dropWhile p = l := by
  intro l
  induction l with
  | nil => intro _; rfl
  | cons c cs ih => intro h; simp only [List.dropWhile, h c (List.mem_cons_self _ _)]

theorem takeWhile_append_stop {p : Char → Bool} {x : Char} {l2 : List Char} :
    ∀ {l1 : List Char}, (∀ c ∈ l1, p c = true) → p x = false →
      (l1 ++ x :: l2).takeWhile p = l1 := by
  intro l1
  induction l1 with
  | nil => intro _ hx; simp [List.takeWhile, hx]
  | cons c cs ih =>
    intro h hx
    rw [List.cons_append, List.takeWhile_cons, if_pos (h c (List.mem_cons_self _ _)),
      ih (fun y hy => h y (List.mem_cons_of_mem _ hy)) hx]

theorem dropWhile_append_stop {p : Char → Bool} {x : Char} {l2 : List Char} :
    ∀ {l1 : List Char}, (∀ c ∈ l1, p c = true) → p x = false →
      (l1 ++ x :: l2).dropWhile p = x :: l2 := by
  intro l1
  induction l1 with
  | nil => intro _ hx; simp [List.dropWhile, hx]
  | cons c cs ih =>
    intro h hx
    rw [List.cons_append, List.dropWhile_cons_of_pos (h c (List.mem_cons_self _ _))]
    exact ih (fun y hy => h y (List.mem_cons_of_mem _ hy)) hx

theorem digitsVal_replicate_zero (j : ℕ) :
    ∀ l : List Char, (List.replicate j '0' ++ l).foldl
      (fun acc c => acc * 10 + (c.toNat - 48)) 0 =
        l.foldl (fun acc c => acc * 10 + (c.toNat - 48)) 0 := by
  induction j with
  | zero => intro l; rfl
  | succ i ih => intro l; exact ih l

theorem digitsVal_padZeros (k : ℕ) (l : List Char) :
    digitsVal (padZeros k l) = digitsVal l := by
  unfold digitsVal padZeros
  exact digitsVal_replicate_zero _ l

theorem padZeros_len {k : ℕ} {l : List Char} (h : l.length ≤ k) :
    (padZeros k l).length = k := by
  unfold padZeros
  rw [List.length_append, List.length_replicate]
  omega

theorem padZeros_all_digit {k : ℕ} {l : List Char} (h : ∀ c ∈ l, isDigitC c = true) :
    ∀ c ∈ padZeros k l, isDigitC c = true := by
  intro c hc
  rcases List.mem_append.mp hc with h1 | h2
  · rw [List.eq_of_mem_replicate h1]; rfl
  · exact h c h2

theorem natDigitsAux_len :
    ∀ (fuel n k : ℕ), n ≤ fuel → n < 10 ^ k → (natDigitsAux fuel n).length ≤ k := by
  intro fuel
  induction fuel with
  | zero => intro n k h _; interval_cases n; simp [natDigitsAux]
  | succ f ih =>
    intro n k h hk
    match n with
    | 0 => simp [natDigitsAux]
    | m + 1 =>
      match k with
      | 0 => omega
      | j + 1 =>
        have h10 : (0 : ℕ) < 10 := by omega
        have hdiv : (m + 1) / 10 < 10 ^ j := by
          rw [Nat.div_lt_iff_lt_mul h10]
          calc m + 1 < 10 ^ (j + 1) := hk
          _ = 10 ^ j * 10 := by rw [pow_succ]
        have hdivle : (m + 1) / 10 ≤ f := by
          have := Nat.div_lt_self (Nat.succ_pos m) (show 1 < 10 by omega)
          omega
        simp only [natDigitsAux, List.length_cons]
        have := ih _ j hdivle hdiv
        omega

theorem natChars_len_le {n k : ℕ} (h : n < 10 ^ k) (hk : 1 ≤ k) :
    (natChars n).length ≤ k := by
  unfold natChars
  by_cases hn : n = 0
  · rw [if_pos hn]; simpa using hk
  · rw [if_neg hn, List.length_reverse, List.length_map]
    exact natDigitsAux_len n n k (Nat.le_refl n) h

/-! Parse/render round-trip lemmas for the number model. -/

theorem splitSign_digit {c : Char} {cs : List Char} (h : isDigitC c = true) :
    splitSign (c :: cs) = (1, c :: cs) := by
  simp [splitSign, isDigitC_ne h (show isDigitC '-' = false by rfl),
    isDigitC_ne h (show isDigitC '+' = false by rfl)]

theorem splitSign_neg (cs : List Char) : splitSign ('-' :: cs) = (-1, cs) := rfl

theorem parseQ_core {ip fp : List Char} (hip : ∀ c ∈ ip, isDigitC c = true)
    (hipne : ip ≠ []) (hfp : ∀ c ∈ fp, isDigitC c = true) :
    parseQ ⟨ip ++ '.' :: fp⟩ =
      some ((digitsVal ip : ℚ) + (digitsVal fp : ℚ) / 10 ^ fp.length) := by
  obtain ⟨c, cs, rfl⟩ := List.exists_cons_of_ne_nil hipne
  unfold parseQ
  simp only [List.cons_append, String.data]
  rw [splitSign_digit (hip c (List.mem_cons_self _ _))]
  simp only [← List.cons_append]
  rw [takeWhile_append_stop hip (by rfl), dropWhile_append_stop hip (by rfl)]
  simp only [fracPart, takeWhile_all hfp]
  simp [List.isEmpty]

theorem parseQ_core_neg {ip fp : List Char} (hip : ∀ c ∈ ip, isDigitC c = true)
    (hipne : ip ≠ []) (hfp : ∀ c ∈ fp, isDigitC c = true) :
    parseQ ⟨'-' :: (ip ++ '.' :: fp)⟩ =
      some (-((digitsVal ip : ℚ) + (digitsVal fp : ℚ) / 10 ^ fp.length)) := by
  obtain ⟨c, cs, rfl⟩ := List.exists_cons_of_ne_nil hipne
  unfold parseQ
  simp only [String.data]
  rw [splitSign_neg]
  rw [takeWhile_append_stop hip (by rfl), dropWhile_append_stop hip (by rfl)]
  simp only [fracPart, takeWhile_all hfp]
  simp [List.isEmpty]

theorem parseQ_int {ip : List Char} (hip : ∀ c ∈ ip, isDigitC c = true) (hipne : ip ≠ []) :
    parseQ ⟨ip⟩ = some (digitsVal ip : ℚ) := by
  obtain ⟨c, cs, rfl⟩ := List.exists_cons_of_ne_nil hipne
  unfold parseQ
  simp only [String.data]
  rw [splitSign_digit (hip c (List.mem_cons_self _ _))]
  rw [takeWhile_all hip, dropWhile_all hip]
  simp [fracPart, List.isEmpty, digitsVal]

theorem parseQ_int_neg {ip : List Char} (hip : ∀ c ∈ ip, isDigitC c = true) (hipne : ip ≠ []) :
    parseQ ⟨'-' :: ip⟩ = some (-(digitsVal ip : ℚ)) := by
  obtain ⟨c, cs, rfl⟩ := List.exists_cons_of_ne_nil hipne
  unfold parseQ
  simp only [String.data]
  rw [splitSign_neg]
  rw [takeWhile_all hip, dropWhile_all hip]
  simp [fracPart, List.isEmpty, digitsVal]

theorem parseQ_renderFixed (m : ℤ) (K : ℕ) (hK : 1 ≤ K) :
    parseQ (renderFixed m K) = some ((m : ℚ) / 10 ^ K) := by
  have h10K : (0 : ℕ) < 10 ^ K := Nat.pos_pow_of_pos K (by omega)
  have hmod : m.natAbs % 10 ^ K < 10 ^ K := Nat.mod_lt _ h10K
  have hflen : (padZeros K (natChars (m.natAbs % 10 ^ K))).length = K :=
    padZeros_len (natChars_len_le hmod hK)
  have hfdig : ∀ c ∈ padZeros K (natChars (m.natAbs % 10 ^ K)), isDigitC c = true :=
    padZeros_all_digit natChars_all_digit
  have hvfrac : digitsVal (padZeros K (natChars (m.natAbs % 10 ^ K))) = m.natAbs % 10 ^ K := by
    rw [digitsVal_padZeros, digitsVal_natChars]
  have hval : ((m.natAbs / 10 ^ K : ℕ) : ℚ) + ((m.natAbs % 10 ^ K : ℕ) : ℚ) / 10 ^ K
      = (m.natAbs : ℚ) / 10 ^ K := by
    have hsplit : 10 ^ K * (m.natAbs / 10 ^ K) + m.natAbs % 10 ^ K = m.natAbs :=
      Nat.div_add_mod _ _
    have h0 : ((10 : ℚ) ^ K) ≠ 0 := by positivity
    have hc := congrArg (Nat.cast : ℕ → ℚ) hsplit
    push_cast at hc
    field_simp
    linear_combination hc
  unfold renderFixed
  by_cases hm : m < 0
  · rw [if_pos hm]
    have hshape : (['-'] ++ natChars (m.natAbs / 10 ^ K) ++
        '.' :: padZeros K (natChars (m.natAbs % 10 ^ K)))
        = '-' :: (natChars (m.natAbs / 10 ^ K) ++
            '.' :: padZeros K (natChars (m.natAbs % 10 ^ K))) := by
      simp
    rw [hshape, parseQ_core_neg natChars_all_digit natChars_ne_nil hfdig]
    rw [digitsVal_natChars, hvfrac, hflen, hval]
    have habs : ((m.natAbs : ℕ) : ℚ) = -(m : ℚ) := by
      have h1 : (m.natAbs : ℤ) = -m := by omega
      rw [← @Int.cast_natCast ℚ _ _, h1, Int.cast_neg]
    rw [habs]
    congr 1
    ring
  · rw [if_neg hm]
    have hshape : (([] : List Char) ++ natChars (m.natAbs / 10 ^ K) ++
        '.' :: padZeros K (natChars (m.natAbs % 10 ^ K)))
        = natChars (m.natAbs / 10 ^ K) ++
            '.' :: padZeros K (natChars (m.natAbs % 10 ^ K)) := by
      simp
    rw [hshape, parseQ_core natChars_all_digit natChars_ne_nil hfdig]
    rw [digitsVal_natChars, hvfrac, hflen, hval]
    have habs : ((m.natAbs : ℕ) : ℚ) = (m : ℚ) := by
      have h1 : (m.natAbs : ℤ) = m := by omega
      rw [← @Int.cast_natCast ℚ _ _, h1]
    rw [habs]

theorem stripPAux_mul :
    ∀ (p fuel n : ℕ), n ≤ fuel → p ^ (stripPAux p fuel n).1 * (stripPAux p fuel n).2 = n := by
  intro p fuel
  induction fuel with
  | zero => intro n h; interval_cases n; simp [stripPAux]
  | succ f ih =>
    intro n h
    unfold stripPAux
    split
    case isTrue hc =>
      obtain ⟨hp2, hn0, hdvd⟩ := hc
      have hlt : n / p < n := Nat.div_lt_self hn0 (by omega)
      have hle : n / p ≤ f := by omega
      have hrec := ih (n / p) hle
      calc p ^ ((stripPAux p f (n / p)).1 + 1) * (stripPAux p f (n / p)).2
          = p * (p ^ (stripPAux p f (n / p)).1 * (stripPAux p f (n / p)).2) := by ring
        _ = p * (n / p) := by rw [hrec]
        _ = n := Nat.mul_div_cancel' (Nat.dvd_of_mod_eq_zero hdvd)
    case isFalse hc => simp

theorem pow10exp_dvd {d K : ℕ} (h : pow10exp d = some K) : d ∣ 10 ^ K := by
  unfold pow10exp at h
  split at h
  case isTrue h1 =>
    rw [Option.some_inj] at h
    have h2 : 2 ^ (stripP 2 d).1 * (stripP 2 d).2 = d := stripPAux_mul 2 d d (Nat.le_refl d)
    have h5 : 5 ^ (stripP 5 (stripP 2 d).2).1 * (stripP 5 (stripP 2 d).2).2 = (stripP 2 d).2 :=
      stripPAux_mul 5 (stripP 2 d).2 (stripP 2 d).2 (Nat.le_refl _)
    rw [h1, Nat.mul_one] at h5
    have key : (2 : ℕ) ^ (stripP 2 d).1 * 5 ^ (stripP 5 (stripP 2 d).2).1 ∣ 10 ^ K := by
      rw [show (10 : ℕ) = 2 * 5 by rfl, mul_pow]
      exact Nat.mul_dvd_mul
        (Nat.pow_dvd_pow 2 (h ▸ Nat.le_max_left _ _))
        (Nat.pow_dvd_pow 5 (h ▸ Nat.le_max_right _ _))
    have hd : d = 2 ^ (stripP 2 d).1 * 5 ^ (stripP 5 (stripP 2 d).2).1 := by
      conv_lhs => rw [← h2, ← h5]
    rw [hd]
    exact key
  case isFalse => cases h

theorem parseQ_jsStr {q : ℚ} (h : isDec q = true) : parseQ (jsStr q) = some q := by
  unfold isDec at h
  obtain ⟨K, hK⟩ := Option.isSome_iff_exists.mp h
  have hq := Rat.num_div_den q
  cases K with
  | zero =>
    have hden : q.den = 1 := Nat.dvd_one.mp (by simpa using pow10exp_dvd hK)
    have hqnum : ((q.num : ℚ)) = q := by
      rw [← hq, hden]
      simp
    simp only [jsStr, hK]
    by_cases hm : q.num < 0
    · rw [if_pos hm]
      rw [show (['-'] ++ natChars q.num.natAbs) = '-' :: natChars q.num.natAbs from rfl]
      rw [parseQ_int_neg natChars_all_digit natChars_ne_nil, digitsVal_natChars]
      have habs : ((q.num.natAbs : ℕ) : ℚ) = -(q.num : ℚ) := by
        have h1 : (q.num.natAbs : ℤ) = -q.num := by omega
        rw [← @Int.cast_natCast ℚ _ _, h1, Int.cast_neg]
      rw [habs, neg_neg, hqnum]
    · rw [if_neg hm]
      rw [show (([] : List Char) ++ natChars q.num.natAbs) = natChars q.num.natAbs from rfl]
      rw [parseQ_int natChars_all_digit natChars_ne_nil, digitsVal_natChars]
      have habs : ((q.num.natAbs : ℕ) : ℚ) = (q.num : ℚ) := by
        have h1 : (q.num.natAbs : ℤ) = q.num := by omega
        rw [← @Int.cast_natCast ℚ _ _, h1]
      rw [habs, hqnum]
  | succ K' =>
    simp only [jsStr, hK]
    rw [parseQ_renderFixed _ _ (by omega)]
    congr 1
    have hdvd : q.den ∣ 10 ^ (K' + 1) := pow10exp_dvd hK
    have hdvdZ : (q.den : ℤ) ∣ q.num * 10 ^ (K' + 1) := by
      have hc : ((q.den : ℕ) : ℤ) ∣ ((10 ^ (K' + 1) : ℕ) : ℤ) := Int.natCast_dvd_natCast.mpr hdvd
      push_cast at hc
      exact Dvd.dvd.mul_left hc _
    have hm : (q.num * 10 ^ (K' + 1) / (q.den : ℤ)) * (q.den : ℤ) = q.num * 10 ^ (K' + 1) :=
      Int.ediv_mul_cancel hdvdZ
    have hcast : ((q.num * 10 ^ (K' + 1) / (q.den : ℤ) : ℤ) : ℚ) * (q.den : ℚ)
        = (q.num : ℚ) * 10 ^ (K' + 1) := by
      exact_mod_cast congrArg (Int.cast : ℤ → ℚ) hm
    have hden0 : ((q.den : ℚ)) ≠ 0 := by
      exact_mod_cast q.den_nz
    have h10 : ((10 : ℚ) ^ (K' + 1)) ≠ 0 := by positivity
    have hqd : (q : ℚ) * (q.den : ℚ) = (q.num : ℚ) := by
      have h3 : ((q.num : ℚ) / (q.den : ℚ)) * (q.den : ℚ) = (q.num : ℚ) :=
        div_mul_cancel₀ _ hden0
      rw [hq] at h3
      exact h3
    rw [div_eq_iff h10]
    apply mul_right_cancel₀ hden0
    rw [hcast]
    linear_combination (-((10 : ℚ) ^ (K' + 1))) * hqd

theorem parseQ_fmt (q : ℚ) : parseQ (fmt q) = some (round2 q) := by
  unfold fmt round2
  rw [parseQ_renderFixed _ 2 (by omega)]
  norm_num

theorem jsStr_inj {a b : ℚ} (ha : isDec a = true) (hb : isDec b = true)
    (h : jsStr a = jsStr b) : a = b := by
  have h1 := parseQ_jsStr ha
  have h2 := parseQ_jsStr hb
  rw [h, h2] at h1
  exact (Option.some_inj.mp h1).symm

/-! Lemmas about the VAT-group accumulation of calculateTotals. -/

theorem lookupVS_none_iff :
    ∀ (acc : List (String × VatSummary)) (k : String),
      lookupVS acc k = none ↔ k ∉ vatKeys acc := by
  intro acc
  induction acc with
  | nil => intro k; simp [lookupVS, vatKeys]
  | cons hd t ih =>
    intro k
    obtain ⟨k', v⟩ := hd
    by_cases hk : k' = k
    · subst hk
      simp [lookupVS, vatKeys]
    · simp only [lookupVS, vatKeys, List.map, List.mem_cons]
      rw [if_neg (by simpa using hk)]
      rw [ih k]
      simp [vatKeys, Ne.symm hk]

theorem lookupVS_insertVat (l : InvoiceLine) :
    ∀ (acc : List (String × VatSummary)) (k0 k : String),
      lookupVS (insertVat acc k0 l) k =
        if k0 == k then
          match lookupVS acc k with
          | some v => some { v with taxableAmount := v.taxableAmount + round2 l.totalAmount }
          | none => some { categoryCode := l.vatCategory, rate := l.vatRate,
                           taxableAmount := round2 l.totalAmount, taxAmount := 0 }
        else lookupVS acc k := by
  intro acc
  induction acc with
  | nil =>
    intro k0 k
    cases h : k0 == k with
    | true => simp [insertVat, lookupVS, h]
    | false => simp [insertVat, lookupVS, h]
  | cons hd t ih =>
    intro k0 k
    obtain ⟨k', v⟩ := hd
    simp only [insertVat]
    cases h1 : k' == k0 with
    | true =>
      have e1 : k' = k0 := eq_of_beq h1
      subst e1
      rw [if_pos rfl]
      cases h2 : k' == k with
      | true =>
        have e2 : k' = k := eq_of_beq h2
        subst e2
        simp [lookupVS]
      | false =>
        simp [lookupVS, h2]
    | false =>
      rw [if_neg (by simp [h1])]
      cases h2 : k' == k with
      | true =>
        have e2 : k' = k := eq_of_beq h2
        subst e2
        have h3 : (k0 == k') = false := by
          cases h3 : k0 == k' with
          | true => rw [eq_of_beq h3] at h1; simp at h1
          | false => rfl
        simp [lookupVS, h3]
      | false =>
        simp [lookupVS, h2, ih k0 k]

theorem vatKeys_insertVat (l : InvoiceLine) :
    ∀ (acc : List (String × VatSummary)) (k0 : String),
      vatKeys (insertVat acc k0 l) =
        if k0 ∈ vatKeys acc then vatKeys acc else vatKeys acc ++ [k0] := by
  intro acc
  induction acc with
  | nil => intro k0; simp [insertVat, vatKeys]
  | cons hd t ih =>
    intro k0
    obtain ⟨k', v⟩ := hd
    simp only [insertVat]
    cases h1 : k' == k0 with
    | true =>
      have e1 : k' = k0 := eq_of_beq h1
      subst e1
      rw [if_pos rfl]
      rw [if_pos (show k' ∈ vatKeys ((k', v) :: t) from List.mem_cons_self _ _)]
      rfl
    | false =>
      rw [if_neg (by simp [h1])]
      have hne : k' ≠ k0 := by
        intro he
        rw [he] at h1
        simp at h1
      have hcons : vatKeys ((k', v) :: insertVat t k0 l) = k' :: vatKeys (insertVat t k0 l) := rfl
      have hcons2 : vatKeys ((k', v) :: t) = k' :: vatKeys t := rfl
      rw [hcons, ih k0, hcons2]
      by_cases hmem : k0 ∈ vatKeys t
      · rw [if_pos hmem, if_pos (List.mem_cons_of_mem _ hmem)]
      · rw [if_neg hmem, if_neg (by simp [hmem, Ne.symm hne])]
        rfl

theorem sumKey_cons (k : String) (l : InvoiceLine) (ls : List InvoiceLine) :
    sumKey k (l :: ls) =
      if lineKey l == k then round2 l.totalAmount + sumKey k ls else sumKey k ls := rfl

theorem groupEntry_cons (k : String) (l : InvoiceLine) (ls : List InvoiceLine) :
    groupEntry k (l :: ls) =
      if lineKey l == k then
        some { categoryCode := l.vatCategory, rate := l.vatRate,
               taxableAmount := sumKey k (l :: ls), taxAmount := 0 }
      else groupEntry k ls := by
  cases h : lineKey l == k with
  | true => simp [groupEntry, List.find?_cons, h]
  | false => simp [groupEntry, List.find?_cons, h, sumKey_cons]

theorem foldl_addVatLine_lookup :
    ∀ (ls : List InvoiceLine) (acc : List (String × VatSummary)) (k : String),
      lookupVS (ls.foldl addVatLine acc) k =
        match lookupVS acc k with
        | some v => some { v with taxableAmount := v.taxableAmount + sumKey k ls }
        | none => groupEntry k ls := by
  intro ls
  induction ls with
  | nil =>
    intro acc k
    simp only [List.foldl_nil]
    cases h : lookupVS acc k with
    | none => rfl
    | some v => simp [sumKey]
  | cons l ls ih =>
    intro acc k
    rw [List.foldl_cons, ih (addVatLine acc l) k]
    unfold addVatLine
    rw [lookupVS_insertVat]
    rw [sumKey_cons, groupEntry_cons]
    cases hk : lineKey l == k with
    | true =>
      rw [if_pos rfl, if_pos rfl, if_pos rfl]
      cases h : lookupVS acc k with
      | none =>
        simp only []
        congr 1
        rw [sumKey_cons, if_pos hk]
      | some v =>
        simp only []
        congr 1
        simp [add_assoc]
    | false =>
      rw [if_neg (by simp [hk]), if_neg (by simp [hk]), if_neg (by simp [hk])]

theorem nodup_vatKeys_foldl :
    ∀ (ls : List InvoiceLine) (acc : List (String × VatSummary)),
      (vatKeys acc).Nodup → (vatKeys (ls.foldl addVatLine acc)).Nodup := by
  intro ls
  induction ls with
  | nil => intro acc h; exact h
  | cons l ls ih =>
    intro acc h
    rw [List.foldl_cons]
    apply ih
    unfold addVatLine
    rw [vatKeys_insertVat]
    by_cases hmem : lineKey l ∈ vatKeys acc
    · rw [if_pos hmem]; exact h
    · rw [if_neg hmem]
      simp [List.nodup_append, h, hmem]

theorem mem_lookupVS :
    ∀ (acc : List (String × VatSummary)), (vatKeys acc).Nodup →
      ∀ p ∈ acc, lookupVS acc p.1 = some p.2 := by
  intro acc
  induction acc with
  | nil => intro _ p hp; cases hp
  | cons hd t ih =>
    intro hnd p hp
    obtain ⟨k', v⟩ := hd
    rcases List.mem_cons.mp hp with rfl | hp2
    · simp [lookupVS]
    · have hk : k' ≠ p.1 := by
        intro he
        have : p.1 ∈ vatKeys t := List.mem_map.mpr ⟨p, hp2, rfl⟩
        rw [← he] at this
        exact (List.nodup_cons.mp (by simpa [vatKeys] using hnd)).1 this
      simp only [lookupVS]
      rw [if_neg (by simpa using hk)]
      exact ih (List.nodup_cons.mp (by simpa [vatKeys] using hnd)).2 p hp2

set_option maxRecDepth 8192

theorem groupEntry_spec (k : String) (ls : List InvoiceLine) (v : VatSummary)
    (h : groupEntry k ls = some v) :
    ∃ l, ls.find? (fun l => lineKey l == k) = some l ∧
      v = { categoryCode := l.vatCategory, rate := l.vatRate,
            taxableAmount := sumKey k ls, taxAmount := 0 } := by
  unfold groupEntry at h
  cases hfind : ls.find? (fun l => lineKey l == k) with
  | none => rw [hfind] at h; simp at h
  | some l => rw [hfind] at h; exact ⟨l, rfl, (Option.some.inj h).symm⟩

theorem vatSummary_ext {a b : VatSummary}
    (h1 : a.categoryCode = b.categoryCode) (h2 : a.rate.num = b.rate.num)
    (h3 : a.rate.den = b.rate.den)
    (h4 : a.taxableAmount.num = b.taxableAmount.num)
    (h5 : a.taxableAmount.den = b.taxableAmount.den)
    (h6 : a.taxAmount.num = b.taxAmount.num)
    (h7 : a.taxAmount.den = b.taxAmount.den) : a = b := by
  cases a; cases b
  simp only [VatSummary.mk.injEq]
  exact ⟨h1, Rat.ext h2 h3, Rat.ext h4 h5, Rat.ext h6 h7⟩

theorem exC3_summaries : (calculateTotals exC3Inv).vatSummaries = [exC3Sum] := by
  have h : (calculateTotals exC3Inv).vatSummaries =
      [finalizeVat (VatSummary.mk "S" 20 (round2 ((3333:ℚ)/100)) 0)] := rfl
  rw [h]
  congr 1
  apply vatSummary_ext <;> with_unfolding_all decide

/-- C3: every VAT summary produced by calculateTotals has taxable amount equal
    to the 2-decimal rounding of the sum of the 2-decimal-rounded line totals of
    its group, and tax amount equal to taxable amount × rate / 100 rounded to 2
    decimals at that step; in particular the invoice with a single 33.33 line at
    rate 20 yields the one summary with basis 33.33 and tax exactly 6.67. -/
theorem vat_tax_rounded_per_group (inv : Invoice) (v : VatSummary)
    (hv : v ∈ (calculateTotals inv).vatSummaries) :
    (v.taxableAmount = round2 (sumKey (vatKey v) inv.lines) ∧
     v.taxAmount = round2 (v.taxableAmount * v.rate / 100)) ∧
    (calculateTotals exC3Inv).vatSummaries = [exC3Sum] := by
  constructor
  · have hv2 : v ∈ vatSummariesOf inv := hv
    rw [vatSummariesOf] at hv2
    obtain ⟨p, hp, hfv⟩ := List.mem_map.mp hv2
    have hnd : (vatKeys (vatList inv)).Nodup :=
      nodup_vatKeys_foldl inv.lines [] (by simp [vatKeys])
    have hlk := mem_lookupVS (vatList inv) hnd p hp
    have h1 : lookupVS (vatList inv) p.1 = groupEntry p.1 inv.lines :=
      foldl_addVatLine_lookup inv.lines [] p.1
    rw [hlk] at h1
    obtain ⟨l, hfind, hp2⟩ := groupEntry_spec p.1 inv.lines p.2 h1.symm
    have hkey : lineKey l = p.1 := by
      have hh := List.find?_some hfind
      exact eq_of_beq (by simpa using hh)
    subst hfv
    rw [hp2]
    constructor
    · simp only [finalizeVat, vatKey]
      have : l.vatCategory ++ "-" ++ jsStr l.vatRate = p.1 := hkey
      rw [this]
    · simp only [finalizeVat]
  · exact exC3_summaries

theorem vat_tax_rounded_per_group_witness :
    exC3Sum ∈ (calculateTotals exC3Inv).vatSummaries ∧
    ((exC3Sum.taxableAmount = round2 (sumKey (vatKey exC3Sum) exC3Inv.lines) ∧
      exC3Sum.taxAmount = round2 (exC3Sum.taxableAmount * exC3Sum.rate / 100)) ∧
     (calculateTotals exC3Inv).vatSummaries = [exC3Sum]) :=
  ⟨by rw [exC3_summaries]; exact List.mem_singleton_self exC3Sum,
   vat_tax_rounded_per_group exC3Inv exC3Sum
     (by rw [exC3_summaries]; exact List.mem_singleton_self exC3Sum)⟩

theorem pairKey_data (pr : String × ℚ) :
    (pairKey pr).data = pr.1.data ++ '-' :: (jsStr pr.2).data := by
  simp [pairKey, String.data_append]

theorem pairKey_inj {pr1 pr2 : String × ℚ}
    (h1 : goodPair pr1 = true) (h2 : goodPair pr2 = true)
    (h : pairKey pr1 = pairKey pr2) : pr1 = pr2 := by
  rw [goodPair, Bool.and_eq_true] at h1 h2
  have hall1 : ∀ c ∈ pr1.1.data, (!(c == '-')) = true :=
    List.all_eq_true.mp h1.1
  have hall2 : ∀ c ∈ pr2.1.data, (!(c == '-')) = true :=
    List.all_eq_true.mp h2.1
  have hd := congrArg String.data h
  rw [pairKey_data, pairKey_data] at hd
  have hstop : (!('-' == '-')) = false := by decide
  have hc : pr1.1.data = pr2.1.data := by
    have t1 : (pr1.1.data ++ '-' :: (jsStr pr1.2).data).takeWhile (fun c => !(c == '-'))
        = pr1.1.data := takeWhile_append_stop hall1 hstop
    have t2 : (pr2.1.data ++ '-' :: (jsStr pr2.2).data).takeWhile (fun c => !(c == '-'))
        = pr2.1.data := takeWhile_append_stop hall2 hstop
    rw [← t1, ← t2, hd]
  have hs : (jsStr pr1.2).data = (jsStr pr2.2).data := by
    have d1 : (pr1.1.data ++ '-' :: (jsStr pr1.2).data).dropWhile (fun c => !(c == '-'))
        = '-' :: (jsStr pr1.2).data := dropWhile_append_stop hall1 hstop
    have d2 : (pr2.1.data ++ '-' :: (jsStr pr2.2).data).dropWhile (fun c => !(c == '-'))
        = '-' :: (jsStr pr2.2).data := dropWhile_append_stop hall2 hstop
    have hcons : '-' :: (jsStr pr1.2).data = '-' :: (jsStr pr2.2).data := by
      rw [← d1, ← d2, hd]
    exact List.cons_injective.eq_iff.mp hcons
  have hr : pr1.2 = pr2.2 := jsStr_inj h1.2 h2.2 (String.ext hs)
  exact Prod.ext (String.ext hc) hr

theorem contains_map_pairKey :
    ∀ (seen : List (String × ℚ)), (∀ q ∈ seen, goodPair q = true) →
      ∀ (pr : String × ℚ), goodPair pr = true →
      (seen.map pairKey).contains (pairKey pr) = seen.contains pr := by
  intro seen
  induction seen with
  | nil => intro _ pr _; rfl
  | cons q t ih =>
    intro hg pr hpr
    simp only [List.map_cons, List.contains_cons]
    rw [ih (fun x hx => hg x (List.mem_cons_of_mem _ hx)) pr hpr]
    by_cases he : pr = q
    · subst he; simp
    · have hk : (pairKey pr == pairKey q) = false := by
        rw [beq_eq_false_iff_ne]
        intro hkk
        exact he (pairKey_inj hpr (hg q (List.mem_cons_self _ _)) hkk)
      have hp : (pr == q) = false := beq_eq_false_iff_ne.mpr he
      rw [hk, hp]

theorem specPairs_congr :
    ∀ (ls : List InvoiceLine) (s1 s2 : List String),
      (∀ k, s1.contains k = s2.contains k) → specPairs s1 ls = specPairs s2 ls := by
  intro ls
  induction ls with
  | nil => intro s1 s2 _; rfl
  | cons l t ih =>
    intro s1 s2 hc
    simp only [specPairs]
    rw [← hc (lineKey l)]
    cases hm : s1.contains (lineKey l) with
    | true => simp only [hm, if_true]; exact ih s1 s2 hc
    | false =>
      simp only [hm, Bool.false_eq_true, if_false]
      rw [ih (lineKey l :: s1) (lineKey l :: s2)
        (fun k => by simp only [List.contains_cons]; rw [hc k])]

theorem contains_append_singleton {α : Type} [BEq α] (s : List α) (a k : α) :
    (s ++ [a]).contains k = ((a :: s).contains k) := by
  induction s with
  | nil => rfl
  | cons x xs ih =>
    simp only [List.cons_append, List.contains_cons, ih]
    simp [Bool.or_comm, Bool.or_left_comm]

theorem vatPairs_insertVat (l : InvoiceLine) :
    ∀ (acc : List (String × VatSummary)) (k0 : String),
      vatPairs (insertVat acc k0 l) =
        if k0 ∈ vatKeys acc then vatPairs acc else vatPairs acc ++ [linePair l] := by
  intro acc
  induction acc with
  | nil => intro k0; simp [insertVat, vatPairs, vatKeys, linePair]
  | cons hd t ih =>
    intro k0
    obtain ⟨k', v⟩ := hd
    simp only [insertVat]
    cases h1 : k' == k0 with
    | true =>
      have he : k' = k0 := eq_of_beq h1
      subst he
      rw [if_pos rfl]
      rw [if_pos (show k' ∈ vatKeys ((k', v) :: t) by simp [vatKeys])]
      rfl
    | false =>
      have hne : k0 ≠ k' := fun he => by rw [he] at h1; simp at h1
      simp only [Bool.false_eq_true, if_false]
      have hl : vatPairs ((k', v) :: insertVat t k0 l)
          = (v.categoryCode, v.rate) :: vatPairs (insertVat t k0 l) := rfl
      rw [hl, ih k0]
      have hmem : (k0 ∈ vatKeys ((k', v) :: t)) ↔ (k0 ∈ vatKeys t) := by
        simp [vatKeys, hne]
      by_cases hm : k0 ∈ vatKeys t
      · rw [if_pos hm, if_pos (hmem.mpr hm)]
        rfl
      · rw [if_neg hm, if_neg (fun hx => hm (hmem.mp hx))]
        rfl

theorem pairs_foldl :
    ∀ (ls : List InvoiceLine) (acc : List (String × VatSummary)),
      vatPairs (ls.foldl addVatLine acc) = vatPairs acc ++ specPairs (vatKeys acc) ls := by
  intro ls
  induction ls with
  | nil => intro acc; simp [specPairs]
  | cons l t ih =>
    intro acc
    rw [List.foldl_cons, ih (addVatLine acc l)]
    unfold addVatLine
    rw [vatPairs_insertVat, vatKeys_insertVat]
    by_cases hm : lineKey l ∈ vatKeys acc
    · rw [if_pos hm, if_pos hm]
      have hsp : specPairs (vatKeys acc) (l :: t) = specPairs (vatKeys acc) t := by
        simp only [specPairs]
        rw [if_pos (List.elem_iff.mpr hm)]
      rw [hsp]
    · rw [if_neg hm, if_neg hm]
      have hcf : (vatKeys acc).contains (lineKey l) = false := by
        simpa using hm
      have hsp : specPairs (vatKeys acc) (l :: t)
          = linePair l :: specPairs (lineKey l :: vatKeys acc) t := by
        simp only [specPairs]
        simp only [hcf, Bool.false_eq_true, if_false]
      rw [hsp, specPairs_congr t (vatKeys acc ++ [lineKey l]) (lineKey l :: vatKeys acc)
        (fun k => contains_append_singleton (vatKeys acc) (lineKey l) k)]
      simp

theorem specPairs_firstDedup :
    ∀ (ls : List InvoiceLine), (∀ l ∈ ls, goodPair (linePair l) = true) →
      ∀ (seen : List (String × ℚ)), (∀ q ∈ seen, goodPair q = true) →
      specPairs (seen.map pairKey) ls = firstDedupAux seen (ls.map linePair) := by
  intro ls
  induction ls with
  | nil => intro _ seen _; rfl
  | cons l t ih =>
    intro hg seen hs
    simp only [List.map_cons, specPairs, firstDedupAux]
    have hkey : lineKey l = pairKey (linePair l) := rfl
    rw [hkey, contains_map_pairKey seen hs (linePair l) (hg l (List.mem_cons_self _ _))]
    cases hc : seen.contains (linePair l) with
    | true =>
      simp only [if_true]
      exact ih (fun x hx => hg x (List.mem_cons_of_mem _ hx)) seen hs
    | false =>
      simp only [Bool.false_eq_true, if_false]
      have hmap : pairKey (linePair l) :: seen.map pairKey
          = (linePair l :: seen).map pairKey := rfl
      rw [hmap, ih (fun x hx => hg x (List.mem_cons_of_mem _ hx)) (linePair l :: seen)
        (fun q hq => by
          rcases List.mem_cons.mp hq with rfl | hq2
          · exact hg l (List.mem_cons_self _ _)
          · exact hs q hq2)]

theorem noDash_code : ∀ s ∈ VAT_CATEGORY_CODES, noDash s = true := by decide

theorem exC8_summaries : (calculateTotals exC8Inv).vatSummaries = [exC8SumS, exC8SumZ] := by
  have h : (calculateTotals exC8Inv).vatSummaries =
      [finalizeVat (VatSummary.mk "S" 20 (round2 (1500:ℚ)) 0),
       finalizeVat (VatSummary.mk "Z" 0 (round2 (50:ℚ)) 0)] := rfl
  rw [h]
  have e1 : finalizeVat (VatSummary.mk "S" 20 (round2 (1500:ℚ)) 0) = exC8SumS := by
    apply vatSummary_ext <;> with_unfolding_all decide
  have e2 : finalizeVat (VatSummary.mk "Z" 0 (round2 (50:ℚ)) 0) = exC8SumZ := by
    apply vatSummary_ext <;> with_unfolding_all decide
  rw [e1, e2]

/-- C8: under the source's domain (validated category codes, which contain no
    dash, and finite-decimal rates, which every double is), the category/rate
    pairs of calculateTotals' vatSummaries are exactly the distinct
    (category, rate) pairs of the lines in order of first appearance; and the
    two-line invoice with a standard-rate and a zero-rate line yields exactly
    the two groups in first-appearance order, the zero-rate one reporting its
    taxable basis 50 with tax 0. -/
theorem vat_one_group_per_pair (inv : Invoice)
    (hcat : ∀ l ∈ inv.lines, l.vatCategory ∈ VAT_CATEGORY_CODES)
    (hdec : ∀ l ∈ inv.lines, isDec l.vatRate = true) :
    (calculateTotals inv).vatSummaries.map (fun v => (v.categoryCode, v.rate)) =
      firstDedup (inv.lines.map linePair) ∧
    (calculateTotals exC8Inv).vatSummaries = [exC8SumS, exC8SumZ] := by
  constructor
  · have hgood : ∀ l ∈ inv.lines, goodPair (linePair l) = true := by
      intro l hl
      rw [goodPair, Bool.and_eq_true]
      exact ⟨noDash_code l.vatCategory (hcat l hl), hdec l hl⟩
    have h1 : (calculateTotals inv).vatSummaries.map (fun v => (v.categoryCode, v.rate))
        = vatPairs (vatList inv) := by
      simp only [calculateTotals, vatSummariesOf, vatPairs, List.map_map]
      rfl
    rw [h1, vatList, pairs_foldl inv.lines []]
    have h2 := specPairs_firstDedup inv.lines hgood [] (fun q hq => absurd hq (List.not_mem_nil q))
    simpa [firstDedup, vatPairs, vatKeys] using h2
  · exact exC8_summaries

theorem vat_one_group_per_pair_witness :
    (∀ l ∈ exC8Inv.lines, l.vatCategory ∈ VAT_CATEGORY_CODES) ∧
    (∀ l ∈ exC8Inv.lines, isDec l.vatRate = true) ∧
    ((calculateTotals exC8Inv).vatSummaries.map (fun v => (v.categoryCode, v.rate)) =
        firstDedup (exC8Inv.lines.map linePair) ∧
     (calculateTotals exC8Inv).vatSummaries = [exC8SumS, exC8SumZ]) :=
  ⟨by decide, by with_unfolding_all decide,
   vat_one_group_per_pair exC8Inv (by decide) (by with_unfolding_all decide)⟩

theorem ratEqB_eq {a b : ℚ} (h : ratEqB a b = true) : a = b := by
  rw [ratEqB, Bool.and_eq_true] at h
  exact Rat.ext (eq_of_beq h.1) (eq_of_beq h.2)

theorem listEqB_eq {α : Type} {f : α → α → Bool}
    (hf : ∀ x y, f x y = true → x = y) :
    ∀ (xs ys : List α), listEqB f xs ys = true → xs = ys := by
  intro xs
  induction xs with
  | nil =>
    intro ys h
    cases ys with
    | nil => rfl
    | cons y ys => simp [listEqB] at h
  | cons x xs ih =>
    intro ys h
    cases ys with
    | nil => simp [listEqB] at h
    | cons y ys =>
      simp only [listEqB, Bool.and_eq_true] at h
      rw [hf x y h.1, ih ys h.2]

theorem lineEqB_eq {a b : InvoiceLine} (h : lineEqB a b = true) : a = b := by
  rw [lineEqB] at h
  simp only [Bool.and_eq_true, and_assoc] at h
  obtain ⟨h1, h2, h3, h4, h5, h6, h7, h8, h9, h10, h11⟩ := h
  cases a; cases b
  simp only [InvoiceLine.mk.injEq]
  exact ⟨eq_of_beq h1, eq_of_beq h2, ratEqB_eq h3, eq_of_beq h4, ratEqB_eq h5,
    ratEqB_eq h6, ratEqB_eq h7, eq_of_beq h8, eq_of_beq h9, eq_of_beq h10,
    eq_of_beq h11⟩

theorem invEqB_eq {a b : Invoice} (h : invEqB a b = true) : a = b := by
  rw [invEqB] at h
  simp only [Bool.and_eq_true, and_assoc] at h
  obtain ⟨h1, h2, h3, h4, h5, h6, h7, h8, h9, h10, h11, h12, h13, h14, h15⟩ := h
  cases a; cases b
  simp only [Invoice.mk.injEq]
  exact ⟨eq_of_beq h1, eq_of_beq h2, eq_of_beq h3, eq_of_beq h4, eq_of_beq h5,
    eq_of_beq h6, eq_of_beq h7, eq_of_beq h8, eq_of_beq h9,
    listEqB_eq (fun x y hx => lineEqB_eq hx) _ _ h10, eq_of_beq h11,
    eq_of_beq h12, eq_of_beq h13, eq_of_beq h15, eq_of_beq h14⟩

theorem exceptInvEqB_eq :
    ∀ {x y : Except ParseError Invoice}, exceptInvEqB x y = true → x = y
  | .ok a, .ok b, h => congrArg Except.ok (invEqB_eq (by simpa [exceptInvEqB] using h))
  | .error a, .error b, h =>
    congrArg Except.error (eq_of_beq (by simpa [exceptInvEqB] using h : (a == b) = true))
  | .ok _, .error _, h => by simp [exceptInvEqB] at h
  | .error _, .ok _, h => by simp [exceptInvEqB] at h

/-- C7: a successful parse carries the profile obtained from the guideline URN
    by substring checks in the source's order en16931, extended, basic, basicwl,
    minimum; a guideline matching none of them falls back to EN_16931 rather
    than erroring.  The concrete URNs pin the order (a guideline containing
    basicwl is already caught by the earlier basic check) and the fallback. -/
theorem profile_inference_order (j : JValue) (inv : Invoice)
    (h : parseFacturXJ j = .ok inv) :
    (∃ root, jroot j = some root ∧ inv.profile = inferProfile (guidelineOfRoot root)) ∧
    (∀ g : String, strContains g "en16931" = false → strContains g "extended" = false →
      strContains g "basic" = false → strContains g "basicwl" = false →
      strContains g "minimum" = false → inferProfile g = "EN_16931") ∧
    inferProfile "urn:cen.eu:en16931:2017" = "EN_16931" ∧
    inferProfile "urn:factur-x.eu:1p0:extended" = "EXTENDED" ∧
    inferProfile "urn:factur-x.eu:1p0:basic" = "BASIC" ∧
    inferProfile "urn:factur-x.eu:1p0:basicwl" = "BASIC" ∧
    inferProfile "urn:factur-x.eu:1p0:minimum" = "MINIMUM" ∧
    inferProfile "urn:unknown:guideline" = "EN_16931" := by
  refine ⟨?_, ?_, by decide, by decide, by decide, by decide, by decide, by decide⟩
  · unfold parseFacturXJ at h
    cases hr : jroot j with
    | none => rw [hr] at h; exact absurd h (by simp)
    | some root =>
      rw [hr] at h
      refine ⟨root, rfl, ?_⟩
      dsimp only [] at h
      repeat' split at h
      all_goals first
        | (have hi := Except.ok.inj h; rw [← hi])
        | exact absurd h (by simp)
  · intro g h1 h2 h3 h4 h5
    simp [inferProfile, h1, h2, h3, h4, h5]

theorem profile_inference_order_witness :
    parseFacturXJ (docToJ (generateFacturX exInv)) = .ok exInv ∧
    ((∃ root, jroot (docToJ (generateFacturX exInv)) = some root ∧
        exInv.profile = inferProfile (guidelineOfRoot root)) ∧
     (∀ g : String, strContains g "en16931" = false → strContains g "extended" = false →
       strContains g "basic" = false → strContains g "basicwl" = false →
       strContains g "minimum" = false → inferProfile g = "EN_16931") ∧
     inferProfile "urn:cen.eu:en16931:2017" = "EN_16931" ∧
     inferProfile "urn:factur-x.eu:1p0:extended" = "EXTENDED" ∧
     inferProfile "urn:factur-x.eu:1p0:basic" = "BASIC" ∧
     inferProfile "urn:factur-x.eu:1p0:basicwl" = "BASIC" ∧
     inferProfile "urn:factur-x.eu:1p0:minimum" = "MINIMUM" ∧
     inferProfile "urn:unknown:guideline" = "EN_16931") :=
  ⟨exceptInvEqB_eq (by with_unfolding_all decide),
   profile_inference_order (docToJ (generateFacturX exInv)) exInv
     (exceptInvEqB_eq (by with_unfolding_all decide))⟩

theorem parsePartyJ_error (x : Option JValue) (e : ParseError)
    (h : parsePartyJ x = .error e) : e = .typeErr := by
  cases x with
  | none => exact (Except.error.inj h).symm
  | some v => simp [parsePartyJ] at h

/-- C2 (amended): the parser raises a structural message exactly on a missing
    or empty root, ExchangedDocument or SupplyChainTradeTransaction; but with
    those present it can still fault with a TypeError when the settlement or
    agreement section or a trade party is missing; when those too are present
    the parse succeeds and each genuinely optional missing section (payment
    means, payment terms, delivery event, notes, references) maps to an absent
    value rather than an error. -/
theorem parse_structural_exactly_mandatory (j : JValue) :
    (jroot j = none → parseFacturXJ j = .error (.structural structMsg1)) ∧
    (∀ root, jroot j = some root → truthyJ root = false →
      parseFacturXJ j = .error (.structural structMsg1)) ∧
    (∀ root, jroot j = some root → truthyJ root = true →
      (jdoc root = none ∨ jtrx root = none) →
      parseFacturXJ j = .error (.structural structMsg2)) ∧
    (∀ root doc trx, jroot j = some root → truthyJ root = true →
      jdoc root = some doc → jtrx root = some trx →
      (truthyJ doc = false ∨ truthyJ trx = false) →
      parseFacturXJ j = .error (.structural structMsg2)) ∧
    (mandatoryOk j = true → ∀ m, parseFacturXJ j ≠ .error (.structural m)) ∧
    (∀ root doc trx settlement agreement seller buyer,
      jroot j = some root → truthyJ root = true →
      jdoc root = some doc → truthyJ doc = true →
      jtrx root = some trx → truthyJ trx = true →
      getF trx "ApplicableHeaderTradeSettlement" = some settlement →
      getF trx "ApplicableHeaderTradeAgreement" = some agreement →
      getF agreement "SellerTradeParty" = some seller →
      getF agreement "BuyerTradeParty" = some buyer →
      ∃ inv, parseFacturXJ j = .ok inv ∧
        (getF settlement "SpecifiedTradeSettlementPaymentMeans" = none → inv.payment = none) ∧
        (getF trx "ApplicableHeaderTradeDelivery" = none → inv.deliveryDate = none) ∧
        (getF settlement "SpecifiedTradePaymentTerms" = none → inv.dueDate = none) ∧
        (getF doc "IncludedNote" = none → inv.notes = none) ∧
        (getF agreement "BuyerOrderReferencedDocument" = none → inv.purchaseOrderRef = none) ∧
        (getF agreement "ContractReferencedDocument" = none → inv.contractRef = none) ∧
        (getF agreement "BuyerReference" = none → inv.buyerRef = none)) := by
  refine ⟨?_, ?_, ?_, ?_, ?_, ?_⟩
  · intro h
    unfold parseFacturXJ
    rw [h]
  · intro root h ht
    unfold parseFacturXJ
    rw [h]
    simp [ht]
  · intro root h ht hd
    unfold parseFacturXJ
    rw [h]
    rcases hd with hd | hd
    · cases htr : jtrx root with
      | none => simp [ht, hd, htr]
      | some trx => simp [ht, hd, htr]
    · cases hdo : jdoc root with
      | none => simp [ht, hd, hdo]
      | some doc => simp [ht, hd, hdo]
  · intro root doc trx h ht hd hx hf
    unfold parseFacturXJ
    rw [h]
    rcases hf with hf | hf <;> simp [ht, hd, hx, hf]
  · intro hm m h
    unfold mandatoryOk at hm
    unfold parseFacturXJ at h
    cases hr : jroot j with
    | none => rw [hr] at hm; exact absurd hm (by simp)
    | some root =>
      rw [hr] at hm h
      cases ht : truthyJ root with
      | false => dsimp only [] at hm; rw [ht] at hm; exact absurd hm (by simp)
      | true =>
        cases hdo : jdoc root with
        | none => dsimp only [] at hm; rw [ht, hdo] at hm; simp at hm
        | some doc =>
          cases htr : jtrx root with
          | none => dsimp only [] at hm; rw [ht, hdo, htr] at hm; simp at hm
          | some trx =>
            dsimp only [] at hm h
            rw [ht, hdo, htr] at hm
            dsimp only [] at hm
            simp only [Bool.true_and, Bool.and_eq_true] at hm
            simp [ht, hdo, htr, hm.1, hm.2] at h
            repeat' split at h
            all_goals
              first
                | (rename_i e heq hother
                   have he : e = ParseError.typeErr := parsePartyJ_error _ _ heq
                   rw [he] at h
                   exact ParseError.noConfusion (Except.error.inj h))
                | (rename_i e heq
                   have he : e = ParseError.typeErr := parsePartyJ_error _ _ heq
                   rw [he] at h
                   exact ParseError.noConfusion (Except.error.inj h))
                | exact absurd h (by simp)
  · intro root doc trx settlement agreement seller buyer hr ht hdo htd htr htt hset hagr hsell hbuy
    unfold parseFacturXJ
    rw [hr]
    dsimp only []
    simp only [ht, hdo, htr, htd, htt, hset, hagr, hsell, hbuy, Bool.not_true, Bool.or_self,
      Bool.false_eq_true, if_false, parsePartyJ]
    refine ⟨_, rfl, ?_, ?_, ?_, ?_, ?_, ?_, ?_⟩
    · intro habs
      simp [parsePaymentJ, habs, jtru]
    · intro habs
      simp [habs, getFO, jtru]
    · intro habs
      simp [habs, getFO, jtru]
    · intro habs
      simp [habs, jtru, strJ]
    · intro habs
      simp [habs, getFO, strJ, emptyToNone]
    · intro habs
      simp [habs, getFO, strJ, emptyToNone]
    · intro habs
      simp [habs, strJ, emptyToNone]

/-- C2 counterexample: a parsed document holding both mandatory sections (root,
    ExchangedDocument, SupplyChainTradeTransaction all present and truthy) but
    no ApplicableHeaderTradeSettlement still makes the parser raise - a
    TypeError from the unguarded settlement access - refuting that only the two
    mandatory sections are hard requirements. -/
theorem parse_optional_sections_cex :
    mandatoryOk cexC2 = true ∧
    parseFacturXJ cexC2 = .error .typeErr ∧
    (∀ m, parseFacturXJ cexC2 ≠ .error (.structural m)) := by
  refine ⟨rfl, rfl, ?_⟩
  intro m h
  rw [show parseFacturXJ cexC2 = .error .typeErr from rfl] at h
  exact ParseError.noConfusion (Except.error.inj h)

theorem parse_structural_exactly_mandatory_witness :
    mandatoryOk minOkC2 = true ∧
    (∃ inv, parseFacturXJ minOkC2 = .ok inv ∧ inv.payment = none ∧
      inv.deliveryDate = none ∧ inv.dueDate = none ∧ inv.notes = none ∧
      inv.purchaseOrderRef = none ∧ inv.contractRef = none ∧ inv.buyerRef = none) :=
  ⟨rfl, by
    obtain ⟨inv, hok, h1, h2, h3, h4, h5, h6, h7⟩ :=
      (parse_structural_exactly_mandatory minOkC2).2.2.2.2.2
        (.obj [("ExchangedDocument", .s "x"),
          ("SupplyChainTradeTransaction", .obj
            [("ApplicableHeaderTradeAgreement", .obj
               [("SellerTradeParty", .s ""), ("BuyerTradeParty", .s "")]),
             ("ApplicableHeaderTradeSettlement", .obj
               [("InvoiceCurrencyCode", .s "EUR")])])])
        (.s "x")
        (.obj [("ApplicableHeaderTradeAgreement", .obj
            [("SellerTradeParty", .s ""), ("BuyerTradeParty", .s "")]),
          ("ApplicableHeaderTradeSettlement", .obj
            [("InvoiceCurrencyCode", .s "EUR")])])
        (.obj [("InvoiceCurrencyCode", .s "EUR")])
        (.obj [("SellerTradeParty", .s ""), ("BuyerTradeParty", .s "")])
        (.s "") (.s "")
        rfl rfl rfl rfl rfl rfl rfl rfl rfl rfl
    exact ⟨inv, hok, h1 rfl, h2 rfl, h3 rfl, h4 rfl, h5 rfl, h6 rfl, h7 rfl⟩⟩

theorem alookup_append (xs ys : List (String × JValue)) (k : String) :
    alookup (xs ++ ys) k = (alookup xs k).or (alookup ys k) := by
  induction xs with
  | nil => rfl
  | cons x t ih =>
    obtain ⟨k', v⟩ := x
    simp only [List.cons_append, alookup]
    cases h : k' == k with
    | true => simp
    | false => simpa using ih

theorem alookup_attrs_none (attrs : List (String × String)) (k : String)
    (h : ∀ a ∈ attrs, (("@_" ++ a.1) == k) = false) :
    alookup (attrs.map (fun a => ("@_" ++ a.1, JValue.s (jsTrim a.2)))) k = none := by
  induction attrs with
  | nil => rfl
  | cons a t ih =>
    simp only [List.map_cons, alookup]
    rw [h a (List.mem_cons_self _ _)]
    simp only [Bool.false_eq_true, if_false]
    exact ih (fun x hx => h x (List.mem_cons_of_mem _ hx))

theorem alookup_keyed (g : String → JValue) :
    ∀ (names : List String) (k : String),
      alookup (names.map (fun n => (n, g n))) k =
        if names.contains k then some (g k) else none := by
  intro names
  induction names with
  | nil => intro k; rfl
  | cons n t ih =>
    intro k
    simp only [List.map_cons, alookup, List.contains_cons]
    by_cases he : n = k
    · subst he
      simp
    · have h1 : (n == k) = false := by simpa using he
      have h2 : (k == n) = false := by simpa using Ne.symm he
      rw [h1, h2]
      simpa using ih k

theorem contains_firstDedupAux {α : Type} [BEq α] [LawfulBEq α] :
    ∀ (xs : List α) (seen : List α) (k : α),
      (firstDedupAux seen xs).contains k = (xs.contains k && !seen.contains k) := by
  intro xs
  induction xs with
  | nil => intro seen k; simp [firstDedupAux]
  | cons x t ih =>
    intro seen k
    simp only [firstDedupAux, List.contains_cons]
    cases hs : seen.contains x with
    | true =>
      rw [if_pos rfl, ih seen k]
      by_cases he : k = x
      · subst he
        simp only [hs, Bool.not_true, Bool.and_false]
      · have hkx : (k == x) = false := by simpa using he
        simp [hkx]
    | false =>
      rw [if_neg (by simp), List.contains_cons, ih (x :: seen) k,
        List.contains_cons]
      by_cases he : k = x
      · subst he
        simp only [hs, Bool.not_false, Bool.and_true]
        simp
      · have hkx : (k == x) = false := by simpa using he
        simp [hkx]

theorem contains_firstDedup {α : Type} [BEq α] [LawfulBEq α] (xs : List α) (k : α) :
    (firstDedup xs).contains k = xs.contains k := by
  rw [firstDedup, contains_firstDedupAux]
  simp

theorem optEls_nil (b : Bool) : optEls b [] = [] := by
  unfold optEls; split <;> rfl

theorem filter_optEls (b : Bool) (xs : List Xml) (p : Xml → Bool) :
    (optEls b xs).filter p = optEls b (xs.filter p) := by
  unfold optEls; split <;> rfl

theorem filter_map_none {α β : Type} (f : α → β) (p : β → Bool)
    (h : ∀ x, p (f x) = false) (xs : List α) : (xs.map f).filter p = [] := by
  induction xs with
  | nil => rfl
  | cons x t ih => simp [List.filter_cons, h x, ih]

theorem filter_map_all {α β : Type} (f : α → β) (p : β → Bool)
    (h : ∀ x, p (f x) = true) (xs : List α) : (xs.map f).filter p = xs.map f := by
  induction xs with
  | nil => rfl
  | cons x t ih => simp [List.filter_cons, h x, ih]

theorem contains_map_name (cs : List Xml) (k : String) :
    (cs.map (fun c => stripNS c.name)).contains k = !(childrenNamed k cs).isEmpty := by
  induction cs with
  | nil => rfl
  | cons c t ih =>
    simp only [List.map_cons, List.contains_cons, childrenNamed, List.filter_cons]
    cases hc : stripNS c.name == k with
    | true =>
      have hck : (k == stripNS c.name) = true := by
        have := eq_of_beq hc; simp [this]
      simp [hck, hc]
    | false =>
      have hck : (k == stripNS c.name) = false := by
        rw [beq_eq_false_iff_ne] at hc ⊢
        exact fun he => hc he.symm
      simp only [hck, Bool.false_or, Bool.false_eq_true, if_false]
      rw [ih, childrenNamed]

theorem getF_conv (d : ℕ) (n : String) (attrs : List (String × String)) (t : String)
    (cs : List Xml) (k : String)
    (hne : attrs ≠ [] ∨ cs ≠ [])
    (hka : ∀ a ∈ attrs, (("@_" ++ a.1) == k) = false)
    (hkt : ("#text" == k) = false) :
    getF (xmlToJd (d + 1) (.el n attrs t cs)) k =
      if (childrenNamed k cs).isEmpty then none
      else some (convGroup (xmlToJd d) (childrenNamed k cs)) := by
  have hobj : xmlToJd (d + 1) (.el n attrs t cs) =
      .obj ((attrs.map (fun a => ("@_" ++ a.1, JValue.s (jsTrim a.2))))
        ++ ((firstDedup (cs.map (fun c => stripNS c.name))).map (fun nm =>
              (nm, convGroup (xmlToJd d) (cs.filter (fun c => stripNS c.name == nm)))))
        ++ (if jsTrim t == "" then [] else [("#text", JValue.s (coerceText (jsTrim t)))])) := by
    rcases attrs with _ | ⟨a, as⟩
    · rcases cs with _ | ⟨c, cs'⟩
      · exact absurd hne (by simp)
      · rfl
    · rfl
  rw [hobj]
  show alookup _ k = _
  rw [alookup_append, alookup_append, alookup_attrs_none _ _ hka,
    alookup_keyed (fun nm => convGroup (xmlToJd d) (cs.filter (fun c => stripNS c.name == nm))),
    contains_firstDedup, contains_map_name]
  cases he : (childrenNamed k cs).isEmpty with
  | true =>
    simp only [Bool.not_true, Bool.false_eq_true, if_false, Option.none_or, Option.or]
    split
    · rfl
    · simp only [alookup]
      rw [hkt]
      simp
  | false =>
    simp [childrenNamed]

theorem data_mk (l : List Char) : (String.mk l).data = l := rfl

theorem upper_not_ws {c : Char} (h : isUpperC c = true) : isWsC c = false := by
  cases hw : isWsC c with
  | false => rfl
  | true =>
    rw [isWsC] at hw
    simp only [Bool.or_eq_true] at hw
    rcases hw with ((h1 | h1) | h1) | h1 <;>
      (rw [eq_of_beq h1] at h; exact absurd h (by decide))

theorem no_ws_stable {s : String} (h : ∀ c ∈ s.data, isWsC c = false) :
    jsTrim s = s := by
  rw [jsTrim]
  rw [dropWhile_none h]
  rw [dropWhile_none (fun c hc => h c (List.mem_reverse.mp hc))]
  rw [List.reverse_reverse]

theorem natChars_no_ws {n : ℕ} : ∀ c ∈ natChars n, isWsC c = false :=
  fun c hc => digit_not_ws (natChars_all_digit c hc)

theorem renderFixed_no_ws (m : ℤ) (k : ℕ) :
    ∀ c ∈ (renderFixed m k).data, isWsC c = false := by
  intro c hc
  rw [renderFixed, data_mk] at hc
  simp only [List.mem_append, List.mem_cons] at hc
  rcases hc with (hc | hc) | hc | hc
  · split at hc
    · simp only [List.mem_singleton] at hc
      subst hc; decide
    · cases hc
  · exact natChars_no_ws c hc
  · subst hc; decide
  · exact digit_not_ws (padZeros_all_digit natChars_all_digit c hc)

theorem fmt_no_ws (q : ℚ) : ∀ c ∈ (fmt q).data, isWsC c = false :=
  renderFixed_no_ws _ _

theorem jsTrim_fmt (q : ℚ) : jsTrim (fmt q) = fmt q := no_ws_stable (fmt_no_ws q)

theorem jsStr_no_ws (q : ℚ) : ∀ c ∈ (jsStr q).data, isWsC c = false := by
  intro c hc
  rw [jsStr] at hc
  split at hc
  · have h0 : (("0" : String)).data = ['0'] := rfl
    rw [h0] at hc
    simp only [List.mem_singleton] at hc
    subst hc; decide
  · rw [data_mk] at hc
    simp only [List.mem_append] at hc
    rcases hc with hc | hc
    · split at hc
      · simp only [List.mem_singleton] at hc
        subst hc; decide
      · cases hc
    · exact natChars_no_ws c hc
  · exact renderFixed_no_ws _ _ c hc

theorem jsTrim_jsStr (q : ℚ) : jsTrim (jsStr q) = jsStr q := no_ws_stable (jsStr_no_ws q)

theorem jsRound_intCast (n : ℤ) : jsRound (n : ℚ) = n := by
  rw [jsRound, Int.floor_eq_iff]
  constructor
  · linarith
  · norm_num

theorem round2_idem (q : ℚ) : round2 (round2 q) = round2 q := by
  rw [round2, round2]
  rw [div_mul_cancel₀ _ (by norm_num : (100:ℚ) ≠ 0)]
  rw [jsRound_intCast]

theorem digit_ne_dash {c : Char} (h : isDigitC c = true) : (c == '-') = false :=
  isDigitC_ne h (by decide)

theorem dateRE_spec {s : String} (h : dateRE s = true) :
    jsTrim s = s ∧ jsTrim (toDate8 s) = toDate8 s ∧ toIsoDate (toDate8 s) = s := by
  rw [dateRE] at h
  rcases hd : s.data with _ | ⟨y1, _ | ⟨y2, _ | ⟨y3, _ | ⟨y4, _ | ⟨a, _ | ⟨m1, _ | ⟨m2, _ | ⟨b, _ | ⟨d1, _ | ⟨d2, rest⟩⟩⟩⟩⟩⟩⟩⟩⟩⟩ <;>
    rw [hd] at h <;>
    first
      | exact Bool.noConfusion h
      | skip
  cases rest with
  | cons r rs => exact Bool.noConfusion h
  | nil =>
    simp only [Bool.and_eq_true] at h
    obtain ⟨⟨⟨⟨⟨⟨⟨⟨⟨hy1, hy2⟩, hy3⟩, hy4⟩, ha⟩, hm1⟩, hm2⟩, hb⟩, hd1⟩, hd2⟩ := h
    have ha2 : a = '-' := eq_of_beq ha
    have hb2 : b = '-' := eq_of_beq hb
    subst ha2 hb2
    have hdig : ∀ c, c ∈ s.data → isWsC c = false := by
      intro c hc
      rw [hd] at hc
      simp only [List.mem_cons, List.not_mem_nil, or_false] at hc
      rcases hc with rfl | rfl | rfl | rfl | rfl | rfl | rfl | rfl | rfl | rfl
      · exact digit_not_ws hy1
      · exact digit_not_ws hy2
      · exact digit_not_ws hy3
      · exact digit_not_ws hy4
      · decide
      · exact digit_not_ws hm1
      · exact digit_not_ws hm2
      · decide
      · exact digit_not_ws hd1
      · exact digit_not_ws hd2
    have h8 : (toDate8 s).data = [y1, y2, y3, y4, m1, m2, d1, d2] := by
      rw [toDate8, data_mk, hd]
      simp only [List.filter_cons, digit_ne_dash hy1, digit_ne_dash hy2, digit_ne_dash hy3,
        digit_ne_dash hy4, digit_ne_dash hm1, digit_ne_dash hm2, digit_ne_dash hd1,
        digit_ne_dash hd2, Bool.not_false, Bool.not_true, Bool.false_eq_true, if_false,
        if_true, List.filter_nil]
      simp
    refine ⟨no_ws_stable hdig, no_ws_stable ?_, ?_⟩
    · intro c hc
      rw [h8] at hc
      simp only [List.mem_cons, List.not_mem_nil, or_false] at hc
      rcases hc with rfl | rfl | rfl | rfl | rfl | rfl | rfl | rfl
      · exact digit_not_ws hy1
      · exact digit_not_ws hy2
      · exact digit_not_ws hy3
      · exact digit_not_ws hy4
      · exact digit_not_ws hm1
      · exact digit_not_ws hm2
      · exact digit_not_ws hd1
      · exact digit_not_ws hd2
    · rw [toIsoDate, h8]
      exact String.ext hd.symm

theorem digitsVal_zeros_append {zs : List Char} (l : List Char)
    (h : ∀ c ∈ zs, c = '0') : digitsVal (zs ++ l) = digitsVal l := by
  have hz : zs = List.replicate zs.length '0' := List.eq_replicate_iff.mpr ⟨rfl, h⟩
  rw [hz]
  exact digitsVal_replicate_zero _ l

theorem digitsVal_all_zero {l : List Char} (h : ∀ c ∈ l, c = '0') : digitsVal l = 0 := by
  have h2 : digitsVal (l ++ []) = digitsVal [] := digitsVal_zeros_append [] h
  rw [List.append_nil] at h2
  rw [h2]
  rfl

theorem splitSign_signSplit (l : List Char) :
    splitSign l = ((if (signSplit l).1 == some '-' then (-1 : ℚ) else 1), (signSplit l).2) := by
  cases l with
  | nil => rfl
  | cons c t =>
    by_cases h1 : c = '+'
    · subst h1; rfl
    · by_cases h2 : c = '-'
      · subst h2; rfl
      · simp only [splitSign, signSplit, beq_eq_false_iff_ne.mpr h1,
          beq_eq_false_iff_ne.mpr h2, Bool.false_eq_true, if_false]
        rfl

theorem signSplit_subset {l : List Char} : ∀ c ∈ (signSplit l).2, c ∈ l := by
  intro c hc
  cases l with
  | nil => exact hc
  | cons a t =>
    rw [signSplit] at hc
    split at hc
    · exact List.mem_cons_of_mem _ hc
    · split at hc
      · exact List.mem_cons_of_mem _ hc
      · exact hc

theorem upper_not_digit {c : Char} (h : isUpperC c = true) : isDigitC c = false := by
  cases hd : isDigitC c with
  | false => rfl
  | true =>
    rw [isUpperC] at h
    rw [isDigitC] at hd
    simp only [Bool.and_eq_true, decide_eq_true_eq] at h hd
    exact absurd (le_trans h.1 hd.2) (by decide)

theorem isUpperC_ne {c d : Char} (h : isUpperC c = true) (hd : isUpperC d = false) :
    (c == d) = false := by
  cases he : c == d with
  | false => rfl
  | true => rw [eq_of_beq he] at h; rw [h] at hd; exact Bool.noConfusion hd

theorem not_digit_beq {x c : Char} (hx : isDigitC x = false) (hc : isDigitC c = true) :
    (x == c) = false := by
  cases hb : x == c with
  | false => rfl
  | true => rw [eq_of_beq hb] at hx; rw [hc] at hx; exact Bool.noConfusion hx

theorem numC_not_special {c : Char} (h : isNumC c = true) :
    (c == 'e') = false ∧ (c == 'E') = false ∧ (c == 'x') = false := by
  rw [isNumC] at h
  simp only [Bool.or_eq_true] at h
  rcases h with (h | h) | h
  · exact ⟨isDigitC_ne h (by decide), isDigitC_ne h (by decide), isDigitC_ne h (by decide)⟩
  · rw [eq_of_beq h]; exact ⟨by decide, by decide, by decide⟩
  · rw [eq_of_beq h]; exact ⟨by decide, by decide, by decide⟩

theorem natChars_numC {n : ℕ} : ∀ c ∈ natChars n, isNumC c = true := by
  intro c hc
  rw [isNumC, natChars_all_digit c hc]
  rfl

theorem renderFixed_numC (m : ℤ) (k : ℕ) : ∀ c ∈ (renderFixed m k).data, isNumC c = true := by
  intro c hc
  rw [renderFixed, data_mk] at hc
  simp only [List.mem_append, List.mem_cons] at hc
  rcases hc with (hc | hc) | hc | hc
  · split at hc
    · simp only [List.mem_singleton] at hc
      subst hc; rfl
    · cases hc
  · exact natChars_numC c hc
  · subst hc; rfl
  · rw [isNumC, padZeros_all_digit natChars_all_digit c hc]
    rfl

theorem jsStr_numC (q : ℚ) : ∀ c ∈ (jsStr q).data, isNumC c = true := by
  intro c hc
  rw [jsStr] at hc
  split at hc
  · have h0 : (("0" : String)).data = ['0'] := rfl
    rw [h0] at hc
    simp only [List.mem_singleton] at hc
    subst hc; rfl
  · rw [data_mk] at hc
    simp only [List.mem_append] at hc
    rcases hc with hc | hc
    · split at hc
      · simp only [List.mem_singleton] at hc
        subst hc; rfl
      · cases hc
    · exact natChars_numC c hc
  · exact renderFixed_numC _ _ c hc

theorem fmt_numC (q : ℚ) : ∀ c ∈ (fmt q).data, isNumC c = true := renderFixed_numC _ _

theorem no_eE_any {l : List Char} (h : ∀ c ∈ l, isNumC c = true) :
    (l.any (fun c => c == 'e' || c == 'E')) = false := by
  rw [List.any_eq_false]
  intro c hc
  obtain ⟨h1, h2, _⟩ := numC_not_special (h c hc)
  simp [h1, h2]

theorem contains_ne_false {l : List Char} {x : Char} (h : ∀ c ∈ l, (x == c) = false) :
    l.contains x = false := by
  induction l with
  | nil => rfl
  | cons a t ih =>
    rw [List.contains_cons, h a (List.mem_cons_self _ _),
      ih (fun c hc => h c (List.mem_cons_of_mem _ hc))]
    rfl

theorem hexRE_no_x {s : String} (h : ∀ c ∈ s.data, (c == 'x') = false) :
    hexRE s = false := by
  rw [hexRE]
  rcases hsp : (signSplit s.data).2 with _ | ⟨c1, _ | ⟨c2, rest⟩⟩
  · rfl
  · rfl
  · have hc2 : c2 ∈ s.data :=
      signSplit_subset c2 (by rw [hsp]; exact List.mem_cons_of_mem _ (List.mem_cons_self _ _))
    simp [h c2 hc2]

theorem ne_empty_of_data {s : String} {c : Char} {t : List Char} (h : s.data = c :: t) :
    (s == "") = false := by
  cases hb : s == "" with
  | false => rfl
  | true =>
    rw [show s = "" from eq_of_beq hb] at h
    exact List.noConfusion h

theorem mem_takeWhile_pred {p : Char → Bool} {l : List Char} {x : Char}
    (hx : x ∈ l.takeWhile p) : p x = true :=
  List.mem_takeWhile_imp hx

theorem matchNum_none_of_head {s : String} {c : Char} {t : List Char}
    (hsgn : signSplit s.data = (none, c :: t))
    (h0 : (c == '0') = false) (hdot : (c == '.') = false) (hdig : isDigitC c = false) :
    matchNum s = none := by
  rw [matchNum, hsgn]
  dsimp only []
  rw [List.takeWhile_cons_of_neg (by simp [h0]), List.dropWhile_cons_of_neg (by simp [h0])]
  simp only [List.isEmpty_cons, Bool.false_and, Bool.false_eq_true, if_false]
  rw [restValNum]
  simp only [hdot, Bool.false_eq_true, if_false]
  rw [List.takeWhile_cons_of_neg (by simp [hdig])]
  rfl

theorem coerce_upper {s : String} (h : ∀ c ∈ s.data, isUpperC c = true) :
    coerceText s = s := by
  rcases hd : s.data with _ | ⟨c, t⟩
  · rw [show s = "" from String.ext hd]
    rfl
  · have hc : isUpperC c = true := h c (by rw [hd]; exact List.mem_cons_self _ _)
    have hsgn : signSplit s.data = (none, c :: t) := by
      rw [hd, signSplit]
      rw [isUpperC_ne hc (by decide), isUpperC_ne hc (by decide)]
      rfl
    have hmn : matchNum s = none :=
      matchNum_none_of_head hsgn (isUpperC_ne hc (by decide)) (isUpperC_ne hc (by decide))
        (upper_not_digit hc)
    rw [coerceText]
    simp only [ne_empty_of_data hd, Bool.false_eq_true, if_false,
      hexRE_no_x (fun x hx => isUpperC_ne (h x hx) (by decide)), hmn]

theorem coerce_digits_head {s : String} {c : Char} {t : List Char} (hd : s.data = c :: t)
    (hall : ∀ x ∈ s.data, isDigitC x = true) (h0 : (c == '0') = false) :
    coerceText s = s := by
  have hc : isDigitC c = true := hall c (by rw [hd]; exact List.mem_cons_self _ _)
  have hallct : ∀ x ∈ c :: t, isDigitC x = true := fun x hx => hall x (hd ▸ hx)
  have hsgn : signSplit s.data = (none, c :: t) := by
    rw [hd, signSplit]
    rw [isDigitC_ne hc (by decide), isDigitC_ne hc (by decide)]
    rfl
  have hmn : matchNum s = some ⟨none, [], c :: t, ((digitsVal (c :: t) : ℕ) : ℚ), false⟩ := by
    rw [matchNum, hsgn]
    dsimp only []
    rw [List.takeWhile_cons_of_neg (by simp [h0]), List.dropWhile_cons_of_neg (by simp [h0])]
    simp only [List.isEmpty_cons, Bool.false_and, Bool.false_eq_true, if_false]
    rw [restValNum]
    simp only [show (c == '.') = false from isDigitC_ne hc (by decide),
      Bool.false_eq_true, if_false]
    rw [takeWhile_all hallct, dropWhile_all hallct]
    simp only [List.isEmpty_cons, Bool.false_eq_true, if_false]
    rfl
  rw [coerceText]
  simp only [ne_empty_of_data hd, Bool.false_eq_true, if_false,
    hexRE_no_x (fun x hx => isDigitC_ne (hall x hx) (by decide)), hmn]
  rw [no_eE_any (jsStr_numC _)]
  simp only [Bool.false_eq_true, if_false]
  rw [show s.data.contains '.' = false from
    contains_ne_false (fun x hx => not_digit_beq (by decide) (hall x hx))]
  simp only [Bool.false_eq_true, if_false, List.isEmpty_nil, Bool.not_true]
  cases hsn : s == jsStr ((digitsVal (c :: t) : ℕ) : ℚ) with
  | true =>
    simp only [hsn, Bool.true_or, if_true]
    exact (eq_of_beq hsn).symm
  | false =>
    simp only [hsn, Bool.false_or, Bool.false_eq_true, if_false]

theorem matchNum_val {s : String} {m : NumMatch} (hm : matchNum s = some m)
    (hne : ∀ c ∈ s.data, (c == 'e') = false ∧ (c == 'E') = false) :
    parseQ s = some m.val := by
  rw [matchNum] at hm
  rw [parseQ, splitSign_signSplit]
  rcases hsp : signSplit s.data with ⟨sgn, cs⟩
  rw [hsp] at hm
  dsimp only [] at hm ⊢
  have hsub : ∀ c ∈ cs, c ∈ s.data := by
    intro c hc
    have h2 : c ∈ (signSplit s.data).2 := by rw [hsp]; exact hc
    exact signSplit_subset c h2
  have hz0 : ∀ x ∈ cs.takeWhile (fun c => c == '0'), x = '0' := by
    intro x hx
    have h2 := mem_takeWhile_pred hx
    exact eq_of_beq h2
  have hz0d : ∀ x ∈ cs.takeWhile (fun c => c == '0'), isDigitC x = true := by
    intro x hx
    rw [hz0 x hx]
    rfl
  have hzr : cs.takeWhile (fun c => c == '0') ++ cs.dropWhile (fun c => c == '0') = cs :=
    List.takeWhile_append_dropWhile (fun c => c == '0') cs
  cases hb : (cs.dropWhile (fun c => c == '0')).isEmpty
      && !(cs.takeWhile (fun c => c == '0')).isEmpty with
  | true =>
    rw [if_pos hb] at hm
    dsimp only [] at hm
    rw [show restValNum ['0'] = some (((0 : ℕ) : ℚ), false) from rfl] at hm
    dsimp only [] at hm
    have hmval : m.val = if sgn == some '-' then -((0 : ℕ) : ℚ) else ((0 : ℕ) : ℚ) := by
      rw [← Option.some.inj hm]
    simp only [Bool.and_eq_true, Bool.not_eq_true'] at hb
    have hcse : cs = cs.takeWhile (fun c => c == '0') := by
      conv_lhs => rw [← hzr]
      rw [List.isEmpty_iff.mp hb.1, List.append_nil]
    have hcz : ∀ c ∈ cs, c = '0' := by
      intro c hc
      exact hz0 c (hcse ▸ hc)
    have hcd : ∀ c ∈ cs, isDigitC c = true := by
      intro c hc
      rw [hcz c hc]
      rfl
    rw [takeWhile_all hcd, dropWhile_all hcd]
    have hcne : cs.isEmpty = false := by
      rw [hcse]
      exact hb.2
    rw [hcne]
    simp only [Bool.false_and, Bool.false_eq_true, if_false]
    rw [hmval, digitsVal_all_zero hcz,
      show fracPart ([] : List Char) = [] from rfl,
      show digitsVal ([] : List Char) = 0 from rfl]
    cases hsg : sgn == some '-' with
    | true =>
      rw [if_pos rfl, if_pos rfl]
      exact congrArg some (by push_cast; ring)
    | false =>
      rw [if_neg Bool.false_ne_true, if_neg Bool.false_ne_true]
      exact congrArg some (by push_cast; ring)
  | false =>
    rw [if_neg (by simp [hb])] at hm
    dsimp only [] at hm
    cases hrvc : restValNum (cs.dropWhile (fun c => c == '0')) with
    | none =>
      rw [hrvc] at hm
      exact Option.noConfusion hm
    | some vp =>
      obtain ⟨v, ep⟩ := vp
      rw [hrvc] at hm
      dsimp only [] at hm
      have hmval : m.val = if sgn == some '-' then -v else v := by
        rw [← Option.some.inj hm]
      rcases hr0 : cs.dropWhile (fun c => c == '0') with _ | ⟨c, t⟩
      · rw [hr0] at hrvc
        exact Option.noConfusion hrvc
      · rw [hr0] at hrvc hzr
        rw [restValNum] at hrvc
        have hmem : ∀ x ∈ c :: t, x ∈ s.data := by
          intro x hx
          apply hsub
          rw [← hzr]
          exact List.mem_append_right _ hx
        by_cases hcdot : c = '.'
        · subst hcdot
          rw [if_pos (show (('.' : Char) == '.') = true from rfl)] at hrvc
          cases hfse : (t.takeWhile isDigitC).isEmpty with
          | true =>
            rw [if_pos hfse] at hrvc
            exact Option.noConfusion hrvc
          | false =>
            rw [if_neg (by simp [hfse])] at hrvc
            rcases hrem : t.dropWhile isDigitC with _ | ⟨r, rs⟩
            · rw [hrem, show expSuffix [] = some (1, false) from rfl] at hrvc
              dsimp only [] at hrvc
              simp only [Option.some.injEq, Prod.mk.injEq] at hrvc
              have ht : t.takeWhile isDigitC = t := by
                have h2 := List.takeWhile_append_dropWhile isDigitC t
                rw [hrem, List.append_nil] at h2
                exact h2
              rw [ht] at hrvc
              rw [← hzr, takeWhile_append_stop hz0d (by decide),
                dropWhile_append_stop hz0d (by decide),
                show fracPart ('.' :: t) = t.takeWhile isDigitC from rfl, ht]
              have hte : t.isEmpty = false := by
                rw [← ht]
                exact hfse
              rw [hte]
              simp only [Bool.and_false, Bool.false_eq_true, if_false]
              rw [hmval, ← hrvc.1, digitsVal_all_zero hz0]
              cases hsg : sgn == some '-' with
              | true =>
                rw [if_pos rfl, if_pos rfl]
                exact congrArg some (by push_cast; ring)
              | false =>
                rw [if_neg Bool.false_ne_true, if_neg Bool.false_ne_true]
                exact congrArg some (by push_cast; ring)
            · have hr : r ∈ s.data := by
                apply hmem
                apply List.mem_cons_of_mem
                have h1 : r ∈ t.dropWhile isDigitC := by
                  rw [hrem]
                  exact List.mem_cons_self _ _
                exact (List.dropWhile_suffix _).sublist.subset h1
              obtain ⟨he1, he2⟩ := hne r hr
              rw [hrem, expSuffix] at hrvc
              simp only [he1, he2, Bool.or_self, Bool.false_eq_true, if_false] at hrvc
              exact Option.noConfusion hrvc
        · rw [if_neg (by simp [beq_eq_false_iff_ne.mpr hcdot])] at hrvc
          cases hdse : ((c :: t).takeWhile isDigitC).isEmpty with
          | true =>
            rw [if_pos hdse] at hrvc
            exact Option.noConfusion hrvc
          | false =>
            rw [if_neg (by simp [hdse])] at hrvc
            rcases hdr : (c :: t).dropWhile isDigitC with _ | ⟨c2, t2⟩
            · rw [hdr] at hrvc
              dsimp only [] at hrvc
              simp only [Option.some.injEq, Prod.mk.injEq] at hrvc
              have hct : (c :: t).takeWhile isDigitC = c :: t := by
                have h2 := List.takeWhile_append_dropWhile isDigitC (c :: t)
                rw [hdr, List.append_nil] at h2
                exact h2
              rw [hct] at hrvc
              have hctd : ∀ x ∈ c :: t, isDigitC x = true := by
                intro x hx
                exact List.mem_takeWhile_imp (hct.symm ▸ hx : x ∈ (c :: t).takeWhile isDigitC)
              have hcsd : ∀ x ∈ cs, isDigitC x = true := by
                intro x hx
                rw [← hzr] at hx
                rcases List.mem_append.mp hx with h1 | h2
                · exact hz0d x h1
                · exact hctd x h2
              rw [takeWhile_all hcsd, dropWhile_all hcsd]
              have hcne2 : cs.isEmpty = false := by
                rw [← hzr]
                simp
              rw [hcne2]
              simp only [Bool.false_and, Bool.false_eq_true, if_false]
              rw [hmval, ← hrvc.1, ← hzr, digitsVal_zeros_append _ hz0,
                show fracPart ([] : List Char) = [] from rfl,
                show digitsVal ([] : List Char) = 0 from rfl]
              cases hsg : sgn == some '-' with
              | true =>
                rw [if_pos rfl, if_pos rfl]
                exact congrArg some (by push_cast; ring)
              | false =>
                rw [if_neg Bool.false_ne_true, if_neg Bool.false_ne_true]
                exact congrArg some (by push_cast; ring)
            · rw [hdr] at hrvc
              dsimp only [] at hrvc
              by_cases hc2 : c2 = '.'
              · subst hc2
                rw [if_pos (show (('.' : Char) == '.') = true from rfl)] at hrvc
                cases hfse : (t2.takeWhile isDigitC).isEmpty with
                | true =>
                  rw [if_pos hfse] at hrvc
                  exact Option.noConfusion hrvc
                | false =>
                  rw [if_neg (by simp [hfse])] at hrvc
                  rcases hrem : t2.dropWhile isDigitC with _ | ⟨r, rs⟩
                  · rw [hrem, show expSuffix [] = some (1, false) from rfl] at hrvc
                    dsimp only [] at hrvc
                    simp only [Option.some.injEq, Prod.mk.injEq] at hrvc
                    have hds := List.takeWhile_append_dropWhile isDigitC (c :: t)
                    rw [hdr] at hds
                    have ht2 : t2.takeWhile isDigitC = t2 := by
                      have h2 := List.takeWhile_append_dropWhile isDigitC t2
                      rw [hrem, List.append_nil] at h2
                      exact h2
                    rw [ht2] at hrvc
                    have hdsd : ∀ x ∈ (c :: t).takeWhile isDigitC, isDigitC x = true :=
                      fun x hx => List.mem_takeWhile_imp hx
                    have ht2d : ∀ x ∈ t2, isDigitC x = true := by
                      intro x hx
                      exact List.mem_takeWhile_imp (ht2.symm ▸ hx : x ∈ t2.takeWhile isDigitC)
                    have hzd : ∀ x ∈ cs.takeWhile (fun c => c == '0')
                        ++ (c :: t).takeWhile isDigitC, isDigitC x = true := by
                      intro x hx
                      rcases List.mem_append.mp hx with h1 | h2
                      · exact hz0d x h1
                      · exact hdsd x h2
                    rw [← hzr, ← hds, ← List.append_assoc,
                      takeWhile_append_stop hzd (by decide),
                      dropWhile_append_stop hzd (by decide),
                      show fracPart ('.' :: t2) = t2.takeWhile isDigitC from rfl, ht2]
                    have hte : t2.isEmpty = false := by
                      rw [← ht2]
                      exact hfse
                    rw [hte]
                    simp only [Bool.and_false, Bool.false_eq_true, if_false]
                    rw [hmval, ← hrvc.1, digitsVal_zeros_append _ hz0]
                    cases hsg : sgn == some '-' with
                    | true =>
                      rw [if_pos rfl, if_pos rfl]
                      exact congrArg some (by ring)
                    | false =>
                      rw [if_neg Bool.false_ne_true, if_neg Bool.false_ne_true]
                      exact congrArg some (by ring)
                  · have hr : r ∈ s.data := by
                      apply hmem
                      have h1 : r ∈ t2.dropWhile isDigitC := by
                        rw [hrem]
                        exact List.mem_cons_self _ _
                      have h2 : r ∈ t2 := (List.dropWhile_suffix _).sublist.subset h1
                      have h3 : r ∈ (c :: t).dropWhile isDigitC := by
                        rw [hdr]
                        exact List.mem_cons_of_mem _ h2
                      exact (List.dropWhile_suffix _).sublist.subset h3
                    obtain ⟨he1, he2⟩ := hne r hr
                    rw [hrem, expSuffix] at hrvc
                    simp only [he1, he2, Bool.or_self, Bool.false_eq_true, if_false] at hrvc
                    exact Option.noConfusion hrvc
              · rw [if_neg (by simp [beq_eq_false_iff_ne.mpr hc2])] at hrvc
                exact Option.noConfusion hrvc

theorem parseQ_coerce {s : String} {v : ℚ} (hps : parseQ s = some v) (hv : isDec v = true)
    (hcs : ∀ c ∈ s.data, isNumC c = true) :
    parseQ (coerceText s) = some v := by
  have hnx : ∀ c ∈ s.data, (c == 'x') = false := fun c hc => (numC_not_special (hcs c hc)).2.2
  have hne : ∀ c ∈ s.data, (c == 'e') = false ∧ (c == 'E') = false :=
    fun c hc => ⟨(numC_not_special (hcs c hc)).1, (numC_not_special (hcs c hc)).2.1⟩
  have hse : (s == "") = false := by
    cases hb : s == "" with
    | false => rfl
    | true =>
      rw [show s = "" from eq_of_beq hb, show parseQ "" = none from rfl] at hps
      exact Option.noConfusion hps
  rw [coerceText]
  simp only [hse, Bool.false_eq_true, if_false, hexRE_no_x hnx]
  cases hmn : matchNum s with
  | none => exact hps
  | some m =>
    dsimp only []
    have hmv : m.val = v := by
      have h2 := matchNum_val hmn hne
      rw [hps] at h2
      exact (Option.some.inj h2.symm)
    have hjs : parseQ (jsStr m.val) = some v := by
      rw [hmv]
      exact parseQ_jsStr hv
    repeat' split
    all_goals first
      | exact hjs
      | exact hps

theorem isDec_round2 (q : ℚ) : isDec (round2 q) = true := by
  have hdvd : (round2 q).den ∣ 100 := by
    have h2 := Rat.den_dvd (jsRound (q * 100)) 100
    rw [Rat.divInt_eq_div, show ((100 : ℤ) : ℚ) = (100 : ℚ) from by norm_num] at h2
    rw [round2]
    exact_mod_cast h2
  rw [isDec]
  generalize (round2 q).den = d at hdvd
  have hmem : d ∈ Nat.divisors 100 := Nat.mem_divisors.mpr ⟨hdvd, by norm_num⟩
  fin_cases hmem <;> decide

theorem parseQ_coerce_jsStr {q : ℚ} (h : isDec q = true) :
    parseQ (coerceText (jsStr q)) = some q :=
  parseQ_coerce (parseQ_jsStr h) h (jsStr_numC q)

theorem parseQ_coerce_fmt (q : ℚ) :
    parseQ (coerceText (fmt q)) = some (round2 q) :=
  parseQ_coerce (parseQ_fmt q) (isDec_round2 q) (fmt_numC q)

theorem currencyRE_coerce {s : String} (h : currencyRE s = true) : coerceText s = s := by
  rw [currencyRE] at h
  apply coerce_upper
  intro c hc
  rcases hd : s.data with _ | ⟨a, _ | ⟨b, _ | ⟨c2, rest⟩⟩⟩ <;>
    rw [hd] at h <;>
    first
      | exact Bool.noConfusion h
      | skip
  cases rest with
  | cons r rs => exact Bool.noConfusion h
  | nil =>
    simp only [Bool.and_eq_true] at h
    rw [hd] at hc
    simp only [List.mem_cons, List.not_mem_nil, or_false] at hc
    rcases hc with rfl | rfl | rfl
    · exact h.1.1
    · exact h.1.2
    · exact h.2

theorem countryRE_coerce {s : String} (h : countryRE s = true) : coerceText s = s := by
  rw [countryRE] at h
  apply coerce_upper
  intro c hc
  rcases hd : s.data with _ | ⟨a, _ | ⟨b, rest⟩⟩ <;>
    rw [hd] at h <;>
    first
      | exact Bool.noConfusion h
      | skip
  cases rest with
  | cons r rs => exact Bool.noConfusion h
  | nil =>
    simp only [Bool.and_eq_true] at h
    rw [hd] at hc
    simp only [List.mem_cons, List.not_mem_nil, or_false] at hc
    rcases hc with rfl | rfl
    · exact h.1
    · exact h.2

theorem coerce_toDate8 {s : String} (h : dateRE s = true) (hz : headNonZero s = true) :
    coerceText (toDate8 s) = toDate8 s := by
  rw [dateRE] at h
  rcases hd : s.data with _ | ⟨y1, _ | ⟨y2, _ | ⟨y3, _ | ⟨y4, _ | ⟨a, _ | ⟨m1, _ | ⟨m2, _ | ⟨b, _ | ⟨d1, _ | ⟨d2, rest⟩⟩⟩⟩⟩⟩⟩⟩⟩⟩ <;>
    rw [hd] at h <;>
    first
      | exact Bool.noConfusion h
      | skip
  cases rest with
  | cons r rs => exact Bool.noConfusion h
  | nil =>
    simp only [Bool.and_eq_true] at h
    obtain ⟨⟨⟨⟨⟨⟨⟨⟨⟨hy1, hy2⟩, hy3⟩, hy4⟩, ha⟩, hm1⟩, hm2⟩, hb⟩, hd1⟩, hd2⟩ := h
    have ha2 : a = '-' := eq_of_beq ha
    have hb2 : b = '-' := eq_of_beq hb
    subst ha2 hb2
    have h8 : (toDate8 s).data = [y1, y2, y3, y4, m1, m2, d1, d2] := by
      rw [toDate8, data_mk, hd]
      simp only [List.filter_cons, digit_ne_dash hy1, digit_ne_dash hy2, digit_ne_dash hy3,
        digit_ne_dash hy4, digit_ne_dash hm1, digit_ne_dash hm2, digit_ne_dash hd1,
        digit_ne_dash hd2, Bool.not_false, Bool.not_true, Bool.false_eq_true, if_false,
        if_true, List.filter_nil]
      simp
    have h0 : (y1 == '0') = false := by
      rw [headNonZero, hd] at hz
      simpa using hz
    apply coerce_digits_head h8 _ h0
    intro x hx
    rw [h8] at hx
    simp only [List.mem_cons, List.not_mem_nil, or_false] at hx
    rcases hx with rfl | rfl | rfl | rfl | rfl | rfl | rfl | rfl
    · exact hy1
    · exact hy2
    · exact hy3
    · exact hy4
    · exact hm1
    · exact hm2
    · exact hd1
    · exact hd2

theorem xmlToJd_txtEl (d : ℕ) (n t : String) :
    xmlToJd (d + 1) (txtEl n t) = .s (coerceText (jsTrim t)) := rfl

theorem strJ_txt_conv (d : ℕ) (n t : String) :
    strJ (some (xmlToJd (d + 1) (txtEl n t))) = coerceText (jsTrim t) := rfl

theorem strJ_attr_conv (d : ℕ) (n ka va t : String)
    (hka : (("@_" ++ ka) == "#text") = false) :
    strJ (some (xmlToJd (d + 1) (.el n [(ka, va)] t []))) = coerceText (jsTrim t) := by
  have hobj : xmlToJd (d + 1) (.el n [(ka, va)] t []) =
      .obj ([("@_" ++ ka, JValue.s (jsTrim va))]
        ++ (if jsTrim t == "" then []
            else [("#text", JValue.s (coerceText (jsTrim t)))])) := rfl
  rw [hobj]
  show (match alookup _ "#text" with
    | some (.s t) => t
    | _ => "") = coerceText (jsTrim t)
  rw [alookup_append]
  simp only [alookup, hka, Bool.false_eq_true, if_false]
  cases he : jsTrim t == "" with
  | true =>
    have : jsTrim t = "" := eq_of_beq he
    rw [this]
    rfl
  | false =>
    simp [alookup]

theorem truthyJ_conv_attr (d : ℕ) (n t : String) (a : String × String)
    (attrs : List (String × String)) (cs : List Xml) :
    truthyJ (xmlToJd (d + 1) (.el n (a :: attrs) t cs)) = true := rfl

theorem truthyJ_conv_child (d : ℕ) (n t : String) (c : Xml) (cs : List Xml) :
    truthyJ (xmlToJd (d + 1) (.el n [] t (c :: cs))) = true := rfl

theorem getFO_some (v : JValue) (k : String) : getFO (some v) k = getF v k := rfl

theorem jroot_gen (inv : Invoice) :
    jroot (docToJ (generateFacturX inv)) = some (xmlToJd 20 (generateFacturX inv)) := rfl

theorem truthy_root_gen (inv : Invoice) :
    truthyJ (xmlToJd 20 (generateFacturX inv)) = true := rfl

theorem jdoc_gen (inv : Invoice) :
    jdoc (xmlToJd 20 (generateFacturX inv)) = some (xmlToJd 19 (docEl inv)) := by
  rw [jdoc, generateFacturX, show (20:ℕ) = 19 + 1 from rfl,
    getF_conv 19 _ _ _ _ _ (Or.inr (by simp)) (by decide) (by decide),
    show childrenNamed "ExchangedDocument" [ctxEl inv, docEl inv, trxEl inv]
      = [docEl inv] from rfl]
  simp [convGroup]

theorem jtrx_gen (inv : Invoice) :
    jtrx (xmlToJd 20 (generateFacturX inv)) = some (xmlToJd 19 (trxEl inv)) := by
  rw [jtrx, generateFacturX, show (20:ℕ) = 19 + 1 from rfl,
    getF_conv 19 _ _ _ _ _ (Or.inr (by simp)) (by decide) (by decide),
    show childrenNamed "SupplyChainTradeTransaction" [ctxEl inv, docEl inv, trxEl inv]
      = [trxEl inv] from rfl]
  simp [convGroup]

theorem guideline_gen (inv : Invoice) :
    guidelineOfRoot (xmlToJd 20 (generateFacturX inv))
      = coerceText (jsTrim (profileUrn inv.profile)) := by
  rw [guidelineOfRoot, generateFacturX, show (20:ℕ) = 19 + 1 from rfl,
    getF_conv 19 _ _ _ _ _ (Or.inr (by simp)) (by decide) (by decide),
    show childrenNamed "ExchangedDocumentContext" [ctxEl inv, docEl inv, trxEl inv]
      = [ctxEl inv] from rfl]
  simp only [List.isEmpty_cons, Bool.false_eq_true, if_false, convGroup, Option.or]
  rw [ctxEl]
  rw [show wrapEl "rsm:ExchangedDocumentContext"
      [wrapEl "ram:GuidelineSpecifiedDocumentContextParameter"
        [txtEl "ram:ID" (profileUrn inv.profile)]]
    = Xml.el "rsm:ExchangedDocumentContext" [] ""
        [wrapEl "ram:GuidelineSpecifiedDocumentContextParameter"
          [txtEl "ram:ID" (profileUrn inv.profile)]] from rfl]
  rw [show (19:ℕ) = 18 + 1 from rfl, getFO_some,
    getF_conv 18 _ _ _ _ _ (Or.inr (by simp)) (by simp) (by decide)]
  rw [show childrenNamed "GuidelineSpecifiedDocumentContextParameter"
      [wrapEl "ram:GuidelineSpecifiedDocumentContextParameter"
        [txtEl "ram:ID" (profileUrn inv.profile)]]
    = [wrapEl "ram:GuidelineSpecifiedDocumentContextParameter"
        [txtEl "ram:ID" (profileUrn inv.profile)]] from rfl]
  simp only [List.isEmpty_cons, Bool.false_eq_true, if_false, convGroup]
  rw [show wrapEl "ram:GuidelineSpecifiedDocumentContextParameter"
      [txtEl "ram:ID" (profileUrn inv.profile)]
    = Xml.el "ram:GuidelineSpecifiedDocumentContextParameter" [] ""
        [txtEl "ram:ID" (profileUrn inv.profile)] from rfl]
  rw [show (18:ℕ) = 17 + 1 from rfl, getFO_some,
    getF_conv 17 _ _ _ _ _ (Or.inr (by simp)) (by simp) (by decide)]
  rw [show childrenNamed "ID" [txtEl "ram:ID" (profileUrn inv.profile)]
    = [txtEl "ram:ID" (profileUrn inv.profile)] from rfl]
  simp only [List.isEmpty_cons, Bool.false_eq_true, if_false, convGroup]
  exact strJ_txt_conv 16 _ _

theorem settlement_gen (inv : Invoice) :
    getF (xmlToJd 19 (trxEl inv)) "ApplicableHeaderTradeSettlement"
      = some (xmlToJd 18 (settlementEl inv (calculateTotals inv))) := by
  rw [trxEl, show (19:ℕ) = 18 + 1 from rfl,
    getF_conv 18 _ _ _ _ _ (Or.inr (by simp)) (by simp) (by decide),
    childrenNamed, List.filter_append, List.filter_append, List.filter_append,
    filter_map_none lineItemEl _ (fun l => rfl) inv.lines,
    show List.filter (fun c => stripNS c.name == "ApplicableHeaderTradeSettlement")
      [agreementEl inv] = [] from rfl,
    show List.filter (fun c => stripNS c.name == "ApplicableHeaderTradeSettlement")
      [deliveryEl inv] = [] from rfl,
    show List.filter (fun c => stripNS c.name == "ApplicableHeaderTradeSettlement")
      [settlementEl inv (calculateTotals inv)]
      = [settlementEl inv (calculateTotals inv)] from rfl]
  simp [convGroup]

theorem agreement_gen (inv : Invoice) :
    getF (xmlToJd 19 (trxEl inv)) "ApplicableHeaderTradeAgreement"
      = some (xmlToJd 18 (agreementEl inv)) := by
  rw [trxEl, show (19:ℕ) = 18 + 1 from rfl,
    getF_conv 18 _ _ _ _ _ (Or.inr (by simp)) (by simp) (by decide),
    childrenNamed, List.filter_append, List.filter_append, List.filter_append,
    filter_map_none lineItemEl _ (fun l => rfl) inv.lines,
    show List.filter (fun c => stripNS c.name == "ApplicableHeaderTradeAgreement")
      [agreementEl inv] = [agreementEl inv] from rfl,
    show List.filter (fun c => stripNS c.name == "ApplicableHeaderTradeAgreement")
      [deliveryEl inv] = [] from rfl,
    show List.filter (fun c => stripNS c.name == "ApplicableHeaderTradeAgreement")
      [settlementEl inv (calculateTotals inv)] = [] from rfl]
  simp [convGroup]

theorem delivery_gen (inv : Invoice) :
    getF (xmlToJd 19 (trxEl inv)) "ApplicableHeaderTradeDelivery"
      = some (xmlToJd 18 (deliveryEl inv)) := by
  rw [trxEl, show (19:ℕ) = 18 + 1 from rfl,
    getF_conv 18 _ _ _ _ _ (Or.inr (by simp)) (by simp) (by decide),
    childrenNamed, List.filter_append, List.filter_append, List.filter_append,
    filter_map_none lineItemEl _ (fun l => rfl) inv.lines,
    show List.filter (fun c => stripNS c.name == "ApplicableHeaderTradeDelivery")
      [agreementEl inv] = [] from rfl,
    show List.filter (fun c => stripNS c.name == "ApplicableHeaderTradeDelivery")
      [deliveryEl inv] = [deliveryEl inv] from rfl,
    show List.filter (fun c => stripNS c.name == "ApplicableHeaderTradeDelivery")
      [settlementEl inv (calculateTotals inv)] = [] from rfl]
  simp [convGroup]

theorem lines_gen (inv : Invoice) :
    getF (xmlToJd 19 (trxEl inv)) "IncludedSupplyChainTradeLineItem"
      = if inv.lines.isEmpty then none
        else some (convGroup (xmlToJd 18) (inv.lines.map lineItemEl)) := by
  rw [trxEl, show (19:ℕ) = 18 + 1 from rfl,
    getF_conv 18 _ _ _ _ _ (Or.inr (by simp)) (by simp) (by decide),
    childrenNamed, List.filter_append, List.filter_append, List.filter_append,
    filter_map_all lineItemEl _ (fun l => rfl) inv.lines,
    show List.filter (fun c => stripNS c.name == "IncludedSupplyChainTradeLineItem")
      [agreementEl inv] = [] from rfl,
    show List.filter (fun c => stripNS c.name == "IncludedSupplyChainTradeLineItem")
      [deliveryEl inv] = [] from rfl,
    show List.filter (fun c => stripNS c.name == "IncludedSupplyChainTradeLineItem")
      [settlementEl inv (calculateTotals inv)] = [] from rfl]
  simp only [List.append_nil]
  cases hl : inv.lines with
  | nil => simp
  | cons l ls => simp

theorem rawlines_gen (inv : Invoice) (hne : inv.lines ≠ []) :
    (match getF (xmlToJd 19 (trxEl inv)) "IncludedSupplyChainTradeLineItem" with
     | none => ([] : List JValue)
     | some (.arr xs) => xs
     | some v => [v]) = inv.lines.map (fun l => xmlToJd 18 (lineItemEl l)) := by
  rw [lines_gen, if_neg (by simpa using hne)]
  cases hl : inv.lines with
  | nil => exact absurd hl hne
  | cons l ls =>
    cases ls with
    | nil => rfl
    | cons l2 ls2 =>
      have harr : convGroup (xmlToJd 18) (List.map lineItemEl (l :: l2 :: ls2))
          = .arr ((l :: l2 :: ls2).map (fun x => xmlToJd 18 (lineItemEl x))) := by
        rw [show convGroup (xmlToJd 18) (List.map lineItemEl (l :: l2 :: ls2))
            = .arr ((List.map lineItemEl (l :: l2 :: ls2)).map (xmlToJd 18)) from rfl,
          List.map_map]
        rfl
      rw [harr]

theorem currencyRE_stable {s : String} (h : currencyRE s = true) : jsTrim s = s := by
  rw [currencyRE] at h
  apply no_ws_stable
  intro c hc
  rcases hd : s.data with _ | ⟨a, _ | ⟨b, _ | ⟨c2, rest⟩⟩⟩ <;>
    rw [hd] at h <;>
    first
      | exact Bool.noConfusion h
      | skip
  cases rest with
  | cons r rs => exact Bool.noConfusion h
  | nil =>
    simp only [Bool.and_eq_true] at h
    rw [hd] at hc
    simp only [List.mem_cons, List.not_mem_nil, or_false] at hc
    rcases hc with rfl | rfl | rfl
    · exact upper_not_ws h.1.1
    · exact upper_not_ws h.1.2
    · exact upper_not_ws h.2

theorem countryRE_stable {s : String} (h : countryRE s = true) : jsTrim s = s := by
  rw [countryRE] at h
  apply no_ws_stable
  intro c hc
  rcases hd : s.data with _ | ⟨a, _ | ⟨b, rest⟩⟩ <;>
    rw [hd] at h <;>
    first
      | exact Bool.noConfusion h
      | skip
  cases rest with
  | cons r rs => exact Bool.noConfusion h
  | nil =>
    simp only [Bool.and_eq_true] at h
    rw [hd] at hc
    simp only [List.mem_cons, List.not_mem_nil, or_false] at hc
    rcases hc with rfl | rfl
    · exact upper_not_ws h.1
    · exact upper_not_ws h.2

theorem filter_payMatch (o : Option PaymentInfo) (p : Xml → Bool)
    (h : ∀ pay, p (paymentMeansEl pay) = false) :
    (match o with
     | some pay => [paymentMeansEl pay]
     | none => ([] : List Xml)).filter p = [] := by
  cases o with
  | none => rfl
  | some pay => simp [List.filter_cons, h pay]

theorem currency_gen (inv : Invoice) (tot : InvoiceTotals) :
    getF (xmlToJd 18 (settlementEl inv tot)) "InvoiceCurrencyCode"
      = some (.s (coerceText (jsTrim inv.currency))) := by
  rw [settlementEl, wrapEl, show (18:ℕ) = 17 + 1 from rfl,
    getF_conv 17 _ _ _ _ _ (Or.inr (by simp)) (by simp) (by decide),
    childrenNamed, List.filter_append, List.filter_append, List.filter_append,
    List.filter_append, List.filter_append,
    filter_optEls, filter_optEls,
    show List.filter (fun c => stripNS c.name == "InvoiceCurrencyCode")
      [txtEl "ram:PaymentReference" ((paymentRefOf inv).getD "")] = [] from rfl,
    show List.filter (fun c => stripNS c.name == "InvoiceCurrencyCode")
      [txtEl "ram:InvoiceCurrencyCode" inv.currency]
      = [txtEl "ram:InvoiceCurrencyCode" inv.currency] from rfl,
    filter_payMatch inv.payment _ (fun pay => rfl),
    filter_map_none vatEl _ (fun v => rfl) tot.vatSummaries,
    show List.filter (fun c => stripNS c.name == "InvoiceCurrencyCode")
      [termsEl inv] = [] from rfl,
    show List.filter (fun c => stripNS c.name == "InvoiceCurrencyCode")
      [summationEl tot inv.currency] = [] from rfl,
    optEls_nil, optEls_nil]
  simp only [List.nil_append, List.append_nil, List.isEmpty_cons, Bool.false_eq_true,
    if_false, convGroup]
  exact congrArg some (xmlToJd_txtEl 16 _ _)

theorem terms_gen (inv : Invoice) (tot : InvoiceTotals) :
    getF (xmlToJd 18 (settlementEl inv tot)) "SpecifiedTradePaymentTerms"
      = if otru inv.dueDate || otru (paymentTermsOf inv) then some (xmlToJd 17 (termsEl inv))
        else none := by
  rw [settlementEl, wrapEl, show (18:ℕ) = 17 + 1 from rfl,
    getF_conv 17 _ _ _ _ _ (Or.inr (by simp)) (by simp) (by decide),
    childrenNamed, List.filter_append, List.filter_append, List.filter_append,
    List.filter_append, List.filter_append,
    filter_optEls, filter_optEls,
    show List.filter (fun c => stripNS c.name == "SpecifiedTradePaymentTerms")
      [txtEl "ram:PaymentReference" ((paymentRefOf inv).getD "")] = [] from rfl,
    show List.filter (fun c => stripNS c.name == "SpecifiedTradePaymentTerms")
      [txtEl "ram:InvoiceCurrencyCode" inv.currency] = [] from rfl,
    filter_payMatch inv.payment _ (fun pay => rfl),
    filter_map_none vatEl _ (fun v => rfl) tot.vatSummaries,
    show List.filter (fun c => stripNS c.name == "SpecifiedTradePaymentTerms")
      [termsEl inv] = [termsEl inv] from rfl,
    show List.filter (fun c => stripNS c.name == "SpecifiedTradePaymentTerms")
      [summationEl tot inv.currency] = [] from rfl,
    optEls_nil]
  cases hb : otru inv.dueDate || otru (paymentTermsOf inv) with
  | true => simp [optEls, convGroup]
  | false => simp [optEls]


theorem duedatetime_gen (inv : Invoice) :
    getFO (getF (xmlToJd 17 (termsEl inv)) "DueDateDateTime") "DateTimeString"
      = if otru inv.dueDate then
          some (xmlToJd 15 (.el "udt:DateTimeString" [("format", "102")]
            (toDate8 (inv.dueDate.getD "")) []))
        else none := by
  rw [termsEl, wrapEl, wrapEl]
  cases hd : otru inv.dueDate with
  | false =>
    simp only [Bool.false_eq_true, if_false]
    rw [show optEls false [Xml.el "ram:DueDateDateTime" [] ""
        [.el "udt:DateTimeString" [("format", "102")]
          (toDate8 (inv.dueDate.getD "")) []]] = [] from rfl,
      List.append_nil]
    cases ht : otru (paymentTermsOf inv) with
    | false =>
      rw [show optEls false [txtEl "ram:Description" ((paymentTermsOf inv).getD "")]
          = [] from rfl]
      rfl
    | true =>
      rw [show optEls true [txtEl "ram:Description" ((paymentTermsOf inv).getD "")]
          = [txtEl "ram:Description" ((paymentTermsOf inv).getD "")] from rfl,
        show (17:ℕ) = 16 + 1 from rfl,
        getF_conv 16 _ _ _ _ _ (Or.inr (by simp)) (by simp) (by decide)]
      rw [show childrenNamed "DueDateDateTime"
          [txtEl "ram:Description" ((paymentTermsOf inv).getD "")] = [] from rfl]
      rfl
  | true =>
    simp only [if_true]
    rw [show optEls true [Xml.el "ram:DueDateDateTime" [] ""
        [.el "udt:DateTimeString" [("format", "102")]
          (toDate8 (inv.dueDate.getD "")) []]]
        = [Xml.el "ram:DueDateDateTime" [] ""
            [.el "udt:DateTimeString" [("format", "102")]
              (toDate8 (inv.dueDate.getD "")) []]] from rfl,
      show (17:ℕ) = 16 + 1 from rfl,
      getF_conv 16 _ _ _ _ _ (Or.inr (by simp)) (by simp) (by decide),
      childrenNamed, List.filter_append, filter_optEls,
      show List.filter (fun c => stripNS c.name == "DueDateDateTime")
        [txtEl "ram:Description" ((paymentTermsOf inv).getD "")] = [] from rfl,
      optEls_nil,
      show List.filter (fun c => stripNS c.name == "DueDateDateTime")
        [Xml.el "ram:DueDateDateTime" [] ""
          [.el "udt:DateTimeString" [("format", "102")]
            (toDate8 (inv.dueDate.getD "")) []]]
        = [Xml.el "ram:DueDateDateTime" [] ""
            [.el "udt:DateTimeString" [("format", "102")]
              (toDate8 (inv.dueDate.getD "")) []]] from rfl]
    simp only [List.nil_append, List.isEmpty_cons, Bool.false_eq_true, if_false, convGroup]
    rw [getFO_some, show (16:ℕ) = 15 + 1 from rfl,
      getF_conv 15 _ _ _ _ _ (Or.inr (by simp)) (by simp) (by decide),
      show childrenNamed "DateTimeString"
        [Xml.el "udt:DateTimeString" [("format", "102")]
          (toDate8 (inv.dueDate.getD "")) []]
        = [Xml.el "udt:DateTimeString" [("format", "102")]
            (toDate8 (inv.dueDate.getD "")) []] from rfl]
    simp [convGroup]

theorem deliveryevent_gen (inv : Invoice) :
    getFO (getFO (some (xmlToJd 18 (deliveryEl inv))) "ActualDeliverySupplyChainEvent")
        "OccurrenceDateTime"
      = if otru inv.deliveryDate then
          some (xmlToJd 16 (.el "ram:OccurrenceDateTime" [] ""
            [.el "udt:DateTimeString" [("format", "102")]
              (toDate8 (inv.deliveryDate.getD "")) []]))
        else none := by
  rw [deliveryEl, wrapEl, wrapEl, wrapEl]
  cases hd : otru inv.deliveryDate with
  | false =>
    rw [show optEls false [Xml.el "ram:ActualDeliverySupplyChainEvent" [] ""
        [Xml.el "ram:OccurrenceDateTime" [] ""
          [.el "udt:DateTimeString" [("format", "102")]
            (toDate8 (inv.deliveryDate.getD "")) []]]] = [] from rfl]
    rfl
  | true =>
    simp only [if_true]
    rw [show optEls true [Xml.el "ram:ActualDeliverySupplyChainEvent" [] ""
        [Xml.el "ram:OccurrenceDateTime" [] ""
          [.el "udt:DateTimeString" [("format", "102")]
            (toDate8 (inv.deliveryDate.getD "")) []]]]
        = [Xml.el "ram:ActualDeliverySupplyChainEvent" [] ""
            [Xml.el "ram:OccurrenceDateTime" [] ""
              [.el "udt:DateTimeString" [("format", "102")]
                (toDate8 (inv.deliveryDate.getD "")) []]]] from rfl,
      getFO_some, show (18:ℕ) = 17 + 1 from rfl,
      getF_conv 17 _ _ _ _ _ (Or.inr (by simp)) (by simp) (by decide),
      show childrenNamed "ActualDeliverySupplyChainEvent"
        [Xml.el "ram:ActualDeliverySupplyChainEvent" [] ""
          [Xml.el "ram:OccurrenceDateTime" [] ""
            [.el "udt:DateTimeString" [("format", "102")]
              (toDate8 (inv.deliveryDate.getD "")) []]]]
        = [Xml.el "ram:ActualDeliverySupplyChainEvent" [] ""
            [Xml.el "ram:OccurrenceDateTime" [] ""
              [.el "udt:DateTimeString" [("format", "102")]
                (toDate8 (inv.deliveryDate.getD "")) []]]] from rfl]
    simp only [List.isEmpty_cons, Bool.false_eq_true, if_false, convGroup]
    rw [getFO_some, show (17:ℕ) = 16 + 1 from rfl,
      getF_conv 16 _ _ _ _ _ (Or.inr (by simp)) (by simp) (by decide),
      show childrenNamed "OccurrenceDateTime"
        [Xml.el "ram:OccurrenceDateTime" [] ""
          [.el "udt:DateTimeString" [("format", "102")]
            (toDate8 (inv.deliveryDate.getD "")) []]]
        = [Xml.el "ram:OccurrenceDateTime" [] ""
            [.el "udt:DateTimeString" [("format", "102")]
              (toDate8 (inv.deliveryDate.getD "")) []]] from rfl]
    simp [convGroup]

theorem docid_gen (inv : Invoice) :
    getF (xmlToJd 19 (docEl inv)) "ID"
      = some (.s (coerceText (jsTrim inv.number))) := by
  rw [docEl, wrapEl, show (19:ℕ) = 18 + 1 from rfl,
    getF_conv 18 _ _ _ _ _ (Or.inr (by simp)) (by simp) (by decide),
    childrenNamed, List.filter_append, filter_optEls,
    show List.filter (fun c => stripNS c.name == "ID")
      [txtEl "ram:ID" inv.number, txtEl "ram:TypeCode" inv.typeCode,
       Xml.el "ram:IssueDateTime" [] ""
         [.el "udt:DateTimeString" [("format", "102")] (toDate8 inv.date) []]]
      = [txtEl "ram:ID" inv.number] from rfl,
    show List.filter (fun c => stripNS c.name == "ID")
      [wrapEl "ram:IncludedNote" [txtEl "ram:Content" (inv.notes.getD "")]] = [] from rfl,
    optEls_nil]
  simp only [List.append_nil, List.isEmpty_cons, Bool.false_eq_true, if_false, convGroup]
  exact congrArg some (xmlToJd_txtEl 17 _ _)

theorem doctype_gen (inv : Invoice) :
    getF (xmlToJd 19 (docEl inv)) "TypeCode"
      = some (.s (coerceText (jsTrim inv.typeCode))) := by
  rw [docEl, wrapEl, show (19:ℕ) = 18 + 1 from rfl,
    getF_conv 18 _ _ _ _ _ (Or.inr (by simp)) (by simp) (by decide),
    childrenNamed, List.filter_append, filter_optEls,
    show List.filter (fun c => stripNS c.name == "TypeCode")
      [txtEl "ram:ID" inv.number, txtEl "ram:TypeCode" inv.typeCode,
       Xml.el "ram:IssueDateTime" [] ""
         [.el "udt:DateTimeString" [("format", "102")] (toDate8 inv.date) []]]
      = [txtEl "ram:TypeCode" inv.typeCode] from rfl,
    show List.filter (fun c => stripNS c.name == "TypeCode")
      [wrapEl "ram:IncludedNote" [txtEl "ram:Content" (inv.notes.getD "")]] = [] from rfl,
    optEls_nil]
  simp only [List.append_nil, List.isEmpty_cons, Bool.false_eq_true, if_false, convGroup]
  exact congrArg some (xmlToJd_txtEl 17 _ _)

theorem docdate_gen (inv : Invoice) :
    strJ (getFO (getF (xmlToJd 19 (docEl inv)) "IssueDateTime") "DateTimeString")
      = coerceText (jsTrim (toDate8 inv.date)) := by
  rw [docEl, wrapEl, show (19:ℕ) = 18 + 1 from rfl,
    getF_conv 18 _ _ _ _ _ (Or.inr (by simp)) (by simp) (by decide),
    childrenNamed, List.filter_append, filter_optEls,
    show List.filter (fun c => stripNS c.name == "IssueDateTime")
      [txtEl "ram:ID" inv.number, txtEl "ram:TypeCode" inv.typeCode,
       Xml.el "ram:IssueDateTime" [] ""
         [.el "udt:DateTimeString" [("format", "102")] (toDate8 inv.date) []]]
      = [Xml.el "ram:IssueDateTime" [] ""
          [.el "udt:DateTimeString" [("format", "102")] (toDate8 inv.date) []]] from rfl,
    show List.filter (fun c => stripNS c.name == "IssueDateTime")
      [wrapEl "ram:IncludedNote" [txtEl "ram:Content" (inv.notes.getD "")]] = [] from rfl,
    optEls_nil]
  simp only [List.append_nil, List.isEmpty_cons, Bool.false_eq_true, if_false, convGroup]
  rw [getFO_some, show (18:ℕ) = 17 + 1 from rfl,
    getF_conv 17 _ _ _ _ _ (Or.inr (by simp)) (by simp) (by decide),
    show childrenNamed "DateTimeString"
      [Xml.el "udt:DateTimeString" [("format", "102")] (toDate8 inv.date) []]
      = [Xml.el "udt:DateTimeString" [("format", "102")] (toDate8 inv.date) []] from rfl]
  simp only [List.isEmpty_cons, Bool.false_eq_true, if_false, convGroup]
  exact strJ_attr_conv 16 _ _ _ _ (by decide)

theorem seller_gen (inv : Invoice) :
    getF (xmlToJd 18 (agreementEl inv)) "SellerTradeParty"
      = some (xmlToJd 17 (partyEl "ram:SellerTradeParty" inv.seller)) := by
  rw [agreementEl, wrapEl, show (18:ℕ) = 17 + 1 from rfl,
    getF_conv 17 _ _ _ _ _ (Or.inr (by simp)) (by simp) (by decide),
    childrenNamed, List.filter_append, List.filter_append, List.filter_append,
    List.filter_append, filter_optEls, filter_optEls, filter_optEls,
    show List.filter (fun c => stripNS c.name == "SellerTradeParty")
      [txtEl "ram:BuyerReference" (inv.buyerRef.getD "")] = [] from rfl,
    show List.filter (fun c => stripNS c.name == "SellerTradeParty")
      [partyEl "ram:SellerTradeParty" inv.seller]
      = [partyEl "ram:SellerTradeParty" inv.seller] from rfl,
    show List.filter (fun c => stripNS c.name == "SellerTradeParty")
      [partyEl "ram:BuyerTradeParty" inv.buyer] = [] from rfl,
    show List.filter (fun c => stripNS c.name == "SellerTradeParty")
      [wrapEl "ram:BuyerOrderReferencedDocument"
        [txtEl "ram:IssuerAssignedID" (inv.purchaseOrderRef.getD "")]] = [] from rfl,
    show List.filter (fun c => stripNS c.name == "SellerTradeParty")
      [wrapEl "ram:ContractReferencedDocument"
        [txtEl "ram:IssuerAssignedID" (inv.contractRef.getD "")]] = [] from rfl,
    optEls_nil, optEls_nil, optEls_nil]
  simp [convGroup]

theorem buyer_gen (inv : Invoice) :
    getF (xmlToJd 18 (agreementEl inv)) "BuyerTradeParty"
      = some (xmlToJd 17 (partyEl "ram:BuyerTradeParty" inv.buyer)) := by
  rw [agreementEl, wrapEl, show (18:ℕ) = 17 + 1 from rfl,
    getF_conv 17 _ _ _ _ _ (Or.inr (by simp)) (by simp) (by decide),
    childrenNamed, List.filter_append, List.filter_append, List.filter_append,
    List.filter_append, filter_optEls, filter_optEls, filter_optEls,
    show List.filter (fun c => stripNS c.name == "BuyerTradeParty")
      [txtEl "ram:BuyerReference" (inv.buyerRef.getD "")] = [] from rfl,
    show List.filter (fun c => stripNS c.name == "BuyerTradeParty")
      [partyEl "ram:SellerTradeParty" inv.seller] = [] from rfl,
    show List.filter (fun c => stripNS c.name == "BuyerTradeParty")
      [partyEl "ram:BuyerTradeParty" inv.buyer]
      = [partyEl "ram:BuyerTradeParty" inv.buyer] from rfl,
    show List.filter (fun c => stripNS c.name == "BuyerTradeParty")
      [wrapEl "ram:BuyerOrderReferencedDocument"
        [txtEl "ram:IssuerAssignedID" (inv.purchaseOrderRef.getD "")]] = [] from rfl,
    show List.filter (fun c => stripNS c.name == "BuyerTradeParty")
      [wrapEl "ram:ContractReferencedDocument"
        [txtEl "ram:IssuerAssignedID" (inv.contractRef.getD "")]] = [] from rfl,
    optEls_nil, optEls_nil, optEls_nil]
  simp [convGroup]

theorem party_gen (tag : String) (p : TradeParty)
    (hok : partyFieldsOk p = true) (hcy : countryRE p.address.countryCode = true) :
    parsePartyJ (some (xmlToJd 17 (partyEl tag p)))
      = .ok { name := p.name, id := p.id, vatNumber := p.vatNumber, legalId := p.legalId,
              address := { street := p.address.street, city := p.address.city,
                           postalCode := p.address.postalCode,
                           countryCode := p.address.countryCode },
              contact := none } := by
  rw [partyFieldsOk] at hok
  simp only [Bool.and_eq_true, and_assoc] at hok
  obtain ⟨hn, hnc, hst, hstc, hci, hcic, hpo, hpoc, hid, hvat, hleg⟩ := hok
  have hName : getF (xmlToJd 17 (partyEl tag p)) "Name"
      = some (.s (coerceText (jsTrim p.name))) := by
    rw [partyEl, wrapEl, show (17:ℕ) = 16 + 1 from rfl,
      getF_conv 16 _ _ _ _ _ (Or.inr (by simp)) (by simp) (by decide),
      childrenNamed, List.filter_append, List.filter_append, List.filter_append,
      List.filter_append, List.filter_append,
      filter_optEls, filter_optEls, filter_optEls, filter_optEls,
      show List.filter (fun c => stripNS c.name == "Name")
        [txtEl "ram:ID" (p.id.getD "")] = [] from rfl,
      show List.filter (fun c => stripNS c.name == "Name")
        [txtEl "ram:Name" p.name] = [txtEl "ram:Name" p.name] from rfl,
      show List.filter (fun c => stripNS c.name == "Name")
        [wrapEl "ram:SpecifiedLegalOrganization"
          [txtEl "ram:ID" (p.legalId.getD "")]] = [] from rfl,
      show List.filter (fun c => stripNS c.name == "Name")
        [wrapEl "ram:SpecifiedTaxRegistration"
          [.el "ram:ID" [("schemeID", "VA")] (p.vatNumber.getD "") []]] = [] from rfl,
      show List.filter (fun c => stripNS c.name == "Name")
        [wrapEl "ram:PostalTradeAddress"
          [txtEl "ram:PostcodeCode" p.address.postalCode,
           txtEl "ram:LineOne" p.address.street,
           txtEl "ram:CityName" p.address.city,
           txtEl "ram:CountryID" p.address.countryCode]] = [] from rfl,
      show List.filter (fun c => stripNS c.name == "Name")
        [wrapEl "ram:URIUniversalCommunication"
          [.el "ram:URIID" [("schemeID", "EM")] ((contactEmail p).getD "") []]]
        = [] from rfl,
      optEls_nil, optEls_nil, optEls_nil, optEls_nil]
    simp only [List.nil_append, List.append_nil, List.isEmpty_cons, Bool.false_eq_true,
      if_false, convGroup]
    exact congrArg some (xmlToJd_txtEl 15 _ _)
  have hAddr : getF (xmlToJd 17 (partyEl tag p)) "PostalTradeAddress"
      = some (xmlToJd 16 (wrapEl "ram:PostalTradeAddress"
          [txtEl "ram:PostcodeCode" p.address.postalCode,
           txtEl "ram:LineOne" p.address.street,
           txtEl "ram:CityName" p.address.city,
           txtEl "ram:CountryID" p.address.countryCode])) := by
    rw [partyEl, wrapEl, show (17:ℕ) = 16 + 1 from rfl,
      getF_conv 16 _ _ _ _ _ (Or.inr (by simp)) (by simp) (by decide),
      childrenNamed, List.filter_append, List.filter_append, List.filter_append,
      List.filter_append, List.filter_append,
      filter_optEls, filter_optEls, filter_optEls, filter_optEls,
      show List.filter (fun c => stripNS c.name == "PostalTradeAddress")
        [txtEl "ram:ID" (p.id.getD "")] = [] from rfl,
      show List.filter (fun c => stripNS c.name == "PostalTradeAddress")
        [txtEl "ram:Name" p.name] = [] from rfl,
      show List.filter (fun c => stripNS c.name == "PostalTradeAddress")
        [wrapEl "ram:SpecifiedLegalOrganization"
          [txtEl "ram:ID" (p.legalId.getD "")]] = [] from rfl,
      show List.filter (fun c => stripNS c.name == "PostalTradeAddress")
        [wrapEl "ram:SpecifiedTaxRegistration"
          [.el "ram:ID" [("schemeID", "VA")] (p.vatNumber.getD "") []]] = [] from rfl,
      show List.filter (fun c => stripNS c.name == "PostalTradeAddress")
        [wrapEl "ram:PostalTradeAddress"
          [txtEl "ram:PostcodeCode" p.address.postalCode,
           txtEl "ram:LineOne" p.address.street,
           txtEl "ram:CityName" p.address.city,
           txtEl "ram:CountryID" p.address.countryCode]]
        = [wrapEl "ram:PostalTradeAddress"
            [txtEl "ram:PostcodeCode" p.address.postalCode,
             txtEl "ram:LineOne" p.address.street,
             txtEl "ram:CityName" p.address.city,
             txtEl "ram:CountryID" p.address.countryCode]] from rfl,
      show List.filter (fun c => stripNS c.name == "PostalTradeAddress")
        [wrapEl "ram:URIUniversalCommunication"
          [.el "ram:URIID" [("schemeID", "EM")] ((contactEmail p).getD "") []]]
        = [] from rfl,
      optEls_nil, optEls_nil, optEls_nil, optEls_nil]
    simp [convGroup]
  have hstreet : strJ (getFO (getF (xmlToJd 17 (partyEl tag p)) "PostalTradeAddress")
      "LineOne") = coerceText (jsTrim p.address.street) := by
    rw [hAddr, getFO_some, wrapEl, show (16:ℕ) = 15 + 1 from rfl,
      getF_conv 15 _ _ _ _ _ (Or.inr (by simp)) (by simp) (by decide),
      show childrenNamed "LineOne"
        [txtEl "ram:PostcodeCode" p.address.postalCode,
         txtEl "ram:LineOne" p.address.street,
         txtEl "ram:CityName" p.address.city,
         txtEl "ram:CountryID" p.address.countryCode]
        = [txtEl "ram:LineOne" p.address.street] from rfl]
    simp only [List.isEmpty_cons, Bool.false_eq_true, if_false, convGroup]
    exact strJ_txt_conv 14 _ _
  have hcity : strJ (getFO (getF (xmlToJd 17 (partyEl tag p)) "PostalTradeAddress")
      "CityName") = coerceText (jsTrim p.address.city) := by
    rw [hAddr, getFO_some, wrapEl, show (16:ℕ) = 15 + 1 from rfl,
      getF_conv 15 _ _ _ _ _ (Or.inr (by simp)) (by simp) (by decide),
      show childrenNamed "CityName"
        [txtEl "ram:PostcodeCode" p.address.postalCode,
         txtEl "ram:LineOne" p.address.street,
         txtEl "ram:CityName" p.address.city,
         txtEl "ram:CountryID" p.address.countryCode]
        = [txtEl "ram:CityName" p.address.city] from rfl]
    simp only [List.isEmpty_cons, Bool.false_eq_true, if_false, convGroup]
    exact strJ_txt_conv 14 _ _
  have hpostal : strJ (getFO (getF (xmlToJd 17 (partyEl tag p)) "PostalTradeAddress")
      "PostcodeCode") = coerceText (jsTrim p.address.postalCode) := by
    rw [hAddr, getFO_some, wrapEl, show (16:ℕ) = 15 + 1 from rfl,
      getF_conv 15 _ _ _ _ _ (Or.inr (by simp)) (by simp) (by decide),
      show childrenNamed "PostcodeCode"
        [txtEl "ram:PostcodeCode" p.address.postalCode,
         txtEl "ram:LineOne" p.address.street,
         txtEl "ram:CityName" p.address.city,
         txtEl "ram:CountryID" p.address.countryCode]
        = [txtEl "ram:PostcodeCode" p.address.postalCode] from rfl]
    simp only [List.isEmpty_cons, Bool.false_eq_true, if_false, convGroup]
    exact strJ_txt_conv 14 _ _
  have hcountry : strJ (getFO (getF (xmlToJd 17 (partyEl tag p)) "PostalTradeAddress")
      "CountryID") = coerceText (jsTrim p.address.countryCode) := by
    rw [hAddr, getFO_some, wrapEl, show (16:ℕ) = 15 + 1 from rfl,
      getF_conv 15 _ _ _ _ _ (Or.inr (by simp)) (by simp) (by decide),
      show childrenNamed "CountryID"
        [txtEl "ram:PostcodeCode" p.address.postalCode,
         txtEl "ram:LineOne" p.address.street,
         txtEl "ram:CityName" p.address.city,
         txtEl "ram:CountryID" p.address.countryCode]
        = [txtEl "ram:CountryID" p.address.countryCode] from rfl]
    simp only [List.isEmpty_cons, Bool.false_eq_true, if_false, convGroup]
    exact strJ_txt_conv 14 _ _
  have hId2 : emptyToNone (strJ (getF (xmlToJd 17 (partyEl tag p)) "ID")) = p.id := by
    rw [partyEl, wrapEl, show (17:ℕ) = 16 + 1 from rfl,
      getF_conv 16 _ _ _ _ _ (Or.inr (by simp)) (by simp) (by decide),
      childrenNamed, List.filter_append, List.filter_append, List.filter_append,
      List.filter_append, List.filter_append,
      filter_optEls, filter_optEls, filter_optEls, filter_optEls,
      show List.filter (fun c => stripNS c.name == "ID")
        [txtEl "ram:ID" (p.id.getD "")] = [txtEl "ram:ID" (p.id.getD "")] from rfl,
      show List.filter (fun c => stripNS c.name == "ID")
        [txtEl "ram:Name" p.name] = [] from rfl,
      show List.filter (fun c => stripNS c.name == "ID")
        [wrapEl "ram:SpecifiedLegalOrganization"
          [txtEl "ram:ID" (p.legalId.getD "")]] = [] from rfl,
      show List.filter (fun c => stripNS c.name == "ID")
        [wrapEl "ram:SpecifiedTaxRegistration"
          [.el "ram:ID" [("schemeID", "VA")] (p.vatNumber.getD "") []]] = [] from rfl,
      show List.filter (fun c => stripNS c.name == "ID")
        [wrapEl "ram:PostalTradeAddress"
          [txtEl "ram:PostcodeCode" p.address.postalCode,
           txtEl "ram:LineOne" p.address.street,
           txtEl "ram:CityName" p.address.city,
           txtEl "ram:CountryID" p.address.countryCode]] = [] from rfl,
      show List.filter (fun c => stripNS c.name == "ID")
        [wrapEl "ram:URIUniversalCommunication"
          [.el "ram:URIID" [("schemeID", "EM")] ((contactEmail p).getD "") []]]
        = [] from rfl,
      optEls_nil, optEls_nil, optEls_nil]
    simp only [List.nil_append, List.append_nil]
    rcases hpid : p.id with _ | s
    · rfl
    · rw [hpid] at hid
      rw [optFieldOk] at hid
      simp only [Bool.and_eq_true, Bool.not_eq_true', and_assoc] at hid
      rw [show otru (some s) = !(s == "") from rfl, hid.1]
      simp only [Bool.not_false, optEls, if_true, List.isEmpty_cons, Bool.false_eq_true,
        if_false, convGroup, Option.getD]
      rw [show strJ (some (xmlToJd 16 (txtEl "ram:ID" s))) = coerceText (jsTrim s) from rfl]
      rw [show jsTrim s = s from eq_of_beq hid.2.1]
      rw [show coerceText s = s from eq_of_beq hid.2.2]
      rw [emptyToNone, hid.1]
      simp
  have hVat2 : (if jtru (getF (xmlToJd 17 (partyEl tag p)) "SpecifiedTaxRegistration") then
      emptyToNone (strJ (getFO (getF (xmlToJd 17 (partyEl tag p))
        "SpecifiedTaxRegistration") "ID")) else none) = p.vatNumber := by
    have hacc : getF (xmlToJd 17 (partyEl tag p)) "SpecifiedTaxRegistration"
        = if (optEls (otru p.vatNumber) [wrapEl "ram:SpecifiedTaxRegistration"
            [.el "ram:ID" [("schemeID", "VA")] (p.vatNumber.getD "") []]]).isEmpty
          then none
          else some (convGroup (xmlToJd 16) (optEls (otru p.vatNumber)
            [wrapEl "ram:SpecifiedTaxRegistration"
              [.el "ram:ID" [("schemeID", "VA")] (p.vatNumber.getD "") []]])) := by
      rw [partyEl, wrapEl, show (17:ℕ) = 16 + 1 from rfl,
        getF_conv 16 _ _ _ _ _ (Or.inr (by simp)) (by simp) (by decide),
        childrenNamed, List.filter_append, List.filter_append, List.filter_append,
        List.filter_append, List.filter_append,
        filter_optEls, filter_optEls, filter_optEls, filter_optEls,
        show List.filter (fun c => stripNS c.name == "SpecifiedTaxRegistration")
          [txtEl "ram:ID" (p.id.getD "")] = [] from rfl,
        show List.filter (fun c => stripNS c.name == "SpecifiedTaxRegistration")
          [txtEl "ram:Name" p.name] = [] from rfl,
        show List.filter (fun c => stripNS c.name == "SpecifiedTaxRegistration")
          [wrapEl "ram:SpecifiedLegalOrganization"
            [txtEl "ram:ID" (p.legalId.getD "")]] = [] from rfl,
        show List.filter (fun c => stripNS c.name == "SpecifiedTaxRegistration")
          [wrapEl "ram:SpecifiedTaxRegistration"
            [.el "ram:ID" [("schemeID", "VA")] (p.vatNumber.getD "") []]]
          = [wrapEl "ram:SpecifiedTaxRegistration"
              [.el "ram:ID" [("schemeID", "VA")] (p.vatNumber.getD "") []]] from rfl,
        show List.filter (fun c => stripNS c.name == "SpecifiedTaxRegistration")
          [wrapEl "ram:PostalTradeAddress"
            [txtEl "ram:PostcodeCode" p.address.postalCode,
             txtEl "ram:LineOne" p.address.street,
             txtEl "ram:CityName" p.address.city,
             txtEl "ram:CountryID" p.address.countryCode]] = [] from rfl,
        show List.filter (fun c => stripNS c.name == "SpecifiedTaxRegistration")
          [wrapEl "ram:URIUniversalCommunication"
            [.el "ram:URIID" [("schemeID", "EM")] ((contactEmail p).getD "") []]]
          = [] from rfl,
        optEls_nil, optEls_nil, optEls_nil]
      simp only [List.nil_append, List.append_nil]
    rcases hpv : p.vatNumber with _ | s
    · rw [hacc, hpv]
      rfl
    · rw [hpv] at hvat
      rw [optFieldOk] at hvat
      simp only [Bool.and_eq_true, Bool.not_eq_true', and_assoc] at hvat
      rw [hacc, hpv, show otru (some s) = !(s == "") from rfl, hvat.1]
      simp only [Bool.not_false, optEls, if_true, List.isEmpty_cons, Bool.false_eq_true,
        if_false, convGroup, Option.getD]
      rw [show jtru (some (xmlToJd 16 (wrapEl "ram:SpecifiedTaxRegistration"
          [.el "ram:ID" [("schemeID", "VA")] s []]))) = true from rfl]
      simp only [if_true]
      rw [wrapEl, getFO_some, show (16:ℕ) = 15 + 1 from rfl,
        getF_conv 15 _ _ _ _ _ (Or.inr (by simp)) (by simp) (by decide),
        show childrenNamed "ID" [Xml.el "ram:ID" [("schemeID", "VA")] s []]
          = [Xml.el "ram:ID" [("schemeID", "VA")] s []] from rfl]
      simp only [List.isEmpty_cons, Bool.false_eq_true, if_false, convGroup]
      rw [strJ_attr_conv 14 _ _ _ _ (by decide),
        show jsTrim s = s from eq_of_beq hvat.2.1,
        show coerceText s = s from eq_of_beq hvat.2.2, emptyToNone, hvat.1]
      simp
  have hLeg2 : (if jtru (getF (xmlToJd 17 (partyEl tag p)) "SpecifiedLegalOrganization") then
      emptyToNone (strJ (getFO (getF (xmlToJd 17 (partyEl tag p))
        "SpecifiedLegalOrganization") "ID")) else none) = p.legalId := by
    have hacc : getF (xmlToJd 17 (partyEl tag p)) "SpecifiedLegalOrganization"
        = if (optEls (otru p.legalId) [wrapEl "ram:SpecifiedLegalOrganization"
            [txtEl "ram:ID" (p.legalId.getD "")]]).isEmpty
          then none
          else some (convGroup (xmlToJd 16) (optEls (otru p.legalId)
            [wrapEl "ram:SpecifiedLegalOrganization"
              [txtEl "ram:ID" (p.legalId.getD "")]])) := by
      rw [partyEl, wrapEl, show (17:ℕ) = 16 + 1 from rfl,
        getF_conv 16 _ _ _ _ _ (Or.inr (by simp)) (by simp) (by decide),
        childrenNamed, List.filter_append, List.filter_append, List.filter_append,
        List.filter_append, List.filter_append,
        filter_optEls, filter_optEls, filter_optEls, filter_optEls,
        show List.filter (fun c => stripNS c.name == "SpecifiedLegalOrganization")
          [txtEl "ram:ID" (p.id.getD "")] = [] from rfl,
        show List.filter (fun c => stripNS c.name == "SpecifiedLegalOrganization")
          [txtEl "ram:Name" p.name] = [] from rfl,
        show List.filter (fun c => stripNS c.name == "SpecifiedLegalOrganization")
          [wrapEl "ram:SpecifiedLegalOrganization"
            [txtEl "ram:ID" (p.legalId.getD "")]]
          = [wrapEl "ram:SpecifiedLegalOrganization"
              [txtEl "ram:ID" (p.legalId.getD "")]] from rfl,
        show List.filter (fun c => stripNS c.name == "SpecifiedLegalOrganization")
          [wrapEl "ram:SpecifiedTaxRegistration"
            [.el "ram:ID" [("schemeID", "VA")] (p.vatNumber.getD "") []]] = [] from rfl,
        show List.filter (fun c => stripNS c.name == "SpecifiedLegalOrganization")
          [wrapEl "ram:PostalTradeAddress"
            [txtEl "ram:PostcodeCode" p.address.postalCode,
             txtEl "ram:LineOne" p.address.street,
             txtEl "ram:CityName" p.address.city,
             txtEl "ram:CountryID" p.address.countryCode]] = [] from rfl,
        show List.filter (fun c => stripNS c.name == "SpecifiedLegalOrganization")
          [wrapEl "ram:URIUniversalCommunication"
            [.el "ram:URIID" [("schemeID", "EM")] ((contactEmail p).getD "") []]]
          = [] from rfl,
        optEls_nil, optEls_nil, optEls_nil]
      simp only [List.nil_append, List.append_nil]
    rcases hpl : p.legalId with _ | s
    · rw [hacc, hpl]
      rfl
    · rw [hpl] at hleg
      rw [optFieldOk] at hleg
      simp only [Bool.and_eq_true, Bool.not_eq_true', and_assoc] at hleg
      rw [hacc, hpl, show otru (some s) = !(s == "") from rfl, hleg.1]
      simp only [Bool.not_false, optEls, if_true, List.isEmpty_cons, Bool.false_eq_true,
        if_false, convGroup, Option.getD]
      rw [show jtru (some (xmlToJd 16 (wrapEl "ram:SpecifiedLegalOrganization"
          [txtEl "ram:ID" s]))) = true from rfl]
      simp only [if_true]
      rw [wrapEl, getFO_some, show (16:ℕ) = 15 + 1 from rfl,
        getF_conv 15 _ _ _ _ _ (Or.inr (by simp)) (by simp) (by decide),
        show childrenNamed "ID" [txtEl "ram:ID" s] = [txtEl "ram:ID" s] from rfl]
      simp only [List.isEmpty_cons, Bool.false_eq_true, if_false, convGroup]
      rw [strJ_txt_conv 14 _ _,
        show jsTrim s = s from eq_of_beq hleg.2.1,
        show coerceText s = s from eq_of_beq hleg.2.2, emptyToNone, hleg.1]
      simp
  rw [parsePartyJ]
  rw [hName, hId2, hVat2, hLeg2]
  rw [show strJ (some (JValue.s (coerceText (jsTrim p.name))))
    = coerceText (jsTrim p.name) from rfl]
  rw [show jsTrim p.name = p.name from eq_of_beq hn]
  rw [show coerceText p.name = p.name from eq_of_beq hnc]
  rw [hstreet, hcity, hpostal, hcountry]
  rw [show jsTrim p.address.street = p.address.street from eq_of_beq hst,
    show jsTrim p.address.city = p.address.city from eq_of_beq hci,
    show jsTrim p.address.postalCode = p.address.postalCode from eq_of_beq hpo,
    countryRE_stable hcy]
  rw [show coerceText p.address.street = p.address.street from eq_of_beq hstc,
    show coerceText p.address.city = p.address.city from eq_of_beq hcic,
    show coerceText p.address.postalCode = p.address.postalCode from eq_of_beq hpoc,
    countryRE_coerce hcy]

theorem vat_code_ok :
    ∀ c ∈ VAT_CATEGORY_CODES,
      stableS c = true ∧ (c == "") = false ∧ coStable c = true := by decide

theorem line_gen (l : InvoiceLine)
    (hq : isDec l.quantity = true) (hr : isDec l.vatRate = true)
    (hcat : VAT_CATEGORY_CODES.contains l.vatCategory = true) :
    lineEssentials (parseLineJ (xmlToJd 18 (lineItemEl l))) = lineEssentials l := by
  obtain ⟨hcs, hcne, hcco⟩ := vat_code_ok l.vatCategory (List.elem_iff.mp hcat)
  have hcstable : jsTrim l.vatCategory = l.vatCategory := eq_of_beq hcs
  have hsettle : getF (xmlToJd 18 (lineItemEl l)) "SpecifiedLineTradeSettlement"
      = some (xmlToJd 17 (wrapEl "ram:SpecifiedLineTradeSettlement"
          [wrapEl "ram:ApplicableTradeTax"
            [txtEl "ram:TypeCode" "VAT",
             txtEl "ram:CategoryCode" l.vatCategory,
             txtEl "ram:RateApplicablePercent" (jsStr l.vatRate)],
           wrapEl "ram:SpecifiedTradeSettlementLineMonetarySummation"
             [txtEl "ram:LineTotalAmount" (fmt l.totalAmount)]])) := by
    rw [lineItemEl, wrapEl, show (18:ℕ) = 17 + 1 from rfl,
      getF_conv 17 _ _ _ _ _ (Or.inr (by simp)) (by simp) (by decide),
      show childrenNamed "SpecifiedLineTradeSettlement"
        [wrapEl "ram:AssociatedDocumentLineDocument" [txtEl "ram:LineID" l.id],
         wrapEl "ram:SpecifiedTradeProduct"
           (optEls (otru l.productId) [txtEl "ram:SellerAssignedID" (l.productId.getD "")]
            ++ optEls (otru l.buyerProductId)
                 [txtEl "ram:BuyerAssignedID" (l.buyerProductId.getD "")]
            ++ [txtEl "ram:Name" l.description]
            ++ optEls (otru l.note) [txtEl "ram:Description" (l.note.getD "")]),
         wrapEl "ram:SpecifiedLineTradeAgreement"
           [wrapEl "ram:NetPriceProductTradePrice"
             [txtEl "ram:ChargeAmount" (fmt l.unitPrice),
              .el "ram:BasisQuantity" [("unitCode", l.unitCode)] "1" []]],
         wrapEl "ram:SpecifiedLineTradeDelivery"
           [.el "ram:BilledQuantity" [("unitCode", l.unitCode)] (jsStr l.quantity) []],
         wrapEl "ram:SpecifiedLineTradeSettlement"
           [wrapEl "ram:ApplicableTradeTax"
             [txtEl "ram:TypeCode" "VAT",
              txtEl "ram:CategoryCode" l.vatCategory,
              txtEl "ram:RateApplicablePercent" (jsStr l.vatRate)],
            wrapEl "ram:SpecifiedTradeSettlementLineMonetarySummation"
              [txtEl "ram:LineTotalAmount" (fmt l.totalAmount)]]]
        = [wrapEl "ram:SpecifiedLineTradeSettlement"
            [wrapEl "ram:ApplicableTradeTax"
              [txtEl "ram:TypeCode" "VAT",
               txtEl "ram:CategoryCode" l.vatCategory,
               txtEl "ram:RateApplicablePercent" (jsStr l.vatRate)],
             wrapEl "ram:SpecifiedTradeSettlementLineMonetarySummation"
               [txtEl "ram:LineTotalAmount" (fmt l.totalAmount)]]] from rfl]
    simp [convGroup]
  have htax : getFO (getF (xmlToJd 18 (lineItemEl l)) "SpecifiedLineTradeSettlement")
      "ApplicableTradeTax"
      = some (xmlToJd 16 (wrapEl "ram:ApplicableTradeTax"
          [txtEl "ram:TypeCode" "VAT",
           txtEl "ram:CategoryCode" l.vatCategory,
           txtEl "ram:RateApplicablePercent" (jsStr l.vatRate)])) := by
    rw [hsettle, getFO_some, wrapEl, show (17:ℕ) = 16 + 1 from rfl,
      getF_conv 16 _ _ _ _ _ (Or.inr (by simp)) (by simp) (by decide),
      show childrenNamed "ApplicableTradeTax"
        [wrapEl "ram:ApplicableTradeTax"
          [txtEl "ram:TypeCode" "VAT",
           txtEl "ram:CategoryCode" l.vatCategory,
           txtEl "ram:RateApplicablePercent" (jsStr l.vatRate)],
         wrapEl "ram:SpecifiedTradeSettlementLineMonetarySummation"
           [txtEl "ram:LineTotalAmount" (fmt l.totalAmount)]]
        = [wrapEl "ram:ApplicableTradeTax"
            [txtEl "ram:TypeCode" "VAT",
             txtEl "ram:CategoryCode" l.vatCategory,
             txtEl "ram:RateApplicablePercent" (jsStr l.vatRate)]] from rfl]
    simp [convGroup]
  have hsum : getFO (getF (xmlToJd 18 (lineItemEl l)) "SpecifiedLineTradeSettlement")
      "SpecifiedTradeSettlementLineMonetarySummation"
      = some (xmlToJd 16 (wrapEl "ram:SpecifiedTradeSettlementLineMonetarySummation"
          [txtEl "ram:LineTotalAmount" (fmt l.totalAmount)])) := by
    rw [hsettle, getFO_some, wrapEl, show (17:ℕ) = 16 + 1 from rfl,
      getF_conv 16 _ _ _ _ _ (Or.inr (by simp)) (by simp) (by decide),
      show childrenNamed "SpecifiedTradeSettlementLineMonetarySummation"
        [wrapEl "ram:ApplicableTradeTax"
          [txtEl "ram:TypeCode" "VAT",
           txtEl "ram:CategoryCode" l.vatCategory,
           txtEl "ram:RateApplicablePercent" (jsStr l.vatRate)],
         wrapEl "ram:SpecifiedTradeSettlementLineMonetarySummation"
           [txtEl "ram:LineTotalAmount" (fmt l.totalAmount)]]
        = [wrapEl "ram:SpecifiedTradeSettlementLineMonetarySummation"
            [txtEl "ram:LineTotalAmount" (fmt l.totalAmount)]] from rfl]
    simp [convGroup]
  have hcatv : strJ (getFO (getFO (getF (xmlToJd 18 (lineItemEl l))
      "SpecifiedLineTradeSettlement") "ApplicableTradeTax") "CategoryCode")
      = l.vatCategory := by
    rw [htax, getFO_some, wrapEl, show (16:ℕ) = 15 + 1 from rfl,
      getF_conv 15 _ _ _ _ _ (Or.inr (by simp)) (by simp) (by decide),
      show childrenNamed "CategoryCode"
        [txtEl "ram:TypeCode" "VAT",
         txtEl "ram:CategoryCode" l.vatCategory,
         txtEl "ram:RateApplicablePercent" (jsStr l.vatRate)]
        = [txtEl "ram:CategoryCode" l.vatCategory] from rfl]
    simp only [List.isEmpty_cons, Bool.false_eq_true, if_false, convGroup]
    rw [strJ_txt_conv 14 _ _, hcstable,
      show coerceText l.vatCategory = l.vatCategory from eq_of_beq hcco]
  have hratev : strJ (getFO (getFO (getF (xmlToJd 18 (lineItemEl l))
      "SpecifiedLineTradeSettlement") "ApplicableTradeTax") "RateApplicablePercent")
      = coerceText (jsStr l.vatRate) := by
    rw [htax, getFO_some, wrapEl, show (16:ℕ) = 15 + 1 from rfl,
      getF_conv 15 _ _ _ _ _ (Or.inr (by simp)) (by simp) (by decide),
      show childrenNamed "RateApplicablePercent"
        [txtEl "ram:TypeCode" "VAT",
         txtEl "ram:CategoryCode" l.vatCategory,
         txtEl "ram:RateApplicablePercent" (jsStr l.vatRate)]
        = [txtEl "ram:RateApplicablePercent" (jsStr l.vatRate)] from rfl]
    simp only [List.isEmpty_cons, Bool.false_eq_true, if_false, convGroup]
    rw [strJ_txt_conv 14 _ _, jsTrim_jsStr]
  have htotv : strJ (getFO (getFO (getF (xmlToJd 18 (lineItemEl l))
      "SpecifiedLineTradeSettlement") "SpecifiedTradeSettlementLineMonetarySummation")
      "LineTotalAmount") = coerceText (fmt l.totalAmount) := by
    rw [hsum, getFO_some, wrapEl, show (16:ℕ) = 15 + 1 from rfl,
      getF_conv 15 _ _ _ _ _ (Or.inr (by simp)) (by simp) (by decide),
      show childrenNamed "LineTotalAmount"
        [txtEl "ram:LineTotalAmount" (fmt l.totalAmount)]
        = [txtEl "ram:LineTotalAmount" (fmt l.totalAmount)] from rfl]
    simp only [List.isEmpty_cons, Bool.false_eq_true, if_false, convGroup]
    rw [strJ_txt_conv 14 _ _, jsTrim_fmt]
  have hdeliv : getF (xmlToJd 18 (lineItemEl l)) "SpecifiedLineTradeDelivery"
      = some (xmlToJd 17 (wrapEl "ram:SpecifiedLineTradeDelivery"
          [.el "ram:BilledQuantity" [("unitCode", l.unitCode)] (jsStr l.quantity) []])) := by
    rw [lineItemEl, wrapEl, show (18:ℕ) = 17 + 1 from rfl,
      getF_conv 17 _ _ _ _ _ (Or.inr (by simp)) (by simp) (by decide),
      show childrenNamed "SpecifiedLineTradeDelivery"
        [wrapEl "ram:AssociatedDocumentLineDocument" [txtEl "ram:LineID" l.id],
         wrapEl "ram:SpecifiedTradeProduct"
           (optEls (otru l.productId) [txtEl "ram:SellerAssignedID" (l.productId.getD "")]
            ++ optEls (otru l.buyerProductId)
                 [txtEl "ram:BuyerAssignedID" (l.buyerProductId.getD "")]
            ++ [txtEl "ram:Name" l.description]
            ++ optEls (otru l.note) [txtEl "ram:Description" (l.note.getD "")]),
         wrapEl "ram:SpecifiedLineTradeAgreement"
           [wrapEl "ram:NetPriceProductTradePrice"
             [txtEl "ram:ChargeAmount" (fmt l.unitPrice),
              .el "ram:BasisQuantity" [("unitCode", l.unitCode)] "1" []]],
         wrapEl "ram:SpecifiedLineTradeDelivery"
           [.el "ram:BilledQuantity" [("unitCode", l.unitCode)] (jsStr l.quantity) []],
         wrapEl "ram:SpecifiedLineTradeSettlement"
           [wrapEl "ram:ApplicableTradeTax"
             [txtEl "ram:TypeCode" "VAT",
              txtEl "ram:CategoryCode" l.vatCategory,
              txtEl "ram:RateApplicablePercent" (jsStr l.vatRate)],
            wrapEl "ram:SpecifiedTradeSettlementLineMonetarySummation"
              [txtEl "ram:LineTotalAmount" (fmt l.totalAmount)]]]
        = [wrapEl "ram:SpecifiedLineTradeDelivery"
            [.el "ram:BilledQuantity" [("unitCode", l.unitCode)] (jsStr l.quantity) []]]
        from rfl]
    simp [convGroup]
  have hbilled : getFO (getF (xmlToJd 18 (lineItemEl l)) "SpecifiedLineTradeDelivery")
      "BilledQuantity"
      = some (xmlToJd 16 (.el "ram:BilledQuantity" [("unitCode", l.unitCode)]
          (jsStr l.quantity) [])) := by
    rw [hdeliv, getFO_some, wrapEl, show (17:ℕ) = 16 + 1 from rfl,
      getF_conv 16 _ _ _ _ _ (Or.inr (by simp)) (by simp) (by decide),
      show childrenNamed "BilledQuantity"
        [Xml.el "ram:BilledQuantity" [("unitCode", l.unitCode)] (jsStr l.quantity) []]
        = [Xml.el "ram:BilledQuantity" [("unitCode", l.unitCode)] (jsStr l.quantity) []]
        from rfl]
    simp [convGroup]
  have hagree : getF (xmlToJd 18 (lineItemEl l)) "SpecifiedLineTradeAgreement"
      = some (xmlToJd 17 (wrapEl "ram:SpecifiedLineTradeAgreement"
          [wrapEl "ram:NetPriceProductTradePrice"
            [txtEl "ram:ChargeAmount" (fmt l.unitPrice),
             .el "ram:BasisQuantity" [("unitCode", l.unitCode)] "1" []]])) := by
    rw [lineItemEl, wrapEl, show (18:ℕ) = 17 + 1 from rfl,
      getF_conv 17 _ _ _ _ _ (Or.inr (by simp)) (by simp) (by decide),
      show childrenNamed "SpecifiedLineTradeAgreement"
        [wrapEl "ram:AssociatedDocumentLineDocument" [txtEl "ram:LineID" l.id],
         wrapEl "ram:SpecifiedTradeProduct"
           (optEls (otru l.productId) [txtEl "ram:SellerAssignedID" (l.productId.getD "")]
            ++ optEls (otru l.buyerProductId)
                 [txtEl "ram:BuyerAssignedID" (l.buyerProductId.getD "")]
            ++ [txtEl "ram:Name" l.description]
            ++ optEls (otru l.note) [txtEl "ram:Description" (l.note.getD "")]),
         wrapEl "ram:SpecifiedLineTradeAgreement"
           [wrapEl "ram:NetPriceProductTradePrice"
             [txtEl "ram:ChargeAmount" (fmt l.unitPrice),
              .el "ram:BasisQuantity" [("unitCode", l.unitCode)] "1" []]],
         wrapEl "ram:SpecifiedLineTradeDelivery"
           [.el "ram:BilledQuantity" [("unitCode", l.unitCode)] (jsStr l.quantity) []],
         wrapEl "ram:SpecifiedLineTradeSettlement"
           [wrapEl "ram:ApplicableTradeTax"
             [txtEl "ram:TypeCode" "VAT",
              txtEl "ram:CategoryCode" l.vatCategory,
              txtEl "ram:RateApplicablePercent" (jsStr l.vatRate)],
            wrapEl "ram:SpecifiedTradeSettlementLineMonetarySummation"
              [txtEl "ram:LineTotalAmount" (fmt l.totalAmount)]]]
        = [wrapEl "ram:SpecifiedLineTradeAgreement"
            [wrapEl "ram:NetPriceProductTradePrice"
              [txtEl "ram:ChargeAmount" (fmt l.unitPrice),
               .el "ram:BasisQuantity" [("unitCode", l.unitCode)] "1" []]]] from rfl]
    simp [convGroup]
  have hprice : getFO (getF (xmlToJd 18 (lineItemEl l)) "SpecifiedLineTradeAgreement")
      "NetPriceProductTradePrice"
      = some (xmlToJd 16 (wrapEl "ram:NetPriceProductTradePrice"
          [txtEl "ram:ChargeAmount" (fmt l.unitPrice),
           .el "ram:BasisQuantity" [("unitCode", l.unitCode)] "1" []])) := by
    rw [hagree, getFO_some, wrapEl, show (17:ℕ) = 16 + 1 from rfl,
      getF_conv 16 _ _ _ _ _ (Or.inr (by simp)) (by simp) (by decide),
      show childrenNamed "NetPriceProductTradePrice"
        [wrapEl "ram:NetPriceProductTradePrice"
          [txtEl "ram:ChargeAmount" (fmt l.unitPrice),
           .el "ram:BasisQuantity" [("unitCode", l.unitCode)] "1" []]]
        = [wrapEl "ram:NetPriceProductTradePrice"
            [txtEl "ram:ChargeAmount" (fmt l.unitPrice),
             .el "ram:BasisQuantity" [("unitCode", l.unitCode)] "1" []]] from rfl]
    simp [convGroup]
  have hcharge : strJ (getFO (getFO (getF (xmlToJd 18 (lineItemEl l))
      "SpecifiedLineTradeAgreement") "NetPriceProductTradePrice") "ChargeAmount")
      = coerceText (fmt l.unitPrice) := by
    rw [hprice, getFO_some, wrapEl, show (16:ℕ) = 15 + 1 from rfl,
      getF_conv 15 _ _ _ _ _ (Or.inr (by simp)) (by simp) (by decide),
      show childrenNamed "ChargeAmount"
        [txtEl "ram:ChargeAmount" (fmt l.unitPrice),
         .el "ram:BasisQuantity" [("unitCode", l.unitCode)] "1" []]
        = [txtEl "ram:ChargeAmount" (fmt l.unitPrice)] from rfl]
    simp only [List.isEmpty_cons, Bool.false_eq_true, if_false, convGroup]
    rw [strJ_txt_conv 14 _ _, jsTrim_fmt]
  simp only [parseLineJ, lineEssentials, numJ]
  rw [hcatv, hratev, htotv, hbilled, hcharge]
  rw [show strJ (some (xmlToJd 16 (.el "ram:BilledQuantity" [("unitCode", l.unitCode)]
      (jsStr l.quantity) []))) = coerceText (jsTrim (jsStr l.quantity)) from
    strJ_attr_conv 15 _ _ _ _ (by decide)]
  rw [jsTrim_jsStr, parseQ_coerce_jsStr hq, parseQ_coerce_jsStr hr,
    parseQ_coerce_fmt, parseQ_coerce_fmt, hcne]
  simp [round2_idem]

theorem roundTripSafe_explode {inv : Invoice} (h : roundTripSafe inv = true) :
    (validateInvoice inv).valid = true ∧
    (inv.profile == "MINIMUM" || inv.profile == "BASIC" || inv.profile == "EN_16931") = true ∧
    stableS inv.number = true ∧ coStable inv.number = true ∧
    headNonZero inv.date = true ∧ optHeadNonZero inv.dueDate = true ∧
    optHeadNonZero inv.deliveryDate = true ∧
    partyFieldsOk inv.seller = true ∧ partyFieldsOk inv.buyer = true ∧
    optPresentNonempty inv.dueDate = true ∧ optPresentNonempty inv.deliveryDate = true ∧
    linesFieldsOk inv.lines = true := by
  rw [roundTripSafe] at h
  simp only [Bool.and_eq_true, and_assoc] at h
  exact h

theorem valid_parts {inv : Invoice} (h : (validateInvoice inv).valid = true) :
    headerErrors inv = [] ∧ sellerErrors inv.seller = [] ∧ buyerErrors inv.buyer = [] ∧
    inv.lines ≠ [] ∧ linesErrAux [] 0 inv.lines = [] := by
  have he : validateErrors inv = [] := by
    have h2 : (validateErrors inv).isEmpty = true := h
    simpa using h2
  rw [validateErrors] at he
  simp only [List.append_eq_nil, and_assoc] at he
  obtain ⟨h1, h2, h3, h4⟩ := he
  refine ⟨h1, h2, h3, ?_, ?_⟩
  · intro hnil
    rw [hnil] at h4
    simp at h4
  · cases hl : inv.lines.isEmpty with
    | true => rw [hl] at h4; simp at h4
    | false => rw [hl] at h4; simpa using h4

theorem headerErrors_parts {inv : Invoice} (h : headerErrors inv = []) :
    (jsTrim inv.number == "") = false ∧ dateRE inv.date = true ∧
    INVOICE_TYPE_CODES.contains inv.typeCode = true ∧ currencyRE inv.currency = true ∧
    (inv.profile == "") = false ∧ optBadDate inv.dueDate = false ∧
    optBadDate inv.deliveryDate = false := by
  rw [headerErrors] at h
  simp only [List.append_eq_nil, errIf_eq_nil_iff, and_assoc] at h
  obtain ⟨h1, h2, h3, h4, h5, h6, h7⟩ := h
  exact ⟨h1, by simpa using h2, by simpa using h3, by simpa using h4, h5, h6, h7⟩

theorem sellerErrors_country {p : TradeParty} (h : sellerErrors p = []) :
    countryRE p.address.countryCode = true := by
  rw [sellerErrors] at h
  simp only [List.append_eq_nil, errIf_eq_nil_iff, and_assoc] at h
  simpa using h.2.2.2.2

theorem buyerErrors_country {p : TradeParty} (h : buyerErrors p = []) :
    countryRE p.address.countryCode = true := by
  rw [buyerErrors] at h
  simp only [List.append_eq_nil, errIf_eq_nil_iff, and_assoc] at h
  simpa using h.2

theorem linesErr_codes :
    ∀ (ls : List InvoiceLine) (seen : List String) (i : ℕ),
      linesErrAux seen i ls = [] →
      ∀ l ∈ ls, VAT_CATEGORY_CODES.contains l.vatCategory = true := by
  intro ls
  induction ls with
  | nil => intro seen i _ l hl; cases hl
  | cons x t ih =>
    intro seen i h l hl
    rw [linesErrAux] at h
    simp only [List.append_eq_nil, and_assoc] at h
    rcases List.mem_cons.mp hl with rfl | hl2
    · have h1 := h.1
      rw [lineErrors] at h1
      simp only [List.append_eq_nil, errIf_eq_nil_iff, and_assoc] at h1
      simpa using h1.2.2.2.2
    · exact ih (x.id :: seen) (i + 1) h.2 l hl2

theorem optDate_ok {o : Option String} (h1 : optBadDate o = false)
    (h2 : optPresentNonempty o = true) :
    ∀ d, o = some d → (d == "") = false ∧ dateRE d = true := by
  intro d hd
  rw [hd] at h1 h2
  rw [optPresentNonempty] at h2
  have hne : (d == "") = false := by simpa using h2
  rw [optBadDate, hne] at h1
  simp only [Bool.not_false, Bool.true_and] at h1
  exact ⟨hne, by simpa using h1⟩

theorem profile_urn_roundtrip {p : String}
    (h : (p == "MINIMUM" || p == "BASIC" || p == "EN_16931") = true) :
    inferProfile (coerceText (jsTrim (profileUrn p))) = p := by
  simp only [Bool.or_eq_true] at h
  rcases h with (h | h) | h <;> (rw [eq_of_beq h]; decide)

theorem truthy_doc_gen (inv : Invoice) : truthyJ (xmlToJd 19 (docEl inv)) = true := rfl

theorem truthy_trx_gen (inv : Invoice) : truthyJ (xmlToJd 19 (trxEl inv)) = true := by
  rw [trxEl]
  cases hl : inv.lines with
  | nil => rfl
  | cons l0 ls0 => rfl

/-- C1 (amended): for every invoice that validates, whose profile is one of
    MINIMUM, BASIC, EN_16931 (the profiles whose URN the parser's substring
    inference maps back to themselves), whose strings carry no surrounding
    whitespace and are left unchanged by the default tag-value coercion of
    fast-xml-parser, whose date years do not start with 0, whose optional
    identity fields are absent or nonempty, and whose quantities and rates
    are finite decimals (automatic for doubles), parsing the generated XML
    succeeds and reproduces number, currency, profile, all three dates
    exactly, party identity and address fields exactly, and per-line
    category, rate, quantity exactly with unit price and total amount to
    2-decimal precision.  Excluded by the counterexample: the EXTENDED and
    BASIC_WL profiles (their URNs are mapped to EN_16931 and BASIC by the
    parser's ordered substring checks), and numeric-shaped strings with
    leading zeros such as an invoice number "007" or a postal code "01000",
    which the tag-value coercion turns into the numbers 7 and 1000, read
    back as "7" and "1000". -/
theorem round_trip_fields (inv : Invoice) (h : roundTripSafe inv = true) :
    ∃ inv', roundTrip inv = .ok inv' ∧
      inv'.number = inv.number ∧ inv'.currency = inv.currency ∧
      inv'.profile = inv.profile ∧ inv'.date = inv.date ∧
      inv'.dueDate = inv.dueDate ∧ inv'.deliveryDate = inv.deliveryDate ∧
      partyEssentials inv'.seller = partyEssentials inv.seller ∧
      partyEssentials inv'.buyer = partyEssentials inv.buyer ∧
      inv'.lines.map lineEssentials = inv.lines.map lineEssentials := by
  obtain ⟨hval, hprof, hnum, hnumc, hdz, hduz, hdelz, hsel, hbuy, hdubo, hdelbo, hlf⟩ :=
    roundTripSafe_explode h
  obtain ⟨hhd, hse, hbe, hlne, hler⟩ := valid_parts hval
  obtain ⟨hnum2, hdate, htc, hcur, hprofne, hbad1, hbad2⟩ := headerErrors_parts hhd
  rw [roundTrip, parseFacturXJ, jroot_gen]
  dsimp only []
  rw [truthy_root_gen]
  simp only [Bool.not_true, Bool.false_eq_true, if_false]
  rw [jdoc_gen, jtrx_gen]
  dsimp only []
  rw [truthy_doc_gen, truthy_trx_gen]
  simp only [Bool.not_true, Bool.or_self, Bool.false_eq_true, if_false]
  rw [rawlines_gen inv hlne, delivery_gen, settlement_gen]
  dsimp only []
  rw [agreement_gen]
  dsimp only []
  rw [seller_gen, buyer_gen,
    party_gen "ram:SellerTradeParty" inv.seller hsel (sellerErrors_country hse),
    party_gen "ram:BuyerTradeParty" inv.buyer hbuy (buyerErrors_country hbe)]
  dsimp only []
  refine ⟨_, rfl, ?_, ?_, ?_, ?_, ?_, ?_, ?_, ?_, ?_⟩
  · rw [docid_gen]
    show coerceText (jsTrim inv.number) = inv.number
    rw [eq_of_beq hnum]
    exact eq_of_beq hnumc
  · rw [currency_gen]
    show coerceText (jsTrim inv.currency) = inv.currency
    rw [currencyRE_stable hcur]
    exact currencyRE_coerce hcur
  · rw [guideline_gen]
    exact profile_urn_roundtrip hprof
  · rw [docdate_gen]
    obtain ⟨h1, h2, h3⟩ := dateRE_spec hdate
    rw [h2, coerce_toDate8 hdate hdz, h3]
  · rcases hdd : inv.dueDate with _ | dd
    · rw [terms_gen]
      rw [show otru inv.dueDate = false by rw [hdd]; rfl]
      simp only [Bool.false_or]
      cases hto : otru (paymentTermsOf inv) with
      | false => rfl
      | true =>
        simp only [if_true]
        rw [getFO_some, duedatetime_gen,
          show otru inv.dueDate = false by rw [hdd]; rfl]
        rfl
    · obtain ⟨hdne, hdre⟩ := optDate_ok hbad1 hdubo dd hdd
      rw [terms_gen, show otru inv.dueDate = true by rw [hdd]; simpa [otru] using hdne]
      simp only [Bool.true_or, if_true]
      rw [getFO_some, duedatetime_gen,
        show otru inv.dueDate = true by rw [hdd]; simpa [otru] using hdne]
      simp only [if_true]
      rw [show jtru (some (xmlToJd 15 (.el "udt:DateTimeString" [("format", "102")]
        (toDate8 (inv.dueDate.getD "")) []))) = true from rfl]
      simp only [if_true]
      rw [strJ_attr_conv 14 _ _ _ _ (by decide), hdd]
      obtain ⟨h1, h2, h3⟩ := dateRE_spec hdre
      have hzdd : headNonZero dd = true := by
        rw [hdd] at hduz
        exact hduz
      rw [show (some dd).getD "" = dd from rfl, h2, coerce_toDate8 hdre hzdd, h3]
  · rcases hdd : inv.deliveryDate with _ | dd
    · rw [deliveryevent_gen, show otru inv.deliveryDate = false by rw [hdd]; rfl]
      rfl
    · obtain ⟨hdne, hdre⟩ := optDate_ok hbad2 hdelbo dd hdd
      rw [deliveryevent_gen,
        show otru inv.deliveryDate = true by rw [hdd]; simpa [otru] using hdne]
      simp only [if_true]
      rw [show jtru (some (xmlToJd 16 (.el "ram:OccurrenceDateTime" [] ""
        [.el "udt:DateTimeString" [("format", "102")]
          (toDate8 (inv.deliveryDate.getD "")) []]))) = true from rfl]
      simp only [if_true]
      rw [getFO_some, show (16:ℕ) = 15 + 1 from rfl,
        getF_conv 15 _ _ _ _ _ (Or.inr (by simp)) (by simp) (by decide),
        show childrenNamed "DateTimeString"
          [Xml.el "udt:DateTimeString" [("format", "102")]
            (toDate8 (inv.deliveryDate.getD "")) []]
          = [Xml.el "udt:DateTimeString" [("format", "102")]
              (toDate8 (inv.deliveryDate.getD "")) []] from rfl]
      simp only [List.isEmpty_cons, Bool.false_eq_true, if_false, convGroup]
      rw [strJ_attr_conv 14 _ _ _ _ (by decide), hdd]
      obtain ⟨h1, h2, h3⟩ := dateRE_spec hdre
      have hzdd : headNonZero dd = true := by
        rw [hdd] at hdelz
        exact hdelz
      rw [show (some dd).getD "" = dd from rfl, h2, coerce_toDate8 hdre hzdd, h3]
  · rfl
  · rfl
  · rw [List.map_map, List.map_map]
    apply List.map_congr_left
    intro l hl
    have hdec : (isDec l.quantity && isDec l.vatRate) = true := by
      rw [linesFieldsOk] at hlf
      exact List.all_eq_true.mp hlf l hl
    simp only [Bool.and_eq_true] at hdec
    have hcode := linesErr_codes inv.lines [] 0 hler l hl
    exact line_gen l hdec.1 hdec.2 hcode

/-- C1 counterexample: four validator-accepted invoices whose round trip does
    not reproduce the input, one per family of hypotheses the amended claim
    adds.  The EXTENDED-profile invoice comes back with profile EN_16931 (its
    guideline URN contains the substring en16931, matched by the parser's
    first substring check).  The invoice numbered "007" comes back with
    number "7" (the default tag-value coercion of fast-xml-parser parses the
    leading-zero text into the number 7, which str() renders as "7").  The
    invoice whose number has a trailing space comes back without it
    (trimValues).  The invoice whose seller id is the empty string comes back
    with no id at all (the generator emits optional elements only for truthy
    values). -/
theorem round_trip_profile_cex :
    ((validateInvoice exInvExt).valid = true ∧
     exInvExt.profile = "EXTENDED" ∧
     roundTrip exInvExt = .ok exInv ∧
     exInv.profile = "EN_16931" ∧
     ¬(∃ inv', roundTrip exInvExt = .ok inv' ∧ inv'.profile = exInvExt.profile)) ∧
    ((validateInvoice exInv007).valid = true ∧
     exInv007.number = "007" ∧
     roundTrip exInv007 = .ok exInv7 ∧
     exInv7.number = "7" ∧
     ¬(∃ inv', roundTrip exInv007 = .ok inv' ∧ inv'.number = exInv007.number)) ∧
    ((validateInvoice exInvWs).valid = true ∧
     exInvWs.number = "FA-2024-001 " ∧
     roundTrip exInvWs = .ok exInv ∧
     ¬(∃ inv', roundTrip exInvWs = .ok inv' ∧ inv'.number = exInvWs.number)) ∧
    ((validateInvoice exInvEmptyId).valid = true ∧
     exInvEmptyId.seller.id = some "" ∧
     roundTrip exInvEmptyId = .ok exInv ∧
     ¬(∃ inv', roundTrip exInvEmptyId = .ok inv'
        ∧ inv'.seller.id = exInvEmptyId.seller.id)) := by
  have hrt : roundTrip exInvExt = .ok exInv :=
    exceptInvEqB_eq (by with_unfolding_all decide)
  have hrt7 : roundTrip exInv007 = .ok exInv7 :=
    exceptInvEqB_eq (by with_unfolding_all decide)
  have hrtw : roundTrip exInvWs = .ok exInv :=
    exceptInvEqB_eq (by with_unfolding_all decide)
  have hrte : roundTrip exInvEmptyId = .ok exInv :=
    exceptInvEqB_eq (by with_unfolding_all decide)
  refine ⟨⟨by with_unfolding_all decide, rfl, hrt, rfl, ?_⟩,
    ⟨by with_unfolding_all decide, rfl, hrt7, rfl, ?_⟩,
    ⟨by with_unfolding_all decide, rfl, hrtw, ?_⟩,
    ⟨by with_unfolding_all decide, rfl, hrte, ?_⟩⟩
  · rintro ⟨inv', h1, h2⟩
    rw [hrt] at h1
    have h3 := Except.ok.inj h1
    rw [← h3] at h2
    exact absurd h2 (by decide)
  · rintro ⟨inv', h1, h2⟩
    rw [hrt7] at h1
    have h3 := Except.ok.inj h1
    rw [← h3] at h2
    exact absurd h2 (by decide)
  · rintro ⟨inv', h1, h2⟩
    rw [hrtw] at h1
    have h3 := Except.ok.inj h1
    rw [← h3] at h2
    exact absurd h2 (by decide)
  · rintro ⟨inv', h1, h2⟩
    rw [hrte] at h1
    have h3 := Except.ok.inj h1
    rw [← h3] at h2
    exact absurd h2 (by decide)

theorem round_trip_fields_witness :
    roundTripSafe exInv = true ∧
    (∃ inv', roundTrip exInv = .ok inv' ∧
      inv'.number = exInv.number ∧ inv'.currency = exInv.currency ∧
      inv'.profile = exInv.profile ∧ inv'.date = exInv.date ∧
      inv'.dueDate = exInv.dueDate ∧ inv'.deliveryDate = exInv.deliveryDate ∧
      partyEssentials inv'.seller = partyEssentials exInv.seller ∧
      partyEssentials inv'.buyer = partyEssentials exInv.buyer ∧
      inv'.lines.map lineEssentials = exInv.lines.map lineEssentials) :=
  ⟨by with_unfolding_all decide,
   round_trip_fields exInv (by with_unfolding_all decide)⟩
